import Mathlib

/-!
# radosgw_exporter: a shallow embedding of the signing engine, the admin client
and the Prometheus collector

Go `string` values are Lean `String`s (text), `[]byte` values are lists of
`UInt8`; `[]byte(s)` is the UTF-8 encoding of `s`.  Code of the Go standard
library that the repository only calls (URL parsing, the HTTP round trip, the
hash functions, the JSON codec, the clock) is a field of `World`.
-/

namespace Radosgw

/-! ## Strings and bytes -/

abbrev Bytes := List UInt8

/-- The conversion `[]byte(s)`. -/
def bytesOf (s : String) : Bytes := s.data.flatMap String.utf8EncodeChar

/-- Byte-wise lexicographic `a <= b`, the order of Go strings. -/
def lexLe : List Nat → List Nat → Bool
  | [], _ => true
  | _ :: _, [] => false
  | a :: as, b :: bs => if a < b then true else if b < a then false else lexLe as bs

/-- Go `a <= b` on strings. -/
def strLe (a b : String) : Bool :=
  lexLe ((bytesOf a).map UInt8.toNat) ((bytesOf b).map UInt8.toNat)

/-- Go `sort.Strings`. -/
def sortStrings (l : List String) : List String :=
  l.insertionSort (fun a b => strLe a b = true)

/-- Upper-case hexadecimal digit of `n < 16`. -/
def hexUpper (n : Nat) : Char :=
  if n < 10 then Char.ofNat (48 + n) else Char.ofNat (55 + n)

/-- Lower-case hexadecimal digit of `n < 16`. -/
def hexLower (n : Nat) : Char :=
  if n < 10 then Char.ofNat (48 + n) else Char.ofNat (87 + n)

/-- Go `hex.EncodeToString`. -/
def hexEncode (b : Bytes) : String :=
  ⟨b.flatMap fun x => [hexLower (x.toNat / 16), hexLower (x.toNat % 16)]⟩

/-- Go `fmt.Sprintf("%%%02X", b)`. -/
def pctEncode (b : UInt8) : List Char :=
  ['%', hexUpper (b.toNat / 16), hexUpper (b.toNat % 16)]

/-- Letters, digits and `-`, `_`, `.`, `~`. -/
def isUnreserved (b : UInt8) : Bool :=
  (65 ≤ b.toNat && b.toNat ≤ 90) || (97 ≤ b.toNat && b.toNat ≤ 122) ||
  (48 ≤ b.toNat && b.toNat ≤ 57) ||
  b.toNat == 45 || b.toNat == 95 || b.toNat == 46 || b.toNat == 126

/-- The function `uriEncode` of sign.go. -/
def uriEncode (uri : String) ( encodeSlash : Bool) : String :=
  ⟨(bytesOf uri).flatMap fun b =>
    if isUnreserved b || (b.toNat == 47 && !encodeSlash) then [Char.ofNat b.toNat]
    else pctEncode b⟩

/-- Go `url.QueryEscape`: unreserved bytes are kept, a space becomes `+`,
every other byte becomes `%XX`. -/
def QueryEscape (s : String) : String :=
  ⟨(bytesOf s).flatMap fun b =>
    if isUnreserved b then [Char.ofNat b.toNat]
    else if b.toNat == 32 then ['+'] else pctEncode b⟩

/-- Go `strings.HasPrefix`. -/
def HasPrefix (s p : String) : Bool := p.data.isPrefixOf s.data

/-- Go `strings.HasSuffix`. -/
def HasSuffix (s p : String) : Bool := p.data.isSuffixOf s.data

/-- Go `strings.Replace(s, "+", "%20", -1)`. -/
def replacePlus (s : String) : String :=
  ⟨s.data.flatMap fun c => if c = '+' then ['%', '2', '0'] else [c]⟩

/-- Go `unicode.ToLower`: up to `unicode.MaxASCII` only the letters `A` to `Z`
change; a rune above it is looked up in the case tables of the release, which
`table` stands for. -/
def toLowerRune (table : Char → Char) (c : Char) : Char :=
  if c.toNat ≤ 127 then c.toLower else table c

/-- Go `strings.ToLower`, which is `strings.Map(unicode.ToLower, s)`; its
shortcut for ASCII text gives the same string. -/
def ToLower (table : Char → Char) (s : String) : String := ⟨s.data.map (toLowerRune table)⟩

/-- Go `unicode.IsSpace`. -/
def isSpace (c : Char) : Bool :=
  let n := c.toNat
  (9 ≤ n && n ≤ 13) || n == 32 || n == 133 || n == 160 || n == 5760 ||
  (8192 ≤ n && n ≤ 8202) || n == 8232 || n == 8233 || n == 8239 || n == 8287 || n == 12288

/-- Go `strings.TrimSpace`. -/
def TrimSpace (s : String) : String :=
  ⟨((s.data.dropWhile isSpace).reverse.dropWhile isSpace).reverse⟩

/-- Go `strings.Contains(s, ":")`. -/
def containsColon (s : String) : Bool := s.data.contains ':'

/-- Go `strings.Split` at a one-character separator, on character lists; `cur`
holds the current part in reverse. -/
def splitAux (sep : Char) : List Char → List Char → List (List Char)
  | [], cur => [cur.reverse]
  | c :: cs, cur =>
    if c = sep then cur.reverse :: splitAux sep cs [] else splitAux sep cs (c :: cur)

/-- Go `strings.Split(s, ":")`. -/
def splitColon (s : String) : List String := (splitAux ':' s.data []).map String.mk

/-- Go `strings.Join`. -/
def Join (l : List String) (sep : String) : String := sep.intercalate l

/-- Go `fmt.Sprintf("%v", b)` for a bool. -/
def fmtBool (b : Bool) : String := if b then "true" else "false"

/-! ## url.Values -/

/-- Go `url.Values`, a map from a key to the list of its values; the entries
have distinct keys. -/
structure Values where
  entries : List (String × List String)
deriving DecidableEq, Repr

/-- The literal `url.Values{}` (and the nil map). -/
def Values.empty : Values := ⟨[]⟩

/-- Append `v` to the values of `k` in an entry list. -/
def addEntry (k v : String) : List (String × List String) → List (String × List String)
  | [] => [(k, [v])]
  | (k1, vs) :: rest => if k1 = k then (k1, vs ++ [v]) :: rest else (k1, vs) :: addEntry k v rest

/-- Go `Values.Add`. -/
def Values.Add (a : Values) (k v : String) : Values := ⟨addEntry k v a.entries⟩

/-- Go `Values.Encode`: the pairs `key=value`, escaped, sorted by key, joined by `&`. -/
def Values.Encode (a : Values) : String :=
  let sorted := a.entries.insertionSort (fun x y => strLe x.1 y.1 = true)
  Join (sorted.flatMap fun e => e.2.map fun v => QueryEscape e.1 ++ "=" ++ QueryEscape v) "&"

/-! ## http.Header -/

/-- Go `validHeaderFieldByte`: the token characters of RFC 7230. -/
def validHeaderFieldByte (c : Char) : Bool :=
  c.isAlphanum || [33, 35, 36, 37, 38, 39, 42, 43, 45, 46, 94, 95, 96, 124, 126].contains c.toNat

/-- The case rewriting of `CanonicalMIMEHeaderKey`: upper case at the start and
after a `-`, lower case elsewhere. -/
def canonCase : Bool → List Char → List Char
  | _, [] => []
  | upper, c :: cs =>
    let c1 := if upper then c.toUpper else c.toLower
    c1 :: canonCase (c1 = '-') cs

/-- Go `textproto.CanonicalMIMEHeaderKey`: a key with a byte that is no token
character is returned unchanged. -/
def CanonicalMIMEHeaderKey (s : String) : String :=
  if s.data.all validHeaderFieldByte then ⟨canonCase true s.data⟩ else s

/-- Go `http.Header`, a map from a key to the list of its values; the list order
is the order in which `range` visits the map. -/
structure Header where
  entries : List (String × List String)
deriving DecidableEq, Repr

/-- The literal `make(http.Header)`. -/
def Header.empty : Header := ⟨[]⟩

/-- Map lookup `h[k]`. -/
def Header.lookup (h : Header) (k : String) : List String :=
  match h.entries.find? (fun e => e.1 = k) with
  | some e => e.2
  | none => []

/-- Map assignment `h[k] = vs` on an entry list. -/
def setEntry (k : String) (vs : List String) :
    List (String × List String) → List (String × List String)
  | [] => [(k, vs)]
  | (k1, v1) :: rest => if k1 = k then (k, vs) :: rest else (k1, v1) :: setEntry k vs rest

/-- Go `Header.Set`. -/
def Header.Set (h : Header) (key value : String) : Header :=
  ⟨setEntry (CanonicalMIMEHeaderKey key) [value] h.entries⟩

/-- Go `Header.Add`. -/
def Header.Add (h : Header) (key value : String) : Header :=
  ⟨addEntry (CanonicalMIMEHeaderKey key) value h.entries⟩

/-- Go `Header.Get`: the first value of the canonical key, or the empty string. -/
def Header.Get (h : Header) (key : String) : String :=
  match h.lookup (CanonicalMIMEHeaderKey key) with
  | [] => ""
  | v :: _ => v

/-! ## Library values: errors, time, URLs, HTTP messages, JSON -/

/-- A Go `error` value, by the way it was built. -/
inductive GoError where
  /-- An error returned by a library call. -/
  | lib (msg : String)
  /-- The call `fmt.Errorf(msg)` with a constant text. -/
  | text (msg : String)
  /-- The call `fmt.Errorf("%s", string(body))`. -/
  | body (b : Bytes)
  /-- The call `fmt.Errorf("%s: %s", err.Error(), string(body))`. -/
  | wrapped (e : GoError) (b : Bytes)
deriving DecidableEq, Repr

/-- A `time.Time` by its calendar fields (year up to 9999). -/
structure Time where
  year : Nat
  month : Nat
  day : Nat
  hour : Nat
  minute : Nat
  second : Nat
deriving DecidableEq, Repr

/-- Decimal digit. -/
def digit (n : Nat) : Char := Char.ofNat (48 + n % 10)

/-- Two decimal digits, zero padded. -/
def pad2 (n : Nat) : List Char := [digit (n / 10), digit n]

/-- Four decimal digits, zero padded. -/
def pad4 (n : Nat) : List Char := [digit (n / 1000), digit (n / 100), digit (n / 10), digit n]

/-- The call `utc.Format("20060102T150405Z")`. -/
def formatSignDate (t : Time) : String :=
  ⟨pad4 t.year ++ pad2 t.month ++ pad2 t.day ++ ['T'] ++
    pad2 t.hour ++ pad2 t.minute ++ pad2 t.second ++ ['Z']⟩

/-- The call `t.Format(usageTimeFormat)` with `usageTimeFormat = "2006-01-02 15:04:05"`. -/
def formatUsageTime (t : Time) : String :=
  ⟨pad4 t.year ++ ['-'] ++ pad2 t.month ++ ['-'] ++ pad2 t.day ++ [' '] ++
    pad2 t.hour ++ [':'] ++ pad2 t.minute ++ [':'] ++ pad2 t.second⟩

/-- The slice `date[:8]` of a timestamp (ASCII, at least 8 bytes long). -/
def dateStamp (date : String) : String := ⟨date.data.take 8⟩

/-- A parsed `url.URL`: `Query` is what `URL.Query()` returns. -/
structure URL where
  Host : String
  Path : String
  Query : Values
deriving DecidableEq, Repr

/-- A Go `http.Request`; `Body` is the content still to be read, `none` for a nil body. -/
structure Request where
  Method : String
  URL : URL
  Host : String
  Header : Header
  Body : Option Bytes
deriving DecidableEq, Repr

/-- A Go `http.Response`: the status code and what `ioutil.ReadAll(resp.Body)` returns. -/
structure Response where
  StatusCode : Int
  Body : Bytes
  readErr : Option GoError
deriving DecidableEq, Repr

/-- A decoded JSON document, the dynamic value `json.Unmarshal` stores in an `interface{}`. -/
inductive Json where
  | null
  | bool (b : Bool)
  | number (literal : String)
  | str (s : String)
  | arr (elems : List Json)
  | obj (fields : List (String × Json))

/-- The type `QuotaType` of user.go. -/
structure QuotaType where
  MaxObjects : Int
  MaxSize : Int
  Enabled : Bool
deriving DecidableEq, Repr

/-- The field `Usage.RgwMain` of `BucketStatsType`. -/
structure RgwMainType where
  NumObjects : Int
  Size : Int
  SizeActual : Int
deriving DecidableEq, Repr

/-- The field `Usage` of `BucketStatsType`. -/
structure BucketUsageType where
  RgwMain : RgwMainType
deriving DecidableEq, Repr

/-- The type `BucketStatsType` of bucket.go. -/
structure BucketStatsType where
  Bucket : String
  Zonegroup : String
  PlacementRule : String
  ID : String
  Marker : String
  IndexPool : String
  Owner : String
  Ver : String
  MasterVer : String
  Mtime : String
  MaxMarker : String
  Usage : BucketUsageType
  BucketQuota : QuotaType
deriving DecidableEq, Repr

/-- The type `BucketType` of bucket.go; `Stats` is a pointer, `none` when nil. -/
structure BucketType where
  Name : String
  Stats : Option BucketStatsType
deriving DecidableEq, Repr

/-- The type `UsageCategoryType` of usage.go. -/
structure UsageCategoryType where
  Category : String
  BytesSent : Int
  BytesReceived : Int
  Ops : Int
  SuccessfulOps : Int
deriving DecidableEq, Repr

/-- An element of the field `Buckets` of `UsageEntryType`. -/
structure UsageBucketType where
  Bucket : String
  Time : String
  Epoch : Int
  Owner : String
  Categories : List UsageCategoryType
deriving DecidableEq, Repr

/-- The type `UsageEntryType` of usage.go. -/
structure UsageEntryType where
  User : String
  Buckets : List UsageBucketType
deriving DecidableEq, Repr

/-- The field `Total` of `UsageSummaryType`. -/
structure UsageTotalType where
  BytesSent : Int
  BytesReceived : Int
  Ops : Int
  SuccessfulOps : Int
deriving DecidableEq, Repr

/-- The type `UsageSummaryType` of usage.go. -/
structure UsageSummaryType where
  User : String
  Categories : List UsageCategoryType
  Total : UsageTotalType
deriving DecidableEq, Repr

/-- The type `UsageType` of usage.go. -/
structure UsageType where
  Entries : List UsageEntryType
  Summary : List UsageSummaryType
deriving DecidableEq, Repr

/-- What the program calls but does not define: the Go standard library and the
network.  `now k` is the clock reading and `Do k` the HTTP round trip of the
exchange that follows `k` earlier ones. -/
structure World where
  /-- Go `url.Parse`. -/
  urlParse : String → Except GoError URL
  /-- The digest of `sha256.New()`. -/
  sha256 : Bytes → Bytes
  /-- The digest of `hmac.New(sha256.New, key)` over a message. -/
  hmac : Bytes → Bytes → Bytes
  /-- The value of `time.Now().UTC()`. -/
  now : Nat → Time
  /-- The call `globalHttpClient.Do`. -/
  Do : Nat → Request → Except GoError Response
  /-- Go `json.Unmarshal` into an `interface{}`. -/
  unmarshalAny : Bytes → Except GoError Json
  /-- Go `json.Marshal` of a decoded value. -/
  marshal : Json → Bytes
  /-- Go `json.Unmarshal` into a `BucketStatsType`. -/
  unmarshalStats : Bytes → Except GoError BucketStatsType
  /-- Go `json.Unmarshal` into a `UsageType`. -/
  unmarshalUsage : Bytes → Except GoError UsageType
  /-- Go `unicode.ToLower` on a rune above `unicode.MaxASCII`. -/
  unicodeToLower : Char → Char

/-! ## sign.go -/

def signAlgorithm : String := "AWS4-HMAC-SHA256"
def signRegion : String := "us-east-1"
def signService : String := "s3"
def signRequest : String := "aws4_request"

/-- The function `hmacSha256` of sign.go. -/
def hmacSha256 (w : World) (key : Bytes) (strToSign : String) : Bytes :=
  w.hmac key (bytesOf strToSign)

/-- The function `hashSha256Hex` of sign.go. -/
def hashSha256Hex (w : World) (content : Bytes) : String :=
  hexEncode (w.sha256 content)

/-- The function `signDateString` of sign.go, at the clock reading `t`. -/
def signDateString (t : Time) : String := formatSignDate t

/-- The canonical URI of `Sign` (sign.go lines 46 to 53). -/
def canonicalRequestUri (path : String) : String :=
  let uri := if path.data.length = 0 then "/" else path
  let uri : String := if HasPrefix uri "/" then ⟨uri.data.drop 1⟩ else uri
  "/" ++ uriEncode uri false

/-- The canonical query string of `Sign` (sign.go lines 56 and 57). -/
def canonicalQueryString (u : URL) : String := replacePlus u.Query.Encode

/-- The headers of the request after `Sign` has set its own (sign.go lines 66 to 74). -/
def signHeaders (h : Header) (hashedPayload date host : String) : Header :=
  let h := h.Set "X-Amz-Content-Sha256" hashedPayload
  let h := if h.Get "X-Amz-Date" = "" then h.Set "X-Amz-Date" date else h
  let h := if h.Get "Content-Type" = "" then
      h.Set "Content-Type" "application/x-www-form-urlencoded; charset=utf-8" else h
  h.Set "Host" host

/-- The test of the loop over the header map: is the header `key` signed. -/
def isSignedKey (key : String) : Bool :=
  key = "Content-Type" || key = "Content-Md5" || key = "Host" || HasPrefix key "X-Amz-"

/-- The slice `sortedHeaderKeys` of `Sign` (sign.go lines 76 to 87). -/
def sortedHeaderKeys (w : World) (h : Header) : List String :=
  sortStrings (((h.entries.map Prod.fst).filter isSignedKey).map (ToLower w.unicodeToLower))

/-- The value signed for the header `key` (sign.go lines 91 to 101); `Split`
returns at least two parts when the value contains a colon. -/
def signedValue (h : Header) (key : String) : String :=
  let value := TrimSpace (h.Get key)
  if key = "host" then
    if containsColon value then
      let split := splitColon value
      let port := split.getD 1 ""
      if port = "80" || port = "443" then split.getD 0 "" else value
    else value
  else value

/-- The string `headersToSign` of `Sign` (sign.go lines 89 to 103). -/
def headersToSign (h : Header) (keys : List String) : String :=
  String.join (keys.map fun key => key ++ ":" ++ signedValue h key ++ "\n")

/-- Every value `Sign` computes on its way. -/
structure Signing where
  payload : Bytes
  hashedPayload : String
  date : String
  header : Header
  sortedHeaderKeys : List String
  headersToSign : String
  signedHeaders : String
  canonicalRequest : String
  credentialScope : String
  stringToSign : String
  signature : String
  authorizationString : String
deriving DecidableEq, Repr

/-- The body of `Sign`, with `date` the value returned by `signDateString()`. -/
def signing (w : World) (date : String) (request : Request)
    (accessKeyId secretAccessKey : String) : Signing :=
  let canonicalRequestMethod := request.Method
  let uri := canonicalRequestUri request.URL.Path
  let canonicalQuery := canonicalQueryString request.URL
  let payload : Bytes := match request.Body with
    | some b => b
    | none => []
  let hashedPayload := hashSha256Hex w payload
  let header := signHeaders request.Header hashedPayload date request.Host
  let keys := sortedHeaderKeys w header
  let toSign := headersToSign header keys
  let signedHeaders := Join keys ";"
  let canonicalRequest := Join
    [canonicalRequestMethod, uri, canonicalQuery, toSign, signedHeaders, hashedPayload] "\n"
  let hashedCanonicalRequest := hashSha256Hex w (bytesOf canonicalRequest)
  let credentialScope :=
    dateStamp date ++ "/" ++ signRegion ++ "/" ++ signService ++ "/" ++ signRequest
  let stringToSign := signAlgorithm ++ "\n" ++ date ++ "\n" ++ credentialScope ++ "\n" ++
    hashedCanonicalRequest
  let kSecret := secretAccessKey
  let kDate := hmacSha256 w (bytesOf ("AWS4" ++ kSecret)) (dateStamp date)
  let kRegion := hmacSha256 w kDate signRegion
  let kService := hmacSha256 w kRegion signService
  let kSigning := hmacSha256 w kService signRequest
  let signature := hexEncode (hmacSha256 w kSigning stringToSign)
  let authorizationString := signAlgorithm ++ " Credential=" ++ accessKeyId ++ "/" ++
    credentialScope ++ ", SignedHeaders=" ++ signedHeaders ++ ", Signature=" ++ signature
  { payload := payload, hashedPayload := hashedPayload, date := date, header := header,
    sortedHeaderKeys := keys, headersToSign := toSign, signedHeaders := signedHeaders,
    canonicalRequest := canonicalRequest, credentialScope := credentialScope,
    stringToSign := stringToSign, signature := signature,
    authorizationString := authorizationString }

/-- The function `Sign` of sign.go, called when the clock reads `now`: the
request with the signing headers set and its body readable again. -/
def Sign (w : World) (now : Time) (request : Request)
    (accessKeyId secretAccessKey : String) : Request :=
  let s := signing w (signDateString now) request accessKeyId secretAccessKey
  { request with
    Header := s.header.Set "Authorization" s.authorizationString
    Body := request.Body.map fun _ => s.payload }

/-! ## admin.go -/

def defaultAdminPrefix : String := "/admin"

/-- The type `Client` of admin.go; `pfx` is its field `prefix`. -/
structure Client where
  accessKeyId : String
  secretAccessKey : String
  endpoint : String
  pfx : String
deriving DecidableEq, Repr

/-- The function `NewClient` of admin.go. -/
def NewClient (endpoint ak sk : String) : Except GoError Client :=
  if endpoint.data.length = 0 || ak.data.length = 0 || sk.data.length = 0 then
    .error (.text "endpoint, ak and sk should not be empty")
  else
    let endpoint : String :=
      if HasSuffix endpoint "/" then ⟨endpoint.data.take (endpoint.data.length - 1)⟩ else endpoint
    .ok ⟨ak, sk, endpoint, defaultAdminPrefix⟩

/-- The method `SetPrefix` of admin.go. -/
def Client.SetPrefix (c : Client) (p : String) : Client := { c with pfx := p }

/-- The requests handed to `globalHttpClient.Do` so far, oldest first. -/
abbrev Net := List Request

/-- The three results of `sendRequest`; `respBody` is `none` for a nil slice. -/
structure SendResult where
  respBody : Option Bytes
  status : Int
  err : Option GoError
deriving DecidableEq, Repr

/-- The string `requestUrl` of `sendRequest` (admin.go lines 51 to 56). -/
def requestUrl (c : Client) (uri : String) (args : Values) : String :=
  if c.pfx.data.length ≠ 0 then c.endpoint ++ c.pfx ++ uri ++ "?" ++ args.Encode
  else c.endpoint ++ uri ++ "?" ++ args.Encode

/-- The loop `req.Header.Add(k, headers[k])` of `sendRequest`. -/
def addHeaders (headers : List (String × String)) : Header :=
  headers.foldl (fun h kv => h.Add kv.1 kv.2) Header.empty

/-- The method `sendRequest` of admin.go, with the requests sent before it. -/
def sendRequest (w : World) (net : Net) (c : Client) (method uri : String) (args : Values)
    (headers : List (String × String)) (body : Option Bytes) : SendResult × Net :=
  match w.urlParse (requestUrl c uri args) with
  | .error e => (⟨none, 400, some e⟩, net)
  | .ok u =>
    let req : Request :=
      { Method := method, URL := u, Host := u.Host, Header := addHeaders headers, Body := body }
    let req := Sign w (w.now net.length) req c.accessKeyId c.secretAccessKey
    match w.Do net.length req with
    | .error e => (⟨none, 500, some e⟩, net ++ [req])
    | .ok resp => (⟨some resp.Body, resp.StatusCode, resp.readErr⟩, net ++ [req])

/-- The conversion `string(body)` inside an error text; a nil body is empty. -/
def bodyOf (b : Option Bytes) : Bytes := b.getD []

/-! ## bucket.go and usage.go -/

/-- The three results of `GetBucket`; `buckets` is `none` for a nil slice. -/
structure BucketResult where
  status : Int
  buckets : Option (List BucketType)
  err : Option GoError
deriving DecidableEq, Repr

/-- The query arguments `GetBucket` builds (bucket.go lines 52 to 60). -/
def bucketArgs (bucket uid : String) (stats : Bool) : Values :=
  let args := Values.empty.Add "format" "json"
  let args := if bucket.data.length ≠ 0 then args.Add "bucket" bucket else args
  let args := if uid.data.length ≠ 0 then args.Add "uid" uid else args
  args.Add "stats" (fmtBool stats)

/-- The loop of `GetBucket` over the elements of a JSON array (bucket.go lines 77
to 88): a string gives a bare name, anything else is encoded again and decoded
as bucket stats; the first decoding error ends the loop. -/
def decodeElems (w : World) : List Json → List BucketType → Except GoError (List BucketType)
  | [], result => .ok result
  | .str name :: rest, result => decodeElems w rest (result ++ [{ Name := name, Stats := none }])
  | v :: rest, result =>
    match w.unmarshalStats (w.marshal v) with
    | .error e => .error e
    | .ok resultStats => decodeElems w rest (result ++ [{ Name := "", Stats := some resultStats }])

/-- The parsing part of `GetBucket` (bucket.go lines 71 to 96). -/
def parseBuckets (w : World) (body : Bytes) : Except GoError (List BucketType) :=
  match w.unmarshalAny body with
  | .error e => .error e
  | .ok (.arr elems) => decodeElems w elems []
  | .ok _ =>
    match w.unmarshalStats body with
    | .error e => .error e
    | .ok resultStats => .ok [{ Name := "", Stats := some resultStats }]

/-- The method `GetBucket` of bucket.go. -/
def GetBucket (w : World) (net : Net) (c : Client) (bucket uid : String) (stats : Bool) :
    BucketResult × Net :=
  match sendRequest w net c "GET" "/bucket" (bucketArgs bucket uid stats) [] none with
  | (res, net1) =>
    match res.err with
    | some err => (⟨res.status, none, some (.wrapped err (bodyOf res.respBody))⟩, net1)
    | none =>
      if res.status ≥ 400 then (⟨res.status, none, some (.body (bodyOf res.respBody))⟩, net1)
      else
        match parseBuckets w (bodyOf res.respBody) with
        | .error e => (⟨res.status, none, some e⟩, net1)
        | .ok result => (⟨res.status, some result, none⟩, net1)

/-- The three results of `GetUsage`; `usage` is `none` for a nil pointer. -/
structure UsageResult where
  status : Int
  usage : Option UsageType
  err : Option GoError
deriving DecidableEq, Repr

/-- The query arguments `GetUsage` builds (usage.go lines 63 to 75). -/
def usageArgs (uid : String) (start stop : Option Time) (showSummary showEntries : Bool) :
    Values :=
  let args := Values.empty.Add "format" "json"
  let args := if uid.data.length ≠ 0 then args.Add "uid" uid else args
  let args := match start with
    | some t => args.Add "start" (formatUsageTime t)
    | none => args
  let args := match stop with
    | some t => args.Add "end" (formatUsageTime t)
    | none => args
  let args := args.Add "show-entries" (fmtBool showEntries)
  args.Add "show-summary" (fmtBool showSummary)

/-- The method `GetUsage` of usage.go; the parameter `stop` is its `end`. -/
def GetUsage (w : World) (net : Net) (c : Client) (uid : String) (start stop : Option Time)
    (showSummary showEntries : Bool) : UsageResult × Net :=
  match sendRequest w net c "GET" "/usage"
      (usageArgs uid start stop showSummary showEntries) [] none with
  | (res, net1) =>
    match res.err with
    | some err => (⟨res.status, none, some (.wrapped err (bodyOf res.respBody))⟩, net1)
    | none =>
      if res.status ≥ 400 then (⟨res.status, none, some (.body (bodyOf res.respBody))⟩, net1)
      else
        match w.unmarshalUsage (bodyOf res.respBody) with
        | .error e => (⟨res.status, none, some e⟩, net1)
        | .ok result => (⟨res.status, some result, none⟩, net1)

/-! ## The operations of bucket.go and user.go that change the gateway -/

/-- The two results `(int, error)` of an admin operation without a payload. -/
structure OpResult where
  status : Int
  err : Option GoError
deriving DecidableEq, Repr

/-- The method `DeleteBucket` of bucket.go. -/
def DeleteBucket (w : World) (net : Net) (c : Client) (bucket : String) (purgeObjects : Bool) :
    OpResult × Net :=
  let args := Values.empty.Add "format" "json"
  if bucket.data.length = 0 then (⟨400, some (.text "bucket name should not be empty")⟩, net)
  else
    let args := args.Add "bucket" bucket
    let args := args.Add "purge-objects" (fmtBool purgeObjects)
    match sendRequest w net c "DELETE" "/bucket" args [] none with
    | (res, net1) =>
      match res.err with
      | some err => (⟨res.status, some (.wrapped err (bodyOf res.respBody))⟩, net1)
      | none =>
        if res.status ≥ 400 then (⟨res.status, some (.body (bodyOf res.respBody))⟩, net1)
        else (⟨res.status, none⟩, net1)

/-- The method `DeleteObject` of bucket.go; the second component is the client
as the call leaves it. -/
def DeleteObject (w : World) (net : Net) (c : Client) (bucket object : String) :
    OpResult × Client × Net :=
  if bucket.data.length = 0 then (⟨400, some (.text "bucket name should not be empty")⟩, c, net)
  else if object.data.length = 0 then
    (⟨400, some (.text "object name should not be empty")⟩, c, net)
  else
    let uri := "/" ++ bucket ++ "/" ++ object
    let c := c.SetPrefix ""
    match sendRequest w net c "DELETE" uri Values.empty [] none with
    | (res, net1) =>
      match res.err with
      | some err => (⟨res.status, some (.wrapped err (bodyOf res.respBody))⟩, c, net1)
      | none =>
        if res.status ≥ 400 then (⟨res.status, some (.body (bodyOf res.respBody))⟩, c, net1)
        else (⟨res.status, none⟩, c, net1)

/-- The text `CreateBucket` writes into the request body for a region
(bucket.go lines 268 to 272). -/
def createBucketConfiguration (region : String) : String :=
  "\n<CreateBucketConfiguration xmlns=\"http://s3.amazonaws.com/doc/2006-03-01/\">\n" ++
  "  <LocationConstraint>" ++ region ++ "</LocationConstraint>\n" ++
  "</CreateBucketConfiguration>\n"

/-- The method `CreateBucket` of bucket.go; the second component is the client
as the call leaves it, after the deferred `SetPrefix(defaultAdminPrefix)`. -/
def CreateBucket (w : World) (net : Net) (c : Client) (bucket region acl : String) :
    OpResult × Client × Net :=
  if bucket.data.length = 0 then (⟨400, some (.text "bucket name should not be empty")⟩, c, net)
  else
    let aclHeader : List (String × String) :=
      if acl.data.length ≠ 0 then [("x-amz-acl", acl)] else []
    let inputBody : Bytes :=
      if region.data.length ≠ 0 then bytesOf (createBucketConfiguration region) else []
    let c := c.SetPrefix ""
    match sendRequest w net c "PUT" ("/" ++ bucket) Values.empty aclHeader (some inputBody) with
    | (res, net1) =>
      let c := c.SetPrefix defaultAdminPrefix
      match res.err with
      | some err => (⟨res.status, some (.wrapped err (bodyOf res.respBody))⟩, c, net1)
      | none =>
        if res.status ≥ 400 then (⟨res.status, some (.body (bodyOf res.respBody))⟩, c, net1)
        else (⟨res.status, none⟩, c, net1)

/-- The type `CapType` of user.go; `Typ` is its field `Type`. -/
structure CapType where
  Perm : String
  Typ : String
deriving DecidableEq, Repr

/-- The type `KeyType` of user.go. -/
structure KeyType where
  User : String
  AccessKey : String
  SecretKey : String
deriving DecidableEq, Repr

/-- The type `UserType` of user.go. -/
structure UserType where
  UserID : String
  DisplayName : String
  Email : String
  Keys : List KeyType
  Caps : List CapType
  MaxBuckets : Int
  Suspended : Int
deriving DecidableEq, Repr

/-- The three results of `GetUser`; `user` is `none` for a nil pointer. -/
structure UserResult where
  status : Int
  user : Option UserType
  err : Option GoError
deriving DecidableEq, Repr

/-- The method `GetUser` of user.go; `unmarshalUser` is `json.Unmarshal` into a
`UserType`, `uid` the variadic parameter. -/
def GetUser (w : World) (unmarshalUser : Bytes → Except GoError UserType) (net : Net)
    (c : Client) (uid : List String) : UserResult × Net :=
  let args := Values.empty.Add "format" "json"
  let args := match uid with
    | u :: _ => args.Add "uid" u
    | [] => args
  match sendRequest w net c "GET" "/user" args [] none with
  | (res, net1) =>
    match res.err with
    | some err => (⟨res.status, none, some (.wrapped err (bodyOf res.respBody))⟩, net1)
    | none =>
      if res.status ≥ 400 then (⟨res.status, none, some (.body (bodyOf res.respBody))⟩, net1)
      else
        match unmarshalUser (bodyOf res.respBody) with
        | .error e => (⟨res.status, none, some e⟩, net1)
        | .ok result => (⟨res.status, some result, none⟩, net1)

/-- The method `DeleteUser` of user.go. -/
def DeleteUser (w : World) (net : Net) (c : Client) (uid : String) (purgeData : Bool) :
    OpResult × Net :=
  let args := Values.empty
  if uid.data.length = 0 then (⟨400, some (.text "user id should not be empty")⟩, net)
  else
    let args := args.Add "uid" uid
    let args := if purgeData then args.Add "purge-data" "" else args
    match sendRequest w net c "DELETE" "/user" args [] none with
    | (res, net1) => (⟨res.status, res.err⟩, net1)

/-- The method `DeleteKey` of user.go. -/
def DeleteKey (w : World) (net : Net) (c : Client) (uid ak : String) : OpResult × Net :=
  let args := Values.empty.Add "key" ""
  if uid.data.length = 0 || ak.data.length = 0 then
    (⟨400, some (.text "user id or access key id should not be empty")⟩, net)
  else
    let args := args.Add "uid" uid
    let args := args.Add "access-key" ak
    match sendRequest w net c "DELETE" "/user" args [] none with
    | (res, net1) => (⟨res.status, res.err⟩, net1)

/-- The method `DeleteCaps` of user.go. -/
def DeleteCaps (w : World) (net : Net) (c : Client) (uid : String)
    (user buckets usage : List String) : OpResult × Net :=
  let args := Values.empty.Add "caps" ""
  if uid.data.length = 0 then (⟨400, some (.text "user id should not be empty")⟩, net)
  else
    let args := args.Add "uid" uid
    let userCaps : List String := []
    let userCaps := if user.length ≠ 0 then userCaps ++ ["user=" ++ Join user ","] else userCaps
    let userCaps :=
      if buckets.length ≠ 0 then userCaps ++ ["buckets=" ++ Join buckets ","] else userCaps
    let userCaps := if usage.length ≠ 0 then userCaps ++ ["usage=" ++ Join usage ","] else userCaps
    let args := args.Add "user-caps" (Join userCaps ";")
    match sendRequest w net c "DELETE" "/user" args [] none with
    | (res, net1) => (⟨res.status, res.err⟩, net1)

/-! ## collector.go -/

def radosgwNamespace : String := "radosgw"

/-- The number of low binary digits of `n` that a significand of 53 digits
cannot hold: the least `e` with `n / 2 ^ e < 2 ^ 53`; `fuel` bounds the search. -/
def droppedBits : Nat → Nat → Nat
  | 0, _ => 0
  | fuel + 1, n => if n < 2 ^ 53 then 0 else droppedBits fuel (n / 2) + 1

/-- The multiple of `2 ^ e` nearest to `n`; half way between two of them the
one with the even factor is taken. -/
def roundHalfEven (n e : Nat) : Nat :=
  let q := n / 2 ^ e
  let r := n % 2 ^ e
  if 2 * r < 2 ^ e then q * 2 ^ e
  else if 2 ^ e < 2 * r then (q + 1) * 2 ^ e
  else if q % 2 = 0 then q * 2 ^ e else (q + 1) * 2 ^ e

/-- The Go conversion `float64(x)` of an `int64`: the nearest number with a
significand of 53 binary digits, ties going to the even significand.  The
result is a whole number and is given as that number. -/
def float64 (x : Int) : Int :=
  let n := x.natAbs
  let v : Int := (roundHalfEven n (droppedBits n n) : Nat)
  if x < 0 then -v else v

/-- A `prometheus.Gauge` built by `prometheus.NewGauge` and given a value by
`Set`; `value` is the `float64` that `Set` receives, a whole number here. -/
structure Gauge where
  Namespace : String
  Name : String
  Help : String
  ConstLabels : List (String × String)
  value : Int
deriving DecidableEq, Repr

/-- The type `RadosgwCollector` of collector.go. -/
structure RadosgwCollector where
  client : Client
  bytesSent : List Gauge
  bytesRecv : List Gauge
  ops : List Gauge
  opsOK : List Gauge
  numObjects : List Gauge
  capacity : List Gauge
deriving DecidableEq, Repr

/-- The function `NewRadosgwCollector` of collector.go. -/
def NewRadosgwCollector (endpoint ak sk : String) : Except GoError RadosgwCollector :=
  match NewClient endpoint ak sk with
  | .error err => .error err
  | .ok cli => .ok ⟨cli, [], [], [], [], [], []⟩

/-- The method `allGauges` of collector.go. -/
def allGauges (r : RadosgwCollector) : List Gauge :=
  let result : List Gauge := []
  let result := result ++ r.bytesSent
  let result := result ++ r.bytesRecv
  let result := result ++ r.ops
  let result := result ++ r.opsOK
  let result := result ++ r.numObjects
  result ++ r.capacity

/-- The gauge `numObjectsGauge` of `collecting` (collector.go lines 83 to 92). -/
def numObjectsGauge (stats : BucketStatsType) : Gauge :=
  { Namespace := radosgwNamespace, Name := "num_objects", Help := "total object number",
    ConstLabels := [("user", stats.Owner), ("bucket", stats.Bucket)],
    value := float64 stats.Usage.RgwMain.NumObjects }

/-- The gauge `capacityGauge` of `collecting` (collector.go lines 95 to 104). -/
def capacityGauge (stats : BucketStatsType) : Gauge :=
  { Namespace := radosgwNamespace, Name := "capacity",
    Help := "current disk space usage of all objects",
    ConstLabels := [("user", stats.Owner), ("bucket", stats.Bucket)],
    value := float64 stats.Usage.RgwMain.Size }

/-- The label map of the four usage gauges. -/
def usageLabels (userLabel bucketLabel apiLabel : String) : List (String × String) :=
  [("user", userLabel), ("bucket", bucketLabel), ("api", apiLabel)]

/-- The gauge `bytesSentGauge` of `collecting` (collector.go lines 129 to 139). -/
def bytesSentGauge (userLabel bucketLabel : String) (c : UsageCategoryType) : Gauge :=
  { Namespace := radosgwNamespace, Name := "bytes_sent_total",
    Help := "currently total sent throughput",
    ConstLabels := usageLabels userLabel bucketLabel c.Category
    value := float64 c.BytesSent }

/-- The gauge `bytesRecvGauge` of `collecting` (collector.go lines 142 to 152). -/
def bytesRecvGauge (userLabel bucketLabel : String) (c : UsageCategoryType) : Gauge :=
  { Namespace := radosgwNamespace, Name := "bytes_recv_total",
    Help := "currently total recv throughput",
    ConstLabels := usageLabels userLabel bucketLabel c.Category
    value := float64 c.BytesReceived }

/-- The gauge `opsGauge` of `collecting` (collector.go lines 155 to 165). -/
def opsGauge (userLabel bucketLabel : String) (c : UsageCategoryType) : Gauge :=
  { Namespace := radosgwNamespace, Name := "ops_total", Help := "currently total ops",
    ConstLabels := usageLabels userLabel bucketLabel c.Category, value := float64 c.Ops }

/-- The gauge `opsOKGauge` of `collecting` (collector.go lines 168 to 178). -/
def opsOKGauge (userLabel bucketLabel : String) (c : UsageCategoryType) : Gauge :=
  { Namespace := radosgwNamespace, Name := "ops_ok_total", Help := "currently total ops ok",
    ConstLabels := usageLabels userLabel bucketLabel c.Category, value := float64 c.SuccessfulOps }

/-- The loop over `bucketStats` (collector.go lines 81 to 106).  The flag is
true when the loop stopped in a nil pointer dereference: `stats.Owner` is read
while `bucketStats[i].Stats` is nil. -/
def statsLoop : List BucketType → RadosgwCollector → RadosgwCollector × Bool
  | [], r => (r, false)
  | b :: rest, r =>
    match b.Stats with
    | none => (r, true)
    | some stats =>
      statsLoop rest { r with
        numObjects := r.numObjects ++ [numObjectsGauge stats]
        capacity := r.capacity ++ [capacityGauge stats] }

/-- The loop over `categories` (collector.go lines 127 to 180). -/
def categoryLoop (userLabel bucketLabel : String) :
    List UsageCategoryType → RadosgwCollector → RadosgwCollector
  | [], r => r
  | c :: rest, r =>
    categoryLoop userLabel bucketLabel rest { r with
      bytesSent := r.bytesSent ++ [bytesSentGauge userLabel bucketLabel c]
      bytesRecv := r.bytesRecv ++ [bytesRecvGauge userLabel bucketLabel c]
      ops := r.ops ++ [opsGauge userLabel bucketLabel c]
      opsOK := r.opsOK ++ [opsOKGauge userLabel bucketLabel c] }

/-- The loop over `buckets` (collector.go lines 124 to 181). -/
def bucketLoop (userLabel : String) : List UsageBucketType → RadosgwCollector → RadosgwCollector
  | [], r => r
  | b :: rest, r => bucketLoop userLabel rest (categoryLoop userLabel b.Bucket b.Categories r)

/-- The loop over `usage.Entries` (collector.go lines 121 to 182). -/
def entryLoop : List UsageEntryType → RadosgwCollector → RadosgwCollector
  | [], r => r
  | e :: rest, r => entryLoop rest (bucketLoop e.User e.Buckets r)

/-- How a call of `collecting` ends: the collector, the requests sent, and
whether it ended in a run-time panic instead of returning. -/
structure Cycle where
  r : RadosgwCollector
  net : Net
  panicked : Bool
deriving DecidableEq, Repr

/-- The method `collecting` of collector.go (its console output is left out). -/
def collecting (w : World) (net : Net) (r : RadosgwCollector) : Cycle :=
  match GetBucket w net r.client "" "" true with
  | (b, net1) =>
    if b.err.isSome || b.status > 200 then ⟨r, net1, false⟩
    else
      let r := { r with numObjects := [], capacity := [] }
      match statsLoop (b.buckets.getD []) r with
      | (r, true) => ⟨r, net1, true⟩
      | (r, false) =>
        let r := { r with bytesSent := [], bytesRecv := [], ops := [], opsOK := [] }
        match GetUsage w net1 r.client "" none none false false with
        | (u, net2) =>
          if u.err.isSome || u.status > 200 then ⟨r, net2, false⟩
          else
            match u.usage with
            | none => ⟨r, net2, true⟩
            | some usage =>
              if usage.Entries.length = 0 then ⟨r, net2, false⟩
              else ⟨entryLoop usage.Entries r, net2, false⟩

/-- What a call of `Collect` does: the gauges sent on the channel, none when
`collecting` panicked, and the cycle it ran. -/
structure Collected where
  sent : Option (List Gauge)
  cycle : Cycle
deriving DecidableEq, Repr

/-- The method `Collect` of collector.go. -/
def Collect (w : World) (net : Net) (r : RadosgwCollector) : Collected :=
  let cy := collecting w net r
  if cy.panicked then ⟨none, cy⟩ else ⟨some (allGauges cy.r), cy⟩

/-! ## Bytes of a string as numbers -/

/-- The UTF-8 encoding of the code point `v`, as numbers. -/
def utf8Nat (v : Nat) : List Nat :=
  if v ≤ 127 then [v]
  else if v ≤ 2047 then [192 + v / 64 % 32, 128 + v % 64]
  else if v ≤ 65535 then [224 + v / 4096 % 16, 128 + v / 64 % 64, 128 + v % 64]
  else [240 + v / 262144 % 8, 128 + v / 4096 % 64, 128 + v / 64 % 64, 128 + v % 64]

/-! ## The samples a cycle derives from its two documents -/

/-- The category leaves of a usage tree, in document order, each with the user
and the bucket above it. -/
def usageLeaves (entries : List UsageEntryType) : List (String × String × UsageCategoryType) :=
  entries.flatMap fun e => e.Buckets.flatMap fun b => b.Categories.map fun c => (e.User, b.Bucket, c)

/-- A usage gauge of a leaf. -/
def leafGauge (mk : String → String → UsageCategoryType → Gauge)
    (l : String × String × UsageCategoryType) : Gauge := mk l.1 l.2.1 l.2.2

/-- The collector that holds exactly the samples of the given stat objects and
usage leaves. -/
def snapshotOf (client : Client) (ss : List BucketStatsType)
    (leaves : List (String × String × UsageCategoryType)) : RadosgwCollector :=
  { client := client
    bytesSent := leaves.map (leafGauge bytesSentGauge)
    bytesRecv := leaves.map (leafGauge bytesRecvGauge)
    ops := leaves.map (leafGauge opsGauge)
    opsOK := leaves.map (leafGauge opsOKGauge)
    numObjects := ss.map numObjectsGauge
    capacity := ss.map capacityGauge }

/-! ## The canonical URI and query string as the specification words them -/

/-- The path with exactly one leading slash removed, when it has one. -/
def stripLeadingSlash (p : String) : String :=
  match p.data with
  | [] => p
  | c :: rest => if c = '/' then ⟨rest⟩ else p

/-- Letters, digits and `-`, `_`, `.`, `~`, as characters. -/
def isUnreservedChar (c : Char) : Bool :=
  c.isAlphanum || c = '-' || c = '_' || c = '.' || c = '~'

/-- The upper-case hexadecimal digit of `n < 16`, from the digit table. -/
def upperHex (n : Nat) : Char :=
  ['0', '1', '2', '3', '4', '5', '6', '7', '8', '9', 'A', 'B', 'C', 'D', 'E', 'F'].getD n '0'

/-- An upper-case hexadecimal digit. -/
def isUpperHexDigit (c : Char) : Bool :=
  c.isDigit || (65 ≤ c.toNat && c.toNat ≤ 70)

/-- The triplet `%XX` of a byte. -/
def pctTriplet (b : UInt8) : List Char := ['%', upperHex (b.toNat / 16), upperHex (b.toNat % 16)]

/-- The URI encoding in the words of the specification: letters, digits, `-`,
`_`, `.`, `~` and `/` are copied, every other byte becomes its triplet. -/
def specUriEncode (s : String) : String :=
  ⟨(bytesOf s).flatMap fun b =>
    if isUnreservedChar (Char.ofNat b.toNat) || Char.ofNat b.toNat = '/' then
      [Char.ofNat b.toNat]
    else pctTriplet b⟩

/-- Text made only of unreserved characters, slashes and triplets `%XX` with two
upper-case hexadecimal digits; `pending` digits of a triplet are still due. -/
def isUriText : Nat → List Char → Bool
  | 0, [] => true
  | _ + 1, [] => false
  | 0, c :: rest =>
    if c = '%' then isUriText 2 rest else (isUnreservedChar c || c = '/') && isUriText 0 rest
  | pending + 1, c :: rest => isUpperHexDigit c && isUriText pending rest

/-- The URL encoding of a query component in which a space is `%20`: unreserved
bytes are copied, every other byte becomes its triplet. -/
def specQueryEscape (s : String) : String :=
  ⟨(bytesOf s).flatMap fun b =>
    if isUnreservedChar (Char.ofNat b.toNat) then [Char.ofNat b.toNat] else pctTriplet b⟩

/-- The canonical query string in the words of the specification: the pairs
`key=value`, encoded, sorted by key, joined by `&`. -/
def specCanonicalQuery (q : Values) : String :=
  Join ((q.entries.insertionSort (fun x y => strLe x.1 y.1 = true)).flatMap fun e =>
    e.2.map fun v => specQueryEscape e.1 ++ "=" ++ specQueryEscape v) "&"

/-! ## The signed headers as the specification words them -/

/-- The first value of the header stored under the name `k`, the empty string
when there is none. -/
def firstValue (h : Header) (k : String) : String :=
  match h.lookup k with
  | [] => ""
  | v :: _ => v

/-- A header name as `http.Header` stores it: made of token characters and in
canonical form. -/
def isCanonicalName (k : String) : Bool :=
  k.data.all validHeaderFieldByte && decide (CanonicalMIMEHeaderKey k = k)

/-- The canonical headers block in the words of the specification: for every
selected header, in the order of the lower-cased names, the lower-cased name, a
colon, the whitespace-trimmed value and a newline. -/
def specCanonicalHeaders (lower : String → String) (h : Header) : String :=
  String.join ((((h.entries.map Prod.fst).filter fun k =>
      k = "Content-Type" || k = "Content-Md5" || k = "Host" || HasPrefix k "X-Amz-").insertionSort
        (fun a b => strLe (lower a) (lower b) = true)).map fun k =>
    lower k ++ ":" ++ TrimSpace (firstValue h k) ++ "\n")

/-! ## A scripted world for the worked examples

The examples below run the program against a gateway whose answers are
scripted: the k-th exchange returns the k-th scripted response and the JSON
codec decodes exactly the documents listed. -/

mutual
/-- Compact JSON text of a document. -/
def jsonChars : Json → List Char
  | .null => ['n', 'u', 'l', 'l']
  | .bool b => if b then ['t', 'r', 'u', 'e'] else ['f', 'a', 'l', 's', 'e']
  | .number literal => literal.data
  | .str s => ['"'] ++ s.data ++ ['"']
  | .arr elems => ['['] ++ jsonElems elems ++ [']']
  | .obj fields => [Char.ofNat 123] ++ jsonFields fields ++ [Char.ofNat 125]
/-- The elements of a JSON array, separated by commas. -/
def jsonElems : List Json → List Char
  | [] => []
  | e :: es => jsonChars e ++ (if es.isEmpty then [] else [',']) ++ jsonElems es
/-- The members of a JSON object, separated by commas. -/
def jsonFields : List (String × Json) → List Char
  | [] => []
  | (k, v) :: fs =>
    ['"'] ++ k.data ++ ['"', ':'] ++ jsonChars v ++ (if fs.isEmpty then [] else [',']) ++
      jsonFields fs
end

/-- The bytes of the compact JSON text of a document. -/
def jsonBytes (v : Json) : Bytes := bytesOf ⟨jsonChars v⟩

/-- Decimal digits of a natural number below `10 ^ fuel`. -/
def natChars : Nat → Nat → List Char
  | 0, _ => []
  | fuel + 1, n => (if n < 10 then [] else natChars fuel (n / 10)) ++ [digit n]

/-- A JSON number for a natural number (below `10 ^ 20`). -/
def jsonNat (n : Int) : Json := .number ⟨natChars 20 n.toNat⟩

/-- The JSON object the gateway sends for a bucket's stats. -/
def statsDoc (s : BucketStatsType) : Json :=
  .obj [("bucket", .str s.Bucket), ("owner", .str s.Owner),
    ("usage", .obj [("rgw.main", .obj [("num_objects", jsonNat s.Usage.RgwMain.NumObjects),
      ("size", jsonNat s.Usage.RgwMain.Size)])])]

/-- The JSON object of a usage category. -/
def categoryDoc (c : UsageCategoryType) : Json :=
  .obj [("category", .str c.Category), ("bytes_sent", jsonNat c.BytesSent),
    ("bytes_received", jsonNat c.BytesReceived), ("ops", jsonNat c.Ops),
    ("successful_ops", jsonNat c.SuccessfulOps)]

/-- The JSON object of a bucket of a usage entry. -/
def usageBucketDoc (b : UsageBucketType) : Json :=
  .obj [("bucket", .str b.Bucket), ("time", .str b.Time), ("epoch", jsonNat b.Epoch),
    ("owner", .str b.Owner), ("categories", .arr (b.Categories.map categoryDoc))]

/-- The JSON document the gateway sends for a usage tree. -/
def usageDoc (u : UsageType) : Json :=
  .obj [("entries", .arr (u.Entries.map fun e =>
    .obj [("user", .str e.User), ("buckets", .arr (e.Buckets.map usageBucketDoc))]))]

/-- A bucket's stats with the fields the collector reads. -/
def mkStats (owner bucket : String) (numObjects size : Int) : BucketStatsType :=
  { Bucket := bucket, Zonegroup := "", PlacementRule := "", ID := "", Marker := "",
    IndexPool := "", Owner := owner, Ver := "", MasterVer := "", Mtime := "", MaxMarker := "",
    Usage := ⟨⟨numObjects, size, 0⟩⟩, BucketQuota := ⟨0, 0, false⟩ }

/-- Table lookup of a decoder: bytes outside the table are a syntax error. -/
def lookupBytes {α : Type} (table : List (Bytes × α)) (b : Bytes) : Except GoError α :=
  match table.find? (fun e => e.1 = b) with
  | some e => .ok e.2
  | none => .error (.lib "invalid character")

/-- The query of a URL text: the pairs `key=value` separated by `&`. -/
def scriptedQuery (q : List Char) : Values :=
  if q.isEmpty then Values.empty else
  (splitAux '&' q []).foldl (fun a kv =>
    a.Add ⟨kv.takeWhile (fun c => c != '=')⟩ ⟨(kv.dropWhile (fun c => c != '=')).drop 1⟩)
    Values.empty

/-- URL parsing for texts of the form `http://host/path?query`. -/
def scriptedUrlParse (s : String) : Except GoError URL :=
  let rest := if HasPrefix s "http://" then s.data.drop 7 else s.data
  let host := rest.takeWhile (fun c => c != '/' && c != '?')
  let rest := rest.dropWhile (fun c => c != '/' && c != '?')
  let path := rest.takeWhile (fun c => c != '?')
  let query := (rest.dropWhile (fun c => c != '?')).drop 1
  .ok ⟨⟨host⟩, ⟨path⟩, scriptedQuery query⟩

/-- The lower case of the letters of the Latin-1 block, `À` to `Þ` without the
sign `×`, as the Unicode case tables give it; the other runes are kept. -/
def latin1ToLower (c : Char) : Char :=
  if 192 ≤ c.toNat ∧ c.toNat ≤ 222 ∧ c.toNat ≠ 215 then Char.ofNat (c.toNat + 32) else c

/-- The scripted world: `responses` are the results of the successive exchanges,
`docs`, `stats` and `usages` are the documents the JSON codec decodes.  The
digests are placeholders, the clock stands still, and the case tables cover the
Latin-1 block. -/
def scriptedWorld (responses : List (Except GoError Response)) (docs : List Json)
    (stats : List BucketStatsType) (usages : List UsageType) : World :=
  { urlParse := scriptedUrlParse
    sha256 := fun _ => []
    hmac := fun _ _ => []
    now := fun _ => ⟨2026, 11, 4, 10, 15, 0⟩
    Do := fun k _ => responses.getD k (.error (.lib "connection refused"))
    unmarshalAny := lookupBytes (docs.map fun d => (jsonBytes d, d))
    marshal := jsonBytes
    unmarshalStats := lookupBytes (stats.map fun s => (jsonBytes (statsDoc s), s))
    unmarshalUsage := lookupBytes (usages.map fun u => (jsonBytes (usageDoc u), u))
    unicodeToLower := latin1ToLower }

/-- A client of the gateway at `http://rgw:8080`. -/
def demoClient : Client := ⟨"AK", "SK", "http://rgw:8080", defaultAdminPrefix⟩

/-- A collector that has published samples in an earlier cycle. -/
def demoCollector : RadosgwCollector :=
  let c : UsageCategoryType := ⟨"put_obj", 7, 9, 2, 1⟩
  { client := demoClient
    bytesSent := [bytesSentGauge "old" "logs" c]
    bytesRecv := [bytesRecvGauge "old" "logs" c]
    ops := [opsGauge "old" "logs" c]
    opsOK := [opsOKGauge "old" "logs" c]
    numObjects := [numObjectsGauge (mkStats "old" "logs" 1 64)]
    capacity := [capacityGauge (mkStats "old" "logs" 1 64)] }

/-- A collector before its first cycle. -/
def freshCollector : RadosgwCollector := ⟨demoClient, [], [], [], [], [], []⟩

/-- A response with status 200 carrying a JSON document. -/
def okResponse (d : Json) : Except GoError Response := .ok ⟨200, jsonBytes d, none⟩

/-- The bucket-stats document of the end-to-end scenario. -/
def aliceStats : BucketStatsType := mkStats "alice" "photos" 10 2048

/-- The usage tree of the end-to-end scenario. -/
def aliceUsage : UsageType :=
  { Entries := [⟨"alice", [⟨"photos", "2026-11-04 10:00:00.000000Z", 1793786400, "alice",
      [⟨"get_obj", 500, 0, 3, 3⟩]⟩]⟩], Summary := [] }

/-- The world of the end-to-end scenario: both calls succeed. -/
def aliceWorld : World :=
  scriptedWorld [okResponse (.arr [statsDoc aliceStats]), okResponse (usageDoc aliceUsage)]
    [.arr [statsDoc aliceStats]] [aliceStats] [aliceUsage]

/-- A world whose bucket-stats call is answered with status 201 and a valid
document. -/
def createdWorld : World :=
  scriptedWorld [.ok ⟨201, jsonBytes (.arr [statsDoc aliceStats]), none⟩,
      okResponse (usageDoc aliceUsage)]
    [.arr [statsDoc aliceStats]] [aliceStats] [aliceUsage]

/-- A world whose bucket-stats call succeeds and whose usage call is answered
with status 500. -/
def usageDownWorld : World :=
  scriptedWorld [okResponse (.arr [statsDoc aliceStats]),
      .ok ⟨500, bytesOf "InternalError", none⟩]
    [.arr [statsDoc aliceStats]] [aliceStats] [aliceUsage]

/-- The stat object of the shape-discrimination scenario. -/
def u1Stats : BucketStatsType := mkStats "u1" "b1" 5 1024

/-- The bucket-stats document of the shape-discrimination scenario: a bare
bucket name followed by a full stat object. -/
def bareDoc : Json := .arr [.str "barebucket", statsDoc u1Stats]

/-- A world whose bucket-stats call answers the document with a bare name; the
usage call would succeed with an empty tree. -/
def bareWorld : World :=
  scriptedWorld [okResponse bareDoc, okResponse (usageDoc ⟨[], []⟩)] [bareDoc] [u1Stats]
    [⟨[], []⟩]

/-- A usage tree that lists the bucket `photos` of user `alice` twice, for two
different hours. -/
def repeatedUsage : UsageType :=
  { Entries := [⟨"alice",
      [⟨"photos", "2026-11-04 09:00:00.000000Z", 1793782800, "alice", [⟨"get_obj", 100, 0, 1, 1⟩]⟩,
       ⟨"photos", "2026-11-04 10:00:00.000000Z", 1793786400, "alice", [⟨"get_obj", 500, 0, 3, 3⟩]⟩]⟩],
    Summary := [] }

/-- A world whose two calls succeed and whose usage tree repeats a bucket. -/
def repeatedWorld : World :=
  scriptedWorld [okResponse (.arr [statsDoc aliceStats]), okResponse (usageDoc repeatedUsage)]
    [.arr [statsDoc aliceStats]] [aliceStats] [repeatedUsage]

/-- A usage tree of two users with two buckets each and one category per bucket. -/
def gridUsage : UsageType :=
  { Entries :=
      [⟨"alice", [⟨"photos", "", 0, "alice", [⟨"get_obj", 500, 0, 3, 3⟩]⟩,
                  ⟨"music", "", 0, "alice", [⟨"put_obj", 0, 900, 2, 1⟩]⟩]⟩,
       ⟨"bob", [⟨"logs", "", 0, "bob", [⟨"get_obj", 40, 0, 4, 4⟩]⟩,
                ⟨"tmp", "", 0, "bob", [⟨"delete_obj", 0, 0, 1, 0⟩]⟩]⟩],
    Summary := [] }

/-- A world whose two calls succeed and whose usage tree is `gridUsage`. -/
def gridWorld : World :=
  scriptedWorld [okResponse (.arr [statsDoc aliceStats]), okResponse (usageDoc gridUsage)]
    [.arr [statsDoc aliceStats]] [aliceStats] [gridUsage]

/-- An unsigned request for the usage document, addressed to `host`. -/
def hostRequest (host : String) : Request :=
  { Method := "GET"
    URL := ⟨host, "/admin/usage", (Values.empty.Add "format" "json")⟩
    Host := host
    Header := Header.empty
    Body := none }

/-- An unsigned request that already carries an `X-Amz-Date` header. -/
def datedRequest : Request :=
  { Method := "GET"
    URL := ⟨"rgw:8080", "/admin/usage", (Values.empty.Add "format" "json")⟩
    Host := "rgw:8080"
    Header := Header.empty.Set "X-Amz-Date" "20200101T000000Z"
    Body := none }

/-- The clock reading of the signing examples: 2026-11-04 10:15:00 UTC. -/
def demoNow : Time := ⟨2026, 11, 4, 10, 15, 0⟩

/-- An unsigned request with a body and three headers, one of them not signed. -/
def aclRequest : Request :=
  { Method := "PUT"
    URL := ⟨"rgw:8080", "/photos", Values.empty⟩
    Host := "rgw:8080"
    Header := ⟨[("X-Amz-Acl", ["private"]), ("Content-Md5", ["1B2M2Y8AsgTpgAmY7PhCfg=="]),
      ("User-Agent", ["exporter"])]⟩
    Body := some (bytesOf "x") }

/-- The header map of `aclRequest`, visited in another order. -/
def aclHeaderReordered : Header :=
  ⟨[("User-Agent", ["exporter"]), ("X-Amz-Acl", ["private"]),
    ("Content-Md5", ["1B2M2Y8AsgTpgAmY7PhCfg=="])]⟩

/-- A world whose first exchange is answered with status 404 and whose second
exchange fails in the HTTP client. -/
def notFoundWorld : World :=
  scriptedWorld [.ok ⟨404, bytesOf "NoSuchBucket", none⟩] [] [] []

/-- The zero value of `BucketStatsType`. -/
def zeroStats : BucketStatsType := mkStats "" "" 0 0

/-- A world whose bucket-stats call answers the document `doc` with status 200
and whose usage call answers an empty tree.  The JSON codec treats the texts
that occur as Go's encoding/json does: the text `null` decodes into a
`BucketStatsType` without an error and leaves it at its zero value, the text of
a number or of a string is rejected. -/
def shapeWorld (doc : Json) : World :=
  { scriptedWorld [okResponse doc, okResponse (usageDoc ⟨[], []⟩)] [doc] [] [⟨[], []⟩] with
    unmarshalStats := fun b =>
      if b = jsonBytes .null then .ok zeroStats
      else .error (.lib "json: cannot unmarshal into Go value of type radosgw.BucketStatsType") }

/-- A world whose bucket-stats call answers a single stat object. -/
def singleWorld : World :=
  scriptedWorld [okResponse (statsDoc aliceStats)] [statsDoc aliceStats] [aliceStats] []

/-- The request `aclRequest` addressed to the host `rgw:80`. -/
def aclRequest80 : Request := { aclRequest with Host := "rgw:80" }

/-- A world whose first exchange is answered with status 204 and no content and
whose second exchange answers the stats of one bucket. -/
def deletedWorld : World :=
  scriptedWorld [.ok ⟨204, [], none⟩, okResponse (statsDoc aliceStats)] [statsDoc aliceStats]
    [aliceStats] []

/-- A world whose first exchange is answered with status 404 and the text
`NoSuchUser`. -/
def userGoneWorld : World :=
  scriptedWorld [.ok ⟨404, bytesOf "NoSuchUser", none⟩] [] [] []

/-- A client whose caller has chosen the prefix `/ops`. -/
def opsClient : Client := demoClient.SetPrefix "/ops"

/-- A second stat object for the bucket `photos` of the owner `alice`, with
other counts. -/
def twinStats : BucketStatsType := mkStats "alice" "photos" 12 4096

/-- A world whose two calls succeed and whose bucket-stats document lists the
bucket `photos` of the owner `alice` twice. -/
def repeatedStatsWorld : World :=
  scriptedWorld [okResponse (.arr [statsDoc aliceStats, statsDoc twinStats]),
      okResponse (usageDoc aliceUsage)]
    [.arr [statsDoc aliceStats, statsDoc twinStats]] [aliceStats, twinStats] [aliceUsage]

/-- A world whose two calls succeed, whose bucket-stats document lists two
different buckets and whose usage tree is `repeatedUsage`. -/
def mixedWorld : World :=
  scriptedWorld [okResponse (.arr [statsDoc aliceStats, statsDoc u1Stats]),
      okResponse (usageDoc repeatedUsage)]
    [.arr [statsDoc aliceStats, statsDoc u1Stats]] [aliceStats, u1Stats] [repeatedUsage]

/-- A usage tree with one leaf whose counters lie above `2 ^ 53`:
`9007199254740993` is `2 ^ 53 + 1`. -/
def largeUsage : UsageType :=
  { Entries := [⟨"alice", [⟨"photos", "2026-11-04 10:00:00.000000Z", 1793786400, "alice",
      [⟨"get_obj", 9007199254740993, 9007199254740995, 3, 3⟩]⟩]⟩], Summary := [] }

/-- A world whose two calls succeed and whose usage tree is `largeUsage`. -/
def largeWorld : World :=
  scriptedWorld [okResponse (.arr [statsDoc aliceStats]), okResponse (usageDoc largeUsage)]
    [.arr [statsDoc aliceStats]] [aliceStats] [largeUsage]

/-- An unsigned request whose header map was filled by direct assignment: one
name is not in canonical form, one holds a letter that is no token character. -/
def rawNameRequest : Request :=
  { Method := "GET"
    URL := ⟨"rgw:8080", "/admin/usage", Values.empty⟩
    Host := "rgw:8080"
    Header := ⟨[("X-Amz-META", ["v"]), ("X-Amz-É", ["w"])]⟩
    Body := none }

/-! ## Lemmas on the loops of `collecting` -/

theorem statsLoop_full (bs : List BucketType) (ss : List BucketStatsType)
    (r : RadosgwCollector) (hfull : bs.map BucketType.Stats = ss.map some) :
    statsLoop bs r = ({ r with
      numObjects := r.numObjects ++ ss.map numObjectsGauge
      capacity := r.capacity ++ ss.map capacityGauge }, false) := by
  induction bs generalizing ss r with
  | nil =>
    cases ss with
    | nil => simp [statsLoop]
    | cons s ss => simp at hfull
  | cons b bs ih =>
    cases ss with
    | nil => simp at hfull
    | cons s ss =>
      simp only [List.map_cons, List.cons.injEq] at hfull
      obtain ⟨hb, hrest⟩ := hfull
      simp only [statsLoop, hb]
      rw [ih ss _ hrest]
      simp

theorem statsLoop_bare (bs : List BucketType) (r : RadosgwCollector)
    (hbare : ∃ b ∈ bs, b.Stats = none) : (statsLoop bs r).2 = true := by
  induction bs generalizing r with
  | nil => simp at hbare
  | cons b bs ih =>
    cases hs : b.Stats with
    | none => simp [statsLoop, hs]
    | some s =>
      simp only [statsLoop, hs]
      apply ih
      obtain ⟨x, hx, hnone⟩ := hbare
      rcases List.mem_cons.mp hx with rfl | hmem
      · rw [hs] at hnone
        cases hnone
      · exact ⟨x, hmem, hnone⟩

theorem categoryLoop_eq (u b : String) (cs : List UsageCategoryType) (r : RadosgwCollector) :
    categoryLoop u b cs r = { r with
      bytesSent := r.bytesSent ++ cs.map (bytesSentGauge u b)
      bytesRecv := r.bytesRecv ++ cs.map (bytesRecvGauge u b)
      ops := r.ops ++ cs.map (opsGauge u b)
      opsOK := r.opsOK ++ cs.map (opsOKGauge u b) } := by
  induction cs generalizing r with
  | nil => simp [categoryLoop]
  | cons c cs ih => simp [categoryLoop, ih]

theorem bucketLoop_eq (u : String) (bs : List UsageBucketType) (r : RadosgwCollector) :
    bucketLoop u bs r = { r with
      bytesSent := r.bytesSent ++ (usageLeaves [⟨u, bs⟩]).map (leafGauge bytesSentGauge)
      bytesRecv := r.bytesRecv ++ (usageLeaves [⟨u, bs⟩]).map (leafGauge bytesRecvGauge)
      ops := r.ops ++ (usageLeaves [⟨u, bs⟩]).map (leafGauge opsGauge)
      opsOK := r.opsOK ++ (usageLeaves [⟨u, bs⟩]).map (leafGauge opsOKGauge) } := by
  induction bs generalizing r with
  | nil => simp [bucketLoop, usageLeaves]
  | cons b bs ih =>
    simp only [bucketLoop, ih, categoryLoop_eq]
    simp [usageLeaves, leafGauge, List.map_flatMap, Function.comp_def]

theorem entryLoop_eq (es : List UsageEntryType) (r : RadosgwCollector) :
    entryLoop es r = { r with
      bytesSent := r.bytesSent ++ (usageLeaves es).map (leafGauge bytesSentGauge)
      bytesRecv := r.bytesRecv ++ (usageLeaves es).map (leafGauge bytesRecvGauge)
      ops := r.ops ++ (usageLeaves es).map (leafGauge opsGauge)
      opsOK := r.opsOK ++ (usageLeaves es).map (leafGauge opsOKGauge) } := by
  induction es generalizing r with
  | nil => simp [entryLoop, usageLeaves]
  | cons e es ih =>
    simp only [entryLoop, ih, bucketLoop_eq]
    simp [usageLeaves]

/-- A cycle whose two calls succeed, over a bucket list of full stat objects,
leaves exactly the samples of the two documents. -/
theorem collecting_of_success (w : World) (net : Net) (r : RadosgwCollector)
    (st ust : Int) (bs : List BucketType) (ss : List BucketStatsType) (usage : UsageType)
    (hb : (GetBucket w net r.client "" "" true).1 = ⟨st, some bs, none⟩) (hst : st ≤ 200)
    (hfull : bs.map BucketType.Stats = ss.map some)
    (hu : (GetUsage w (GetBucket w net r.client "" "" true).2 r.client
      "" none none false false).1 = ⟨ust, some usage, none⟩) (hust : ust ≤ 200) :
    collecting w net r = ⟨snapshotOf r.client ss (usageLeaves usage.Entries),
      (GetUsage w (GetBucket w net r.client "" "" true).2 r.client
        "" none none false false).2, false⟩ := by
  rcases hgb : GetBucket w net r.client "" "" true with ⟨b, net1⟩
  rw [hgb] at hb hu
  simp only at hb hu
  subst hb
  rcases hgu : GetUsage w net1 r.client "" none none false false with ⟨u, net2⟩
  rw [hgu] at hu
  simp only at hu
  subst hu
  have h1 : ¬ (200 < st) := not_lt.mpr hst
  have h2 : ¬ (200 < ust) := not_lt.mpr hust
  simp only [collecting, hgb, Option.isSome_none, Bool.false_or, decide_eq_true_eq, h1,
    if_false, Option.getD_some, statsLoop_full bs ss _ hfull, hgu, h2, entryLoop_eq]
  by_cases hlen : usage.Entries.length = 0
  · have hnil : usage.Entries = [] := List.length_eq_zero.mp hlen
    simp [hnil, snapshotOf, usageLeaves]
  · simp [hlen, snapshotOf]

/-! ## The order of strings -/

set_option maxRecDepth 100000 in
theorem byte_tail : ∀ n, n < 256 → ((UInt8.ofNat n) &&& 0x3f ||| 0x80).toNat = 128 + n % 64 := by
  decide

set_option maxRecDepth 100000 in
theorem byte_head2 : ∀ n, n < 256 → ((UInt8.ofNat n) &&& 0x1f ||| 0xc0).toNat = 192 + n % 32 := by
  decide

set_option maxRecDepth 100000 in
theorem byte_head3 : ∀ n, n < 256 → ((UInt8.ofNat n) &&& 0x0f ||| 0xe0).toNat = 224 + n % 16 := by
  decide

set_option maxRecDepth 100000 in
theorem byte_head4 : ∀ n, n < 256 → ((UInt8.ofNat n) &&& 0x07 ||| 0xf0).toNat = 240 + n % 8 := by
  decide

theorem uint8_ofNat_mod (n : Nat) : UInt8.ofNat n = UInt8.ofNat (n % 256) := by
  have h : BitVec.ofNat 8 n = BitVec.ofNat 8 (n % 256) := by
    apply BitVec.eq_of_toNat_eq
    simp [BitVec.toNat_ofNat]
  simp only [UInt8.ofNat, h]

theorem uint8_ofNat_toNat (n : Nat) : (UInt8.ofNat n).toNat = n % 256 := by
  simp [UInt8.ofNat, UInt8.toNat, BitVec.toNat_ofNat]

theorem uint32_shr (v k : UInt32) (kn : Nat) (hk : (UInt32.mod k 32).toBitVec.toNat = kn) :
    (v >>> k).toNat = v.toNat / 2 ^ kn := by
  show (UInt32.shiftRight v k).toNat = _
  simp [UInt32.shiftRight, UInt32.toNat, Nat.shiftRight_eq_div_pow, hk]

theorem byte_tail_of (v : UInt32) :
    (v.toUInt8 &&& 0x3f ||| 0x80).toNat = 128 + v.toNat % 64 := by
  show ((UInt8.ofNat v.toNat) &&& 0x3f ||| 0x80).toNat = _
  rw [uint8_ofNat_mod, byte_tail _ (Nat.mod_lt _ (by decide))]
  omega

theorem byte_head2_of (v : UInt32) :
    (v.toUInt8 &&& 0x1f ||| 0xc0).toNat = 192 + v.toNat % 32 := by
  show ((UInt8.ofNat v.toNat) &&& 0x1f ||| 0xc0).toNat = _
  rw [uint8_ofNat_mod, byte_head2 _ (Nat.mod_lt _ (by decide))]
  omega

theorem byte_head3_of (v : UInt32) :
    (v.toUInt8 &&& 0x0f ||| 0xe0).toNat = 224 + v.toNat % 16 := by
  show ((UInt8.ofNat v.toNat) &&& 0x0f ||| 0xe0).toNat = _
  rw [uint8_ofNat_mod, byte_head3 _ (Nat.mod_lt _ (by decide))]
  omega

theorem byte_head4_of (v : UInt32) :
    (v.toUInt8 &&& 0x07 ||| 0xf0).toNat = 240 + v.toNat % 8 := by
  show ((UInt8.ofNat v.toNat) &&& 0x07 ||| 0xf0).toNat = _
  rw [uint8_ofNat_mod, byte_head4 _ (Nat.mod_lt _ (by decide))]
  omega

theorem utf8EncodeChar_toNat (c : Char) :
    (String.utf8EncodeChar c).map UInt8.toNat = utf8Nat c.val.toNat := by
  have h6 : ∀ v : UInt32, (v >>> 6).toNat = v.toNat / 64 := fun v => uint32_shr v 6 6 (by decide)
  have h12 : ∀ v : UInt32, (v >>> 12).toNat = v.toNat / 4096 :=
    fun v => uint32_shr v 12 12 (by decide)
  have h18 : ∀ v : UInt32, (v >>> 18).toNat = v.toNat / 262144 :=
    fun v => uint32_shr v 18 18 (by decide)
  have c1 : (c.val ≤ 0x7f) ↔ c.val.toNat ≤ 127 := by
    simp [UInt32.le_def, UInt32.toNat, BitVec.le_def]
  have c2 : (c.val ≤ 0x7ff) ↔ c.val.toNat ≤ 2047 := by
    simp [UInt32.le_def, UInt32.toNat, BitVec.le_def]
  have c3 : (c.val ≤ 0xffff) ↔ c.val.toNat ≤ 65535 := by
    simp [UInt32.le_def, UInt32.toNat, BitVec.le_def]
  unfold String.utf8EncodeChar utf8Nat
  simp only [c1, c2, c3]
  split
  · simp only [List.map_cons, List.map_nil]
    show [(UInt8.ofNat c.val.toNat).toNat] = _
    rw [uint8_ofNat_toNat]
    congr 1
    omega
  · split
    · simp only [List.map_cons, List.map_nil, byte_tail_of, byte_head2_of, h6]
    · split
      · simp only [List.map_cons, List.map_nil, byte_tail_of, byte_head3_of, h6, h12]
      · simp only [List.map_cons, List.map_nil, byte_tail_of, byte_head4_of, h6, h12, h18]

theorem utf8Nat_ne_nil (v : Nat) : utf8Nat v ≠ [] := by
  unfold utf8Nat
  split
  · simp
  · split
    · simp
    · split <;> simp

theorem utf8Nat_prefix (m n : Nat) (x y : List Nat) (hm : m < 2097152) (hn : n < 2097152)
    (h : utf8Nat m ++ x = utf8Nat n ++ y) : m = n ∧ x = y := by
  unfold utf8Nat at h
  split_ifs at h <;>
    simp only [List.cons_append, List.nil_append, List.cons.injEq] at h <;>
    first
      | (exfalso; have h1 := h.1; omega)
      | (obtain ⟨h1, h2⟩ := h; exact ⟨by omega, h2⟩)
      | (obtain ⟨h1, h2, h3⟩ := h; exact ⟨by omega, h3⟩)
      | (obtain ⟨h1, h2, h3, h4⟩ := h; exact ⟨by omega, h4⟩)
      | (obtain ⟨h1, h2, h3, h4, h5⟩ := h; exact ⟨by omega, h5⟩)

theorem char_val_lt (c : Char) : c.val.toNat < 2097152 := by
  have h := c.valid
  simp only [UInt32.isValidChar, Nat.isValidChar] at h
  omega

theorem bytesNat_cons (c : Char) (cs : List Char) :
    ((c :: cs).flatMap String.utf8EncodeChar).map UInt8.toNat =
      utf8Nat c.val.toNat ++ (cs.flatMap String.utf8EncodeChar).map UInt8.toNat := by
  simp [List.flatMap_cons, utf8EncodeChar_toNat]

theorem bytesNat_injective (a b : List Char)
    (h : (a.flatMap String.utf8EncodeChar).map UInt8.toNat =
      (b.flatMap String.utf8EncodeChar).map UInt8.toNat) : a = b := by
  induction a generalizing b with
  | nil =>
    cases b with
    | nil => rfl
    | cons d ds =>
      rw [bytesNat_cons] at h
      have hne := utf8Nat_ne_nil d.val.toNat
      cases hd : utf8Nat d.val.toNat with
      | nil => exact absurd hd hne
      | cons _ _ => rw [hd] at h; simp at h
  | cons c cs ih =>
    cases b with
    | nil =>
      rw [bytesNat_cons] at h
      have hne := utf8Nat_ne_nil c.val.toNat
      cases hc : utf8Nat c.val.toNat with
      | nil => exact absurd hc hne
      | cons _ _ => rw [hc] at h; simp at h
    | cons d ds =>
      rw [bytesNat_cons, bytesNat_cons] at h
      obtain ⟨hv, hrest⟩ := utf8Nat_prefix _ _ _ _ (char_val_lt c) (char_val_lt d) h
      have hcd : c = d := Char.ext (UInt32.ext hv)
      rw [hcd, ih ds hrest]

theorem lexLe_antisymm (a b : List Nat) (h1 : lexLe a b = true) (h2 : lexLe b a = true) :
    a = b := by
  induction a generalizing b with
  | nil =>
    cases b with
    | nil => rfl
    | cons y ys => simp [lexLe] at h2
  | cons x xs ih =>
    cases b with
    | nil => simp [lexLe] at h1
    | cons y ys =>
      simp only [lexLe] at h1 h2
      by_cases hxy : x < y
      · have hyx : ¬ y < x := by omega
        simp [hxy, hyx] at h2
      · by_cases hyx : y < x
        · simp [hxy, hyx] at h1
        · simp only [hxy, hyx, if_false] at h1 h2
          have : x = y := by omega
          rw [this, ih ys h1 h2]

theorem lexLe_total (a b : List Nat) : lexLe a b = true ∨ lexLe b a = true := by
  induction a generalizing b with
  | nil => left; simp [lexLe]
  | cons x xs ih =>
    cases b with
    | nil => right; simp [lexLe]
    | cons y ys =>
      simp only [lexLe]
      by_cases hxy : x < y
      · left; simp [hxy]
      · by_cases hyx : y < x
        · right; simp [hyx]
        · simp only [hxy, hyx, if_false]
          exact ih ys

theorem lexLe_trans (a b c : List Nat) (h1 : lexLe a b = true) (h2 : lexLe b c = true) :
    lexLe a c = true := by
  induction a generalizing b c with
  | nil => simp [lexLe]
  | cons x xs ih =>
    cases b with
    | nil => simp [lexLe] at h1
    | cons y ys =>
      cases c with
      | nil => simp [lexLe] at h2
      | cons z zs =>
        simp only [lexLe] at h1 h2 ⊢
        by_cases hxy : x < y
        · by_cases hyz : y < z
          · have : x < z := by omega
            simp [this]
          · by_cases hzy : z < y
            · simp [hyz, hzy] at h2
            · have : x < z := by omega
              simp [this]
        · by_cases hyx : y < x
          · simp [hxy, hyx] at h1
          · simp only [hxy, hyx, if_false] at h1
            have hxy' : x = y := by omega
            subst hxy'
            by_cases hxz : x < z
            · simp [hxz]
            · by_cases hzx : z < x
              · simp [hxz, hzx] at h2
              · simp only [hxz, hzx, if_false] at h2 ⊢
                exact ih ys zs h1 h2

theorem strLe_antisymm (a b : String) (h1 : strLe a b = true) (h2 : strLe b a = true) :
    a = b := by
  unfold strLe bytesOf at h1 h2
  have h := lexLe_antisymm _ _ h1 h2
  have hd := bytesNat_injective a.data b.data h
  exact String.ext hd

theorem strLe_total (a b : String) : strLe a b = true ∨ strLe b a = true :=
  lexLe_total _ _

theorem strLe_trans (a b c : String) (h1 : strLe a b = true) (h2 : strLe b c = true) :
    strLe a c = true :=
  lexLe_trans _ _ _ h1 h2

theorem sortStrings_sorted (l : List String) :
    (sortStrings l).Sorted (fun a b => strLe a b = true) := by
  haveI : IsTotal String (fun a b => strLe a b = true) := ⟨strLe_total⟩
  haveI : IsTrans String (fun a b => strLe a b = true) := ⟨strLe_trans⟩
  exact List.sorted_insertionSort _ l

theorem sortStrings_perm (l : List String) : (sortStrings l).Perm l :=
  List.perm_insertionSort _ l

theorem sortStrings_congr (l1 l2 : List String) (h : l1.Perm l2) :
    sortStrings l1 = sortStrings l2 := by
  haveI : IsAntisymm String (fun a b => strLe a b = true) := ⟨strLe_antisymm⟩
  exact List.eq_of_perm_of_sorted
    ((sortStrings_perm l1).trans (h.trans (sortStrings_perm l2).symm))
    (sortStrings_sorted l1) (sortStrings_sorted l2)

/-! ## Lemmas on header maps -/

theorem lookup_setEntry_same (k : String) (vs : List String) (l : List (String × List String)) :
    Header.lookup ⟨setEntry k vs l⟩ k = vs := by
  induction l with
  | nil => simp [setEntry, Header.lookup]
  | cons e rest ih =>
    obtain ⟨k1, v1⟩ := e
    by_cases h : k1 = k
    · simp [setEntry, Header.lookup, h]
    · simp only [setEntry, h, if_false]
      simp only [Header.lookup, List.find?_cons, h, decide_False] at ih ⊢
      exact ih

theorem lookup_setEntry_ne (k k2 : String) (vs : List String) (l : List (String × List String))
    (hne : k ≠ k2) : Header.lookup ⟨setEntry k vs l⟩ k2 = Header.lookup ⟨l⟩ k2 := by
  induction l with
  | nil => simp [setEntry, Header.lookup, hne]
  | cons e rest ih =>
    obtain ⟨k1, v1⟩ := e
    by_cases h : k1 = k
    · subst h
      simp [setEntry, Header.lookup, hne]
    · simp only [setEntry, h, if_false]
      by_cases h2 : k1 = k2
      · simp [Header.lookup, h2]
      · simp only [Header.lookup, List.find?_cons, h2, decide_False] at ih ⊢
        exact ih

theorem setEntry_of_lookup (k v : String) (vs : List String) (l : List (String × List String))
    (h : Header.lookup ⟨l⟩ k = v :: vs) : setEntry k (v :: vs) l = l := by
  induction l with
  | nil => simp [Header.lookup] at h
  | cons e rest ih =>
    obtain ⟨k1, v1⟩ := e
    by_cases h1 : k1 = k
    · subst h1
      simp only [Header.lookup, List.find?_cons, decide_True] at h
      simp [setEntry, h]
    · simp only [Header.lookup, List.find?_cons, h1, decide_False] at h
      simp only [setEntry, h1, if_false]
      rw [ih h]

theorem keys_setEntry (k : String) (vs : List String) (l : List (String × List String)) :
    (setEntry k vs l).map Prod.fst =
      if k ∈ l.map Prod.fst then l.map Prod.fst else l.map Prod.fst ++ [k] := by
  induction l with
  | nil => simp [setEntry]
  | cons e rest ih =>
    obtain ⟨k1, v1⟩ := e
    by_cases h1 : k1 = k
    · subst h1
      simp [setEntry]
    · have h2 : ¬ k = k1 := fun h => h1 h.symm
      simp only [setEntry, h1, if_false, List.map_cons, ih, List.mem_cons, h2, false_or]
      split <;> simp

theorem lookup_perm (l1 l2 : List (String × List String)) (hp : l1.Perm l2)
    (hn : (l1.map Prod.fst).Nodup) (k : String) :
    Header.lookup ⟨l1⟩ k = Header.lookup ⟨l2⟩ k := by
  induction hp with
  | nil => rfl
  | cons x _ ih =>
    simp only [List.map_cons, List.nodup_cons] at hn
    simp only [Header.lookup, List.find?_cons] at ih ⊢
    by_cases hx : x.1 = k
    · simp [hx]
    · simp only [hx, decide_False]
      exact ih hn.2
  | swap x y l =>
    simp only [List.map_cons, List.nodup_cons, List.mem_cons, not_or] at hn
    simp only [Header.lookup, List.find?_cons]
    by_cases hx : x.1 = k
    · by_cases hy : y.1 = k
      · exact absurd (hy.trans hx.symm) hn.1.1
      · simp [hx, hy]
    · by_cases hy : y.1 = k
      · simp [hx, hy]
      · simp [hx, hy]
  | trans h1 _ ih1 ih2 =>
    rw [ih1 hn, ih2 ((h1.map Prod.fst).nodup_iff.mp hn)]

theorem setEntry_perm (l1 l2 : List (String × List String)) (hp : l1.Perm l2)
    (hn : (l1.map Prod.fst).Nodup) (k : String) (vs : List String) :
    (setEntry k vs l1).Perm (setEntry k vs l2) := by
  induction hp with
  | nil => exact List.Perm.refl _
  | cons x _ ih =>
    obtain ⟨k1, v1⟩ := x
    simp only [List.map_cons, List.nodup_cons] at hn
    by_cases h1 : k1 = k
    · simp only [setEntry, h1, if_true]
      exact List.Perm.cons _ (by assumption)
    · simp only [setEntry, h1, if_false]
      exact List.Perm.cons _ (ih hn.2)
  | swap x y l =>
    obtain ⟨kx, vx⟩ := x
    obtain ⟨ky, vy⟩ := y
    simp only [List.map_cons, List.nodup_cons, List.mem_cons, not_or] at hn
    by_cases hx : kx = k
    · have hy : ¬ ky = k := fun h => hn.1.1 (h.trans hx.symm)
      simp only [setEntry, hx, hy, if_true, if_false]
      exact List.Perm.swap _ _ _
    · by_cases hy : ky = k
      · simp only [setEntry, hx, hy, if_true, if_false]
        exact List.Perm.swap _ _ _
      · simp only [setEntry, hx, hy, if_false]
        exact List.Perm.swap _ _ _
  | trans h1 _ ih1 ih2 =>
    exact (ih1 hn).trans (ih2 ((h1.map Prod.fst).nodup_iff.mp hn))

theorem setEntry_nodup (k : String) (vs : List String) (l : List (String × List String))
    (hn : (l.map Prod.fst).Nodup) : ((setEntry k vs l).map Prod.fst).Nodup := by
  rw [keys_setEntry]
  split
  · exact hn
  · rename_i hk
    exact List.Nodup.append hn (List.nodup_singleton k) (by
      intro a ha hb
      rw [List.mem_singleton] at hb
      subst hb
      exact hk ha)
/-! ## Lemmas on `Sign` -/

theorem headersToSign_congr (h1 h2 : Header) (keys : List String)
    (hv : ∀ key ∈ keys, signedValue h1 key = signedValue h2 key) :
    headersToSign h1 keys = headersToSign h2 keys := by
  unfold headersToSign
  congr 1
  apply List.map_congr_left
  intro key hkey
  rw [hv key hkey]

theorem signing_header (w : World) (date : String) (r : Request) (ak sk : String) :
    (signing w date r ak sk).header =
      signHeaders r.Header (signing w date r ak sk).hashedPayload date r.Host := by
  simp only [signing]

theorem signing_keys (w : World) (date : String) (r : Request) (ak sk : String) :
    (signing w date r ak sk).sortedHeaderKeys =
      sortedHeaderKeys w (signing w date r ak sk).header := by
  simp only [signing]

theorem signing_toSign (w : World) (date : String) (r : Request) (ak sk : String) :
    (signing w date r ak sk).headersToSign =
      headersToSign (signing w date r ak sk).header (signing w date r ak sk).sortedHeaderKeys := by
  simp only [signing]

theorem signing_hashedPayload (w : World) (date : String) (r : Request) (ak sk : String) :
    (signing w date r ak sk).hashedPayload = hashSha256Hex w (r.Body.getD []) := by
  cases hb : r.Body <;> simp [signing, hb]

theorem signing_signedHeaders (w : World) (date : String) (r : Request) (ak sk : String) :
    (signing w date r ak sk).signedHeaders = Join (signing w date r ak sk).sortedHeaderKeys ";" := by
  simp only [signing]

theorem signing_canonicalRequest (w : World) (date : String) (r : Request) (ak sk : String) :
    (signing w date r ak sk).canonicalRequest =
      Join [r.Method, canonicalRequestUri r.URL.Path, canonicalQueryString r.URL,
        (signing w date r ak sk).headersToSign, (signing w date r ak sk).signedHeaders,
        (signing w date r ak sk).hashedPayload] "\n" := by
  simp only [signing]

theorem signing_credentialScope (w : World) (date : String) (r : Request) (ak sk : String) :
    (signing w date r ak sk).credentialScope =
      dateStamp date ++ "/" ++ signRegion ++ "/" ++ signService ++ "/" ++ signRequest := by
  simp only [signing]

theorem signing_stringToSign (w : World) (date : String) (r : Request) (ak sk : String) :
    (signing w date r ak sk).stringToSign =
      signAlgorithm ++ "\n" ++ date ++ "\n" ++ (signing w date r ak sk).credentialScope ++ "\n" ++
        hashSha256Hex w (bytesOf (signing w date r ak sk).canonicalRequest) := by
  simp only [signing]

theorem signing_signature (w : World) (date : String) (r : Request) (ak sk : String) :
    (signing w date r ak sk).signature =
      hexEncode (hmacSha256 w (hmacSha256 w (hmacSha256 w (hmacSha256 w
        (hmacSha256 w (bytesOf ("AWS4" ++ sk)) (dateStamp date)) signRegion) signService)
        signRequest) (signing w date r ak sk).stringToSign) := by
  simp only [signing]

theorem signing_authorizationString (w : World) (date : String) (r : Request) (ak sk : String) :
    (signing w date r ak sk).authorizationString =
      signAlgorithm ++ " Credential=" ++ ak ++ "/" ++ (signing w date r ak sk).credentialScope ++
        ", SignedHeaders=" ++ (signing w date r ak sk).signedHeaders ++ ", Signature=" ++
        (signing w date r ak sk).signature := by
  simp only [signing]

theorem Sign_header (w : World) (now : Time) (r : Request) (ak sk : String) :
    (Sign w now r ak sk).Header =
      (signing w (signDateString now) r ak sk).header.Set "Authorization"
        (signing w (signDateString now) r ak sk).authorizationString := by
  simp only [Sign]

theorem Sign_body (w : World) (now : Time) (r : Request) (ak sk : String) :
    (Sign w now r ak sk).Body = r.Body := by
  cases hb : r.Body <;> simp [Sign, signing, hb]

/-- Two requests that agree on everything but the header map, and whose signed
names and signed values agree, get the same authorization string. -/
theorem signing_congr (w : World) (date : String) (r1 r2 : Request) (ak sk : String)
    (hm : r1.Method = r2.Method) (hu : r1.URL = r2.URL) (hb : r1.Body = r2.Body)
    (hk : (signing w date r1 ak sk).sortedHeaderKeys = (signing w date r2 ak sk).sortedHeaderKeys)
    (hv : ∀ key ∈ (signing w date r1 ak sk).sortedHeaderKeys,
      signedValue (signing w date r1 ak sk).header key =
        signedValue (signing w date r2 ak sk).header key) :
    (signing w date r1 ak sk).authorizationString =
      (signing w date r2 ak sk).authorizationString := by
  have hp : (signing w date r1 ak sk).hashedPayload = (signing w date r2 ak sk).hashedPayload := by
    rw [signing_hashedPayload, signing_hashedPayload, hb]
  have ht : (signing w date r1 ak sk).headersToSign = (signing w date r2 ak sk).headersToSign := by
    rw [signing_toSign, signing_toSign, ← hk]
    exact headersToSign_congr _ _ _ hv
  have hs : (signing w date r1 ak sk).signedHeaders = (signing w date r2 ak sk).signedHeaders := by
    rw [signing_signedHeaders, signing_signedHeaders, hk]
  have hc : (signing w date r1 ak sk).canonicalRequest =
      (signing w date r2 ak sk).canonicalRequest := by
    rw [signing_canonicalRequest, signing_canonicalRequest, hm, hu, ht, hs, hp]
  have hsc : (signing w date r1 ak sk).credentialScope =
      (signing w date r2 ak sk).credentialScope := by
    rw [signing_credentialScope, signing_credentialScope]
  have hst : (signing w date r1 ak sk).stringToSign = (signing w date r2 ak sk).stringToSign := by
    rw [signing_stringToSign, signing_stringToSign, hsc, hc]
  have hsig : (signing w date r1 ak sk).signature = (signing w date r2 ak sk).signature := by
    rw [signing_signature, signing_signature, hst]
  rw [signing_authorizationString, signing_authorizationString, hsc, hs, hsig]
theorem Header_Get_perm (h1 h2 : Header) (hp : h1.entries.Perm h2.entries)
    (hn : (h1.entries.map Prod.fst).Nodup) (key : String) : h1.Get key = h2.Get key := by
  unfold Header.Get
  rw [show h1.lookup (CanonicalMIMEHeaderKey key) = h2.lookup (CanonicalMIMEHeaderKey key) from
    lookup_perm h1.entries h2.entries hp hn _]

theorem Header_Set_perm (h1 h2 : Header) (hp : h1.entries.Perm h2.entries)
    (hn : (h1.entries.map Prod.fst).Nodup) (key value : String) :
    (h1.Set key value).entries.Perm (h2.Set key value).entries ∧
      ((h1.Set key value).entries.map Prod.fst).Nodup :=
  ⟨setEntry_perm _ _ hp hn _ _, setEntry_nodup _ _ _ hn⟩

theorem condSet_perm (h1 h2 : Header) (hp : h1.entries.Perm h2.entries)
    (hn : (h1.entries.map Prod.fst).Nodup) (key value : String) :
    (if h1.Get key = "" then h1.Set key value else h1).entries.Perm
        (if h2.Get key = "" then h2.Set key value else h2).entries ∧
      ((if h1.Get key = "" then h1.Set key value else h1).entries.map Prod.fst).Nodup := by
  rw [← Header_Get_perm h1 h2 hp hn key]
  split
  · exact Header_Set_perm _ _ hp hn _ _
  · exact ⟨hp, hn⟩

theorem signHeaders_perm (h1 h2 : Header) (hp : h1.entries.Perm h2.entries)
    (hn : (h1.entries.map Prod.fst).Nodup) (hash date host : String) :
    (signHeaders h1 hash date host).entries.Perm (signHeaders h2 hash date host).entries ∧
      ((signHeaders h1 hash date host).entries.map Prod.fst).Nodup := by
  have s1 := Header_Set_perm h1 h2 hp hn "X-Amz-Content-Sha256" hash
  have s2 := condSet_perm _ _ s1.1 s1.2 "X-Amz-Date" date
  have s3 := condSet_perm _ _ s2.1 s2.2 "Content-Type"
    "application/x-www-form-urlencoded; charset=utf-8"
  exact Header_Set_perm _ _ s3.1 s3.2 "Host" host

theorem sortedHeaderKeys_perm (w : World) (h1 h2 : Header) (hp : h1.entries.Perm h2.entries) :
    sortedHeaderKeys w h1 = sortedHeaderKeys w h2 := by
  unfold sortedHeaderKeys
  exact sortStrings_congr _ _ (((hp.map Prod.fst).filter _).map _)

theorem signedValue_perm (h1 h2 : Header) (hp : h1.entries.Perm h2.entries)
    (hn : (h1.entries.map Prod.fst).Nodup) (key : String) :
    signedValue h1 key = signedValue h2 key := by
  unfold signedValue
  rw [Header_Get_perm h1 h2 hp hn key]

/-- The signing of a request does not depend on the order in which the header
map is visited. -/
theorem signing_perm (w : World) (date : String) (r : Request) (h2 : Header) (ak sk : String)
    (hp : r.Header.entries.Perm h2.entries) (hn : (r.Header.entries.map Prod.fst).Nodup) :
    (signing w date { r with Header := h2 } ak sk).authorizationString =
      (signing w date r ak sk).authorizationString := by
  have hh := signHeaders_perm r.Header h2 hp hn
    (signing w date r ak sk).hashedPayload date r.Host
  have hpay : (signing w date { r with Header := h2 } ak sk).hashedPayload =
      (signing w date r ak sk).hashedPayload := by
    rw [signing_hashedPayload, signing_hashedPayload]
  have hhd : (signing w date { r with Header := h2 } ak sk).header =
      signHeaders h2 (signing w date r ak sk).hashedPayload date r.Host := by
    rw [signing_header, hpay]
  symm
  apply signing_congr w date r { r with Header := h2 } ak sk rfl rfl rfl
  · rw [signing_keys, signing_keys, hhd, signing_header]
    exact sortedHeaderKeys_perm w _ _ hh.1
  · intro key _
    rw [hhd, signing_header]
    exact signedValue_perm _ _ hh.1 hh.2 key
theorem lookup_Set_same (h : Header) (key value : String) :
    (h.Set key value).lookup (CanonicalMIMEHeaderKey key) = [value] :=
  lookup_setEntry_same _ _ _

theorem lookup_Set_ne (h : Header) (key value k2 : String)
    (hne : CanonicalMIMEHeaderKey key ≠ k2) : (h.Set key value).lookup k2 = h.lookup k2 :=
  lookup_setEntry_ne _ _ _ _ hne

theorem Get_Set_same (h : Header) (key value : String) : (h.Set key value).Get key = value := by
  unfold Header.Get
  rw [lookup_Set_same]

theorem Get_Set_ne (h : Header) (key value key2 : String)
    (hne : CanonicalMIMEHeaderKey key ≠ CanonicalMIMEHeaderKey key2) :
    (h.Set key value).Get key2 = h.Get key2 := by
  unfold Header.Get
  rw [lookup_Set_ne h key value _ hne]

theorem Set_of_lookup (h : Header) (key value : String)
    (hl : h.lookup (CanonicalMIMEHeaderKey key) = [value]) : h.Set key value = h := by
  unfold Header.Set
  rw [setEntry_of_lookup _ _ _ _ hl]

theorem condSet_lookup (h : Header) (key value : String) (hv : value ≠ "") :
    (if h.Get key = "" then h.Set key value else h).Get key ≠ "" := by
  split
  · rw [Get_Set_same]
    exact hv
  · assumption

theorem condSet_get_or (h : Header) (key value : String) :
    (if h.Get key = "" then h.Set key value else h).Get key ≠ "" ∨
      (if h.Get key = "" then h.Set key value else h).lookup (CanonicalMIMEHeaderKey key) =
        [value] := by
  split
  · right
    exact lookup_Set_same _ _ _
  · left
    assumption

theorem condSet_of_get_or (h : Header) (key value : String)
    (hg : h.Get key ≠ "" ∨ h.lookup (CanonicalMIMEHeaderKey key) = [value]) :
    (if h.Get key = "" then h.Set key value else h) = h := by
  split
  · rename_i he
    rcases hg with hg | hg
    · exact absurd he hg
    · exact Set_of_lookup h key value hg
  · rfl

theorem condSet_lookup_ne (h : Header) (key value k2 : String)
    (hne : CanonicalMIMEHeaderKey key ≠ k2) :
    (if h.Get key = "" then h.Set key value else h).lookup k2 = h.lookup k2 := by
  split
  · exact lookup_Set_ne _ _ _ _ hne
  · rfl

theorem condSet_Get_ne (h : Header) (key value key2 : String)
    (hne : CanonicalMIMEHeaderKey key ≠ CanonicalMIMEHeaderKey key2) :
    (if h.Get key = "" then h.Set key value else h).Get key2 = h.Get key2 := by
  split
  · exact Get_Set_ne _ _ _ _ hne
  · rfl

/-- What `signHeaders` leaves in the header map. -/
theorem signHeaders_facts (h : Header) (hash date host : String) :
    (signHeaders h hash date host).lookup "X-Amz-Content-Sha256" = [hash] ∧
    ((signHeaders h hash date host).Get "X-Amz-Date" ≠ "" ∨
      (signHeaders h hash date host).lookup "X-Amz-Date" = [date]) ∧
    (signHeaders h hash date host).Get "Content-Type" ≠ "" ∧
    (signHeaders h hash date host).lookup "Host" = [host] := by
  have k1 : CanonicalMIMEHeaderKey "X-Amz-Content-Sha256" = "X-Amz-Content-Sha256" := by decide
  have k2 : CanonicalMIMEHeaderKey "X-Amz-Date" = "X-Amz-Date" := by decide
  have k3 : CanonicalMIMEHeaderKey "Content-Type" = "Content-Type" := by decide
  have k4 : CanonicalMIMEHeaderKey "Host" = "Host" := by decide
  unfold signHeaders
  simp only []
  have a1 : (h.Set "X-Amz-Content-Sha256" hash).lookup "X-Amz-Content-Sha256" = [hash] := by
    have := lookup_Set_same h "X-Amz-Content-Sha256" hash
    rwa [k1] at this
  generalize h.Set "X-Amz-Content-Sha256" hash = A at a1 ⊢
  have b1 : (if A.Get "X-Amz-Date" = "" then A.Set "X-Amz-Date" date else A).lookup
      "X-Amz-Content-Sha256" = [hash] := by
    rw [condSet_lookup_ne _ _ _ _ (by rw [k2]; decide)]
    exact a1
  have b2 := condSet_get_or A "X-Amz-Date" date
  rw [k2] at b2
  generalize (if A.Get "X-Amz-Date" = "" then A.Set "X-Amz-Date" date else A) = B at b1 b2 ⊢
  have c1 : (if B.Get "Content-Type" = "" then
      B.Set "Content-Type" "application/x-www-form-urlencoded; charset=utf-8" else B).lookup
      "X-Amz-Content-Sha256" = [hash] := by
    rw [condSet_lookup_ne _ _ _ _ (by rw [k3]; decide)]
    exact b1
  have c2 : (if B.Get "Content-Type" = "" then
      B.Set "Content-Type" "application/x-www-form-urlencoded; charset=utf-8" else B).Get
      "X-Amz-Date" ≠ "" ∨ (if B.Get "Content-Type" = "" then
      B.Set "Content-Type" "application/x-www-form-urlencoded; charset=utf-8" else B).lookup
      "X-Amz-Date" = [date] := by
    rw [condSet_Get_ne _ _ _ _ (by rw [k2, k3]; decide),
      condSet_lookup_ne _ _ _ _ (by rw [k3]; decide)]
    exact b2
  have c3 := condSet_lookup B "Content-Type"
    "application/x-www-form-urlencoded; charset=utf-8" (by decide)
  generalize (if B.Get "Content-Type" = "" then
      B.Set "Content-Type" "application/x-www-form-urlencoded; charset=utf-8" else B) = C
    at c1 c2 c3 ⊢
  refine ⟨?_, ?_, ?_, ?_⟩
  · rw [lookup_Set_ne _ _ _ _ (by rw [k4]; decide)]
    exact c1
  · rw [Get_Set_ne _ _ _ _ (by rw [k2, k4]; decide), lookup_Set_ne _ _ _ _ (by rw [k4]; decide)]
    exact c2
  · rw [Get_Set_ne _ _ _ _ (by rw [k3, k4]; decide)]
    exact c3
  · have := lookup_Set_same C "Host" host
    rwa [k4] at this

/-- A header map that already holds what `signHeaders` sets is left as it is. -/
theorem signHeaders_fixed (H : Header) (hash date host : String)
    (hA : H.lookup "X-Amz-Content-Sha256" = [hash])
    (hB : H.Get "X-Amz-Date" ≠ "" ∨ H.lookup "X-Amz-Date" = [date])
    (hC : H.Get "Content-Type" ≠ "")
    (hD : H.lookup "Host" = [host]) : signHeaders H hash date host = H := by
  have k1 : CanonicalMIMEHeaderKey "X-Amz-Content-Sha256" = "X-Amz-Content-Sha256" := by decide
  have k2 : CanonicalMIMEHeaderKey "X-Amz-Date" = "X-Amz-Date" := by decide
  have k4 : CanonicalMIMEHeaderKey "Host" = "Host" := by decide
  unfold signHeaders
  simp only []
  rw [Set_of_lookup H "X-Amz-Content-Sha256" hash (by rw [k1]; exact hA),
    condSet_of_get_or H "X-Amz-Date" date (by rw [k2]; exact hB), if_neg hC,
    Set_of_lookup H "Host" host (by rw [k4]; exact hD)]
theorem sortedHeaderKeys_Set_authorization (w : World) (H : Header) (a : String) :
    sortedHeaderKeys w (H.Set "Authorization" a) = sortedHeaderKeys w H := by
  have k : CanonicalMIMEHeaderKey "Authorization" = "Authorization" := by decide
  have hf : isSignedKey "Authorization" = false := by decide
  unfold sortedHeaderKeys Header.Set
  rw [k, keys_setEntry]
  split
  · rfl
  · simp [List.filter_append, hf]

theorem signedKey_head (t : Char → Char) (k : String) (hk : isSignedKey k = true) :
    ∃ c rest, (ToLower t k).data = c :: rest ∧ (c = 'c' ∨ c = 'h' ∨ c = 'x') := by
  unfold isSignedKey at hk
  simp only [Bool.or_eq_true, decide_eq_true_eq] at hk
  rcases hk with ((hk | hk) | hk) | hk
  · subst hk
    exact ⟨'c', "ontent-type".data, by rfl, Or.inl rfl⟩
  · subst hk
    exact ⟨'c', "ontent-md5".data, by rfl, Or.inl rfl⟩
  · subst hk
    exact ⟨'h', "ost".data, by rfl, Or.inr (Or.inl rfl)⟩
  · unfold HasPrefix at hk
    cases hd : k.data with
    | nil =>
      rw [hd] at hk
      exact absurd hk (by decide)
    | cons c rest =>
      rw [hd] at hk
      have hc : c = 'X' := by
        have h1 : ("X-Amz-".data.isPrefixOf (c :: rest)) =
            (('X' == c) && ("-Amz-".data.isPrefixOf rest)) := by rfl
        rw [h1] at hk
        simp only [Bool.and_eq_true, beq_iff_eq] at hk
        exact hk.1.symm
      subst hc
      refine ⟨'x', rest.map (toLowerRune t), ?_, Or.inr (Or.inr rfl)⟩
      simp only [ToLower, hd, List.map_cons]
      rfl

theorem signedKey_canon_ne (t : Char → Char) (k : String) (hk : isSignedKey k = true) :
    CanonicalMIMEHeaderKey (ToLower t k) ≠ "Authorization" := by
  obtain ⟨c, rest, hd, hc⟩ := signedKey_head t k hk
  have ha : "Authorization".data = 'A' :: "uthorization".data := by decide
  unfold CanonicalMIMEHeaderKey
  split
  · intro h
    have h1 := congrArg String.data h
    rw [ha, hd] at h1
    simp only [canonCase, List.cons.injEq] at h1
    rcases hc with rfl | rfl | rfl <;> exact absurd h1.1 (by decide)
  · intro h
    have h1 := congrArg String.data h
    rw [ha, hd] at h1
    simp only [List.cons.injEq] at h1
    rcases hc with rfl | rfl | rfl <;> exact absurd h1.1 (by decide)

theorem mem_sortedHeaderKeys (w : World) (H : Header) (key : String)
    (hkey : key ∈ sortedHeaderKeys w H) :
    ∃ k, isSignedKey k = true ∧ k ∈ H.entries.map Prod.fst ∧
      key = ToLower w.unicodeToLower k := by
  unfold sortedHeaderKeys at hkey
  have h1 := (sortStrings_perm _).mem_iff.mp hkey
  simp only [List.mem_map, List.mem_filter] at h1
  obtain ⟨k, ⟨⟨e, he, hek⟩, hs⟩, hl⟩ := h1
  exact ⟨k, hs, List.mem_map.mpr ⟨e, he, hek⟩, hl.symm⟩

theorem signedValue_Set_authorization (w : World) (H : Header) (a key : String)
    (hkey : key ∈ sortedHeaderKeys w H) :
    signedValue (H.Set "Authorization" a) key = signedValue H key := by
  obtain ⟨k, hs, _, hl⟩ := mem_sortedHeaderKeys w H key hkey
  have k0 : CanonicalMIMEHeaderKey "Authorization" = "Authorization" := by decide
  have hne : CanonicalMIMEHeaderKey "Authorization" ≠ CanonicalMIMEHeaderKey key := by
    rw [k0, hl]
    exact fun h => signedKey_canon_ne _ k hs h.symm
  unfold signedValue
  rw [Get_Set_ne _ _ _ _ hne]

/-- Signing a signed request again, at the same clock reading and with the same
credential, returns it unchanged. -/
theorem Sign_idempotent (w : World) (now : Time) (r : Request) (ak sk : String) :
    Sign w now (Sign w now r ak sk) ak sk = Sign w now r ak sk := by
  have k0 : CanonicalMIMEHeaderKey "Authorization" = "Authorization" := by decide
  have hbody : (Sign w now r ak sk).Body = r.Body := Sign_body w now r ak sk
  have hH1 := Sign_header w now r ak sk
  have hpay : (signing w (signDateString now) (Sign w now r ak sk) ak sk).hashedPayload =
      (signing w (signDateString now) r ak sk).hashedPayload := by
    rw [signing_hashedPayload, signing_hashedPayload, hbody]
  have hhost : (Sign w now r ak sk).Host = r.Host := by simp only [Sign]
  obtain ⟨fA, fB, fC, fD⟩ := signHeaders_facts r.Header
    (signing w (signDateString now) r ak sk).hashedPayload (signDateString now) r.Host
  rw [← signing_header] at fA fB fC fD
  have hfix : (signing w (signDateString now) (Sign w now r ak sk) ak sk).header =
      (Sign w now r ak sk).Header := by
    rw [signing_header, hpay, hhost]
    apply signHeaders_fixed
    · rw [hH1, lookup_Set_ne _ _ _ _ (by rw [k0]; decide)]
      exact fA
    · rw [hH1, Get_Set_ne _ _ _ _ (by rw [k0]; decide),
        lookup_Set_ne _ _ _ _ (by rw [k0]; decide)]
      exact fB
    · rw [hH1, Get_Set_ne _ _ _ _ (by rw [k0]; decide)]
      exact fC
    · rw [hH1, lookup_Set_ne _ _ _ _ (by rw [k0]; decide)]
      exact fD
  have hkeys : (signing w (signDateString now) (Sign w now r ak sk) ak sk).sortedHeaderKeys =
      (signing w (signDateString now) r ak sk).sortedHeaderKeys := by
    rw [signing_keys, signing_keys, hfix, hH1, sortedHeaderKeys_Set_authorization]
  have hauth : (signing w (signDateString now) (Sign w now r ak sk) ak sk).authorizationString =
      (signing w (signDateString now) r ak sk).authorizationString := by
    apply signing_congr w (signDateString now) (Sign w now r ak sk) r ak sk
      (by simp only [Sign]) (by simp only [Sign]) hbody hkeys
    intro key hkey
    rw [hkeys, signing_keys] at hkey
    rw [hfix, hH1]
    exact signedValue_Set_authorization w _ _ key hkey
  have hhdr : (Sign w now (Sign w now r ak sk) ak sk).Header = (Sign w now r ak sk).Header := by
    rw [Sign_header w now (Sign w now r ak sk), hfix, hauth]
    apply Set_of_lookup
    rw [hH1]
    exact lookup_Set_same _ _ _
  have hb2 : (Sign w now (Sign w now r ak sk) ak sk).Body = (Sign w now r ak sk).Body :=
    Sign_body w now _ ak sk
  have hm : (Sign w now (Sign w now r ak sk) ak sk).Method = (Sign w now r ak sk).Method := by
    simp only [Sign]
  have hu : (Sign w now (Sign w now r ak sk) ak sk).URL = (Sign w now r ak sk).URL := by
    simp only [Sign]
  have hh : (Sign w now (Sign w now r ak sk) ak sk).Host = (Sign w now r ak sk).Host := by
    simp only [Sign]
  cases h1 : Sign w now (Sign w now r ak sk) ak sk
  cases h2 : Sign w now r ak sk
  rw [h1, h2] at hhdr hb2 hm hu hh
  simp only at hhdr hb2 hm hu hh
  rw [hhdr, hb2, hm, hu, hh]

/-! ## Lemmas on the operations that change the gateway -/

theorem DeleteObject_client (w : World) (net : Net) (c : Client) (bucket object : String) :
    (DeleteObject w net c bucket object).2.1 =
      if bucket.data.length = 0 ∨ object.data.length = 0 then c else c.SetPrefix "" := by
  unfold DeleteObject
  by_cases hb : bucket.data.length = 0
  · simp only [hb, if_true, true_or]
  · by_cases ho : object.data.length = 0
    · simp only [hb, ho, if_true, if_false, or_true]
    · simp only [hb, ho, if_false, or_self]
      rcases sendRequest w net (c.SetPrefix "") "DELETE" ("/" ++ bucket ++ "/" ++ object)
        Values.empty [] none with ⟨res, n1⟩
      rcases res with ⟨rb, st, err⟩
      cases err with
      | some e => rfl
      | none =>
        simp only
        split <;> rfl

theorem CreateBucket_client (w : World) (net : Net) (c : Client) (bucket region acl : String) :
    (CreateBucket w net c bucket region acl).2.1 =
      if bucket.data.length = 0 then c else (c.SetPrefix "").SetPrefix defaultAdminPrefix := by
  unfold CreateBucket
  by_cases hb : bucket.data.length = 0
  · simp only [hb, if_true]
  · simp only [hb, if_false]
    rcases sendRequest w net (c.SetPrefix "") "PUT" ("/" ++ bucket) Values.empty
      (if acl.data.length ≠ 0 then [("x-amz-acl", acl)] else [])
      (some (if region.data.length ≠ 0 then bytesOf (createBucketConfiguration region) else []))
      with ⟨res, n1⟩
    rcases res with ⟨rb, st, err⟩
    cases err with
    | some e => rfl
    | none =>
      simp only
      split <;> rfl

/-! ## Lemmas on the conversion to float64 -/

theorem droppedBits_small (fuel n : Nat) (h : n < 2 ^ 53) : droppedBits fuel n = 0 := by
  cases fuel with
  | zero => rfl
  | succ f => simp only [droppedBits, h, if_true]

theorem roundHalfEven_zero (n : Nat) : roundHalfEven n 0 = n := by
  simp [roundHalfEven, Nat.mod_one]

/-- The conversion is exact up to `2 ^ 53` in magnitude. -/
theorem float64_exact (x : Int) (h : x.natAbs ≤ 2 ^ 53) : float64 x = x := by
  rcases Nat.lt_or_eq_of_le h with hlt | heq
  · unfold float64
    simp only [droppedBits_small _ _ hlt, roundHalfEven_zero]
    split <;> omega
  · rcases Int.natAbs_eq x with hx | hx
    · rw [hx, heq]
      decide
    · rw [hx, heq]
      decide

/-- The exponent chosen by `droppedBits` leaves a significand below `2 ^ 53`,
and one of at least `2 ^ 52` whenever digits are dropped. -/
theorem droppedBits_spec (fuel n : Nat) (h : n ≤ fuel) :
    n / 2 ^ droppedBits fuel n < 2 ^ 53 ∧
    (droppedBits fuel n = 0 ∨ 2 ^ 52 ≤ n / 2 ^ droppedBits fuel n) := by
  induction fuel generalizing n with
  | zero =>
    have h0 : n = 0 := by omega
    subst h0
    exact ⟨by decide, Or.inl rfl⟩
  | succ f ih =>
    by_cases hn : n < 2 ^ 53
    · have hd : droppedBits (f + 1) n = 0 := by simp only [droppedBits, hn, if_true]
      rw [hd, pow_zero, Nat.div_one]
      exact ⟨hn, Or.inl rfl⟩
    · have hd : droppedBits (f + 1) n = droppedBits f (n / 2) + 1 := by
        simp only [droppedBits, hn, if_false]
      rw [hd]
      have hle : n / 2 ≤ f := by omega
      obtain ⟨h1, h2⟩ := ih (n / 2) hle
      have hdiv : n / 2 ^ (droppedBits f (n / 2) + 1) = n / 2 / 2 ^ droppedBits f (n / 2) := by
        rw [pow_succ, Nat.mul_comm, Nat.div_div_eq_div_mul]
      rw [hdiv]
      refine ⟨h1, Or.inr ?_⟩
      rcases h2 with h2 | h2
      · rw [h2, pow_zero, Nat.div_one]
        omega
      · exact h2

/-- The rounded value is a multiple of `2 ^ e`, at most half of `2 ^ e` away
from `n`. -/
theorem roundHalfEven_near (n e : Nat) :
    (roundHalfEven n e = n / 2 ^ e * 2 ^ e ∨ roundHalfEven n e = (n / 2 ^ e + 1) * 2 ^ e) ∧
    2 * roundHalfEven n e ≤ 2 * n + 2 ^ e ∧ 2 * n ≤ 2 * roundHalfEven n e + 2 ^ e := by
  have hdm : 2 ^ e * (n / 2 ^ e) + n % 2 ^ e = n := Nat.div_add_mod n (2 ^ e)
  have hlt : n % 2 ^ e < 2 ^ e := Nat.mod_lt n (Nat.two_pow_pos e)
  unfold roundHalfEven
  simp only []
  generalize 2 ^ e = p at *
  generalize n / p = q at *
  generalize n % p = r at *
  have hc : p * q = q * p := Nat.mul_comm p q
  have hs : (q + 1) * p = q * p + p := by ring
  split
  · exact ⟨Or.inl rfl, by omega, by omega⟩
  · split
    · exact ⟨Or.inr rfl, by omega, by omega⟩
    · split
      · exact ⟨Or.inl rfl, by omega, by omega⟩
      · exact ⟨Or.inr rfl, by omega, by omega⟩

/-- What the conversion computes: with `e` the number of dropped digits, the
result is a multiple `m * 2 ^ e` with `m ≤ 2 ^ 53`, it has the sign of `x`, and
it lies at most half of `2 ^ e` away from `x`; `e` is 0 or the least exponent
that leaves 53 digits. -/
theorem float64_near (x : Int) :
    ∃ m : Nat, m ≤ 2 ^ 53 ∧
      (float64 x).natAbs = m * 2 ^ droppedBits x.natAbs x.natAbs ∧
      (x < 0 → float64 x ≤ 0) ∧ (0 ≤ x → 0 ≤ float64 x) ∧
      2 * (float64 x - x).natAbs ≤ 2 ^ droppedBits x.natAbs x.natAbs ∧
      (droppedBits x.natAbs x.natAbs = 0 ∨
        2 ^ (52 + droppedBits x.natAbs x.natAbs) ≤ x.natAbs) := by
  obtain ⟨hq, he⟩ := droppedBits_spec x.natAbs x.natAbs (le_refl _)
  obtain ⟨hr, h1, h2⟩ := roundHalfEven_near x.natAbs (droppedBits x.natAbs x.natAbs)
  have hmin : droppedBits x.natAbs x.natAbs = 0 ∨
      2 ^ (52 + droppedBits x.natAbs x.natAbs) ≤ x.natAbs := by
    rcases he with he | he
    · exact Or.inl he
    · right
      rw [pow_add]
      calc 2 ^ 52 * 2 ^ droppedBits x.natAbs x.natAbs
          ≤ x.natAbs / 2 ^ droppedBits x.natAbs x.natAbs * 2 ^ droppedBits x.natAbs x.natAbs :=
            Nat.mul_le_mul_right _ he
        _ ≤ x.natAbs := Nat.div_mul_le_self _ _
  have hval : float64 x = if x < 0 then
      -((roundHalfEven x.natAbs (droppedBits x.natAbs x.natAbs) : Nat) : Int)
      else ((roundHalfEven x.natAbs (droppedBits x.natAbs x.natAbs) : Nat) : Int) := rfl
  generalize droppedBits x.natAbs x.natAbs = e at *
  generalize hv : roundHalfEven x.natAbs e = v at *
  have hm : ∃ m : Nat, m ≤ 2 ^ 53 ∧ v = m * 2 ^ e := by
    rcases hr with hr | hr
    · exact ⟨_, by omega, hr⟩
    · exact ⟨_, by omega, hr⟩
  obtain ⟨m, hm1, hm2⟩ := hm
  refine ⟨m, hm1, ?_, ?_, ?_, ?_, hmin⟩
  · rw [hval, ← hm2]
    split <;> simp
  · intro hx
    rw [hval, if_pos hx]
    omega
  · intro hx
    rw [hval, if_neg (by omega)]
    omega
  · rw [hval]
    split
    · omega
    · omega

/-- Half way between two multiples of `2 ^ e` the even multiple is taken. -/
theorem roundHalfEven_tie (n e : Nat) (h : 2 * (n % 2 ^ e) = 2 ^ e) :
    roundHalfEven n e / 2 ^ e % 2 = 0 := by
  have hpos : 0 < 2 ^ e := Nat.two_pow_pos e
  unfold roundHalfEven
  simp only []
  generalize 2 ^ e = p at *
  generalize n / p = q at *
  generalize n % p = r at *
  rw [if_neg (by omega), if_neg (by omega)]
  split
  · rw [Nat.mul_div_cancel _ hpos]
    assumption
  · rw [Nat.mul_div_cancel _ hpos]
    omega

/-! ## The poll cycle -/

set_option maxRecDepth 1000000

theorem sendRequest_net (w : World) (net : Net) (c : Client) (method uri : String)
    (args : Values) (headers : List (String × String)) (body : Option Bytes) :
    (sendRequest w net c method uri args headers body).2 = net ∨
    ∃ req, (sendRequest w net c method uri args headers body).2 = net ++ [req] ∧
      req.Method = method ∧ w.urlParse (requestUrl c uri args) = .ok req.URL := by
  unfold sendRequest
  cases hp : w.urlParse (requestUrl c uri args) with
  | error e => exact Or.inl rfl
  | ok u =>
    right
    refine ⟨Sign w (w.now net.length) ⟨method, u, u.Host, addHeaders headers, body⟩
      c.accessKeyId c.secretAccessKey, ?_, rfl, rfl⟩
    simp only
    cases w.Do net.length (Sign w (w.now net.length) ⟨method, u, u.Host, addHeaders headers, body⟩
      c.accessKeyId c.secretAccessKey) <;> rfl

theorem GetBucket_net (w : World) (net : Net) (c : Client) (bucket uid : String)
    (stats : Bool) :
    (GetBucket w net c bucket uid stats).2 =
      (sendRequest w net c "GET" "/bucket" (bucketArgs bucket uid stats) [] none).2 := by
  unfold GetBucket
  rcases sendRequest w net c "GET" "/bucket" (bucketArgs bucket uid stats) [] none with ⟨res, n1⟩
  rcases res with ⟨rb, st, err⟩
  cases err with
  | some e => rfl
  | none =>
    simp only
    split
    · rfl
    · cases parseBuckets w (bodyOf rb) <;> rfl

theorem GetUsage_net (w : World) (net : Net) (c : Client) (uid : String)
    (start stop : Option Time) (showSummary showEntries : Bool) :
    (GetUsage w net c uid start stop showSummary showEntries).2 =
      (sendRequest w net c "GET" "/usage"
        (usageArgs uid start stop showSummary showEntries) [] none).2 := by
  unfold GetUsage
  rcases sendRequest w net c "GET" "/usage"
    (usageArgs uid start stop showSummary showEntries) [] none with ⟨res, n1⟩
  rcases res with ⟨rb, st, err⟩
  cases err with
  | some e => rfl
  | none =>
    simp only
    split
    · rfl
    · cases w.unmarshalUsage (bodyOf rb) <;> rfl

/-- C4: when the bucket-stats call of a poll cycle returns an error or a status
greater than 200, `collecting` returns with the collector exactly as it was (all
six slices, hence the sample set of `allGauges`), and it sends nothing after the
bucket-stats call: the requests of the cycle are those of `GetBucket`, at most
one, addressed to the bucket URL, so no usage request is made. -/
theorem collecting_bucket_failure (w : World) (net : Net) (r : RadosgwCollector)
    (hfail : (GetBucket w net r.client "" "" true).1.err ≠ none ∨
      (GetBucket w net r.client "" "" true).1.status > 200) :
    (collecting w net r).r = r ∧
    allGauges (collecting w net r).r = allGauges r ∧
    (collecting w net r).panicked = false ∧
    (collecting w net r).net = (GetBucket w net r.client "" "" true).2 ∧
    ((collecting w net r).net = net ∨
      ∃ req, (collecting w net r).net = net ++ [req] ∧ req.Method = "GET" ∧
        w.urlParse (requestUrl r.client "/bucket" (bucketArgs "" "" true)) = .ok req.URL) := by
  have hnet := sendRequest_net w net r.client "GET" "/bucket" (bucketArgs "" "" true) [] none
  rw [← GetBucket_net] at hnet
  rcases hgb : GetBucket w net r.client "" "" true with ⟨b, net1⟩
  rw [hgb] at hfail hnet
  simp only at hfail hnet
  have hcond : (b.err.isSome || decide (b.status > 200)) = true := by
    rcases hfail with h | h
    · cases hb : b.err with
      | none => exact absurd hb h
      | some e => simp
    · simp [h]
  have hc : collecting w net r = ⟨r, net1, false⟩ := by
    simp only [collecting, hgb, hcond, if_true]
  rw [hc]
  exact ⟨rfl, rfl, rfl, rfl, hnet⟩

/-- Witness of C4: a bucket-stats answer with status 201 and a valid document
aborts the cycle of a collector that holds earlier samples. -/
theorem collecting_bucket_failure_witness :
    ((GetBucket createdWorld [] demoCollector.client "" "" true).1.err ≠ none ∨
      (GetBucket createdWorld [] demoCollector.client "" "" true).1.status > 200) ∧
    ((collecting createdWorld [] demoCollector).r = demoCollector ∧
    allGauges (collecting createdWorld [] demoCollector).r = allGauges demoCollector ∧
    (collecting createdWorld [] demoCollector).panicked = false ∧
    (collecting createdWorld [] demoCollector).net =
      (GetBucket createdWorld [] demoCollector.client "" "" true).2 ∧
    ((collecting createdWorld [] demoCollector).net = [] ∨
      ∃ req, (collecting createdWorld [] demoCollector).net = [] ++ [req] ∧ req.Method = "GET" ∧
        createdWorld.urlParse (requestUrl demoCollector.client "/bucket" (bucketArgs "" "" true))
          = .ok req.URL)) :=
  ⟨Or.inr (by decide), collecting_bucket_failure createdWorld [] demoCollector (Or.inr (by decide))⟩

/-- C1, counterexample: the bucket-stats call succeeds with status 200, the
usage call is answered with status 500, and the samples of `allGauges` after the
cycle differ from those before it; `numObjects` and `capacity` hold the samples
of this cycle's bucket stats, not the earlier ones. -/
theorem usage_failure_changes_samples :
    (GetBucket usageDownWorld [] demoCollector.client "" "" true).1.err = none ∧
    (GetBucket usageDownWorld [] demoCollector.client "" "" true).1.status = 200 ∧
    (GetUsage usageDownWorld (GetBucket usageDownWorld [] demoCollector.client "" "" true).2
      demoCollector.client "" none none false false).1.status = 500 ∧
    allGauges (collecting usageDownWorld [] demoCollector).r ≠ allGauges demoCollector ∧
    allGauges (collecting usageDownWorld [] demoCollector).r =
      [numObjectsGauge aliceStats, capacityGauge aliceStats] ∧
    demoCollector.numObjects = [numObjectsGauge (mkStats "old" "logs" 1 64)] ∧
    (collecting usageDownWorld [] demoCollector).r.numObjects = [numObjectsGauge aliceStats] ∧
    (collecting usageDownWorld [] demoCollector).r.numObjects ≠ demoCollector.numObjects ∧
    demoCollector.capacity = [capacityGauge (mkStats "old" "logs" 1 64)] ∧
    (collecting usageDownWorld [] demoCollector).r.capacity = [capacityGauge aliceStats] ∧
    (collecting usageDownWorld [] demoCollector).r.capacity ≠ demoCollector.capacity := by
  decide

/-- C1, amended: when the bucket-stats call succeeds over a list of full stat
objects and the usage call fails (an error or a status greater than 200), the
cycle returns with `numObjects` and `capacity` holding the samples of this
cycle's bucket stats, one of each per stat object in document order; the earlier
stats samples are not kept. -/
theorem collecting_usage_failure (w : World) (net : Net) (r : RadosgwCollector)
    (st : Int) (bs : List BucketType) (ss : List BucketStatsType)
    (hb : (GetBucket w net r.client "" "" true).1 = ⟨st, some bs, none⟩) (hst : st ≤ 200)
    (hfull : bs.map BucketType.Stats = ss.map some)
    (hfail : (GetUsage w (GetBucket w net r.client "" "" true).2 r.client
        "" none none false false).1.err ≠ none ∨
      (GetUsage w (GetBucket w net r.client "" "" true).2 r.client
        "" none none false false).1.status > 200) :
    (collecting w net r).r.numObjects = ss.map numObjectsGauge ∧
    (collecting w net r).r.capacity = ss.map capacityGauge ∧
    (collecting w net r).panicked = false := by
  rcases hgb : GetBucket w net r.client "" "" true with ⟨b, net1⟩
  rw [hgb] at hb hfail
  simp only at hb hfail
  subst hb
  rcases hgu : GetUsage w net1 r.client "" none none false false with ⟨u, net2⟩
  rw [hgu] at hfail
  simp only at hfail
  have h1 : ¬ (200 < st) := not_lt.mpr hst
  have hcond : (u.err.isSome || decide (u.status > 200)) = true := by
    rcases hfail with h | h
    · cases hu : u.err with
      | none => exact absurd hu h
      | some e => simp
    · simp [h]
  have hc : collecting w net r = ⟨snapshotOf r.client ss [], net2, false⟩ := by
    simp only [collecting, hgb, Option.isSome_none, Bool.false_or, decide_eq_true_eq, h1,
      if_false, Option.getD_some, statsLoop_full bs ss _ hfull, hgu, hcond, if_true]
    simp [snapshotOf]
  rw [hc]
  simp [snapshotOf]

/-- Witness of the amended C1: the collector with earlier samples, a successful
bucket-stats call and a usage call answered with status 500. -/
theorem collecting_usage_failure_witness :
    (GetBucket usageDownWorld [] demoCollector.client "" "" true).1 =
      ⟨200, some [⟨"", some aliceStats⟩], none⟩ ∧
    ((200 : Int) ≤ 200) ∧
    [(⟨"", some aliceStats⟩ : BucketType)].map BucketType.Stats = [aliceStats].map some ∧
    ((GetUsage usageDownWorld (GetBucket usageDownWorld [] demoCollector.client "" "" true).2
        demoCollector.client "" none none false false).1.err ≠ none ∨
      (GetUsage usageDownWorld (GetBucket usageDownWorld [] demoCollector.client "" "" true).2
        demoCollector.client "" none none false false).1.status > 200) ∧
    ((collecting usageDownWorld [] demoCollector).r.numObjects = [aliceStats].map numObjectsGauge ∧
    (collecting usageDownWorld [] demoCollector).r.capacity = [aliceStats].map capacityGauge ∧
    (collecting usageDownWorld [] demoCollector).panicked = false) :=
  ⟨by decide, by decide, by decide, Or.inr (by decide),
    collecting_usage_failure usageDownWorld [] demoCollector 200 [⟨"", some aliceStats⟩]
      [aliceStats] (by decide) (by decide) (by decide) (Or.inr (by decide))⟩

theorem collecting_bare_panics (w : World) (net : Net) (r : RadosgwCollector)
    (st : Int) (bs : List BucketType)
    (hb : (GetBucket w net r.client "" "" true).1 = ⟨st, some bs, none⟩) (hst : st ≤ 200)
    (hbare : ∃ b ∈ bs, b.Stats = none) : (collecting w net r).panicked = true := by
  rcases hgb : GetBucket w net r.client "" "" true with ⟨b, net1⟩
  rw [hgb] at hb
  simp only at hb
  subst hb
  have h1 : ¬ (200 < st) := not_lt.mpr hst
  have hp := statsLoop_bare bs { r with numObjects := [], capacity := [] } hbare
  rcases hsl : statsLoop bs { r with numObjects := [], capacity := [] } with ⟨r1, p⟩
  rw [hsl] at hp
  simp only at hp
  subst hp
  simp only [collecting, hgb, Option.isSome_none, Bool.false_or, decide_eq_true_eq, h1,
    if_false, Option.getD_some, hsl]

/-- C2, at the failing input: the gateway answers the bucket-stats call with
the document of a bare name followed by a full stat object; `GetBucket` returns
the two entries, the first without Stats, and `collecting` then ends in a panic
(it reads `stats.Owner` through the nil pointer), so `Collect` sends no sample at
all instead of the two samples of the stat object. -/
theorem bare_name_entry_panics :
    (GetBucket bareWorld [] freshCollector.client "" "" true).1 =
      ⟨200, some [⟨"barebucket", none⟩, ⟨"", some u1Stats⟩], none⟩ ∧
    (collecting bareWorld [] freshCollector).panicked = true ∧
    (collecting bareWorld [] freshCollector).r.numObjects = [] ∧
    (Collect bareWorld [] freshCollector).sent = none := by
  decide

/-- C3, at every client and in the end-to-end scenario: the URL text that
`GetUsage` builds for the call of `collecting` carries `show-entries=false` and
`show-summary=false` (and no uid, start or end), and the second request a cycle
sends has exactly these three query parameters. -/
theorem usage_request_asks_no_entries :
    (∀ c : Client, requestUrl c "/usage" (usageArgs "" none none false false) =
      (if c.pfx.data.length ≠ 0 then c.endpoint ++ c.pfx else c.endpoint) ++
        "/usage?format=json&show-entries=false&show-summary=false") ∧
    ((collecting aliceWorld [] freshCollector).net.map fun q => (q.Method, q.URL)) =
      [("GET", ⟨"rgw:8080", "/admin/bucket", ⟨[("format", ["json"]), ("stats", ["true"])]⟩⟩),
       ("GET", ⟨"rgw:8080", "/admin/usage",
          ⟨[("format", ["json"]), ("show-entries", ["false"]),
            ("show-summary", ["false"])]⟩⟩)] := by
  refine ⟨fun c => ?_, by decide⟩
  have henc : (usageArgs "" none none false false).Encode =
      "format=json&show-entries=false&show-summary=false" := by decide
  unfold requestUrl
  rw [henc]
  split
  · simp only [String.append_assoc]; rfl
  · simp only [String.append_assoc]; rfl

/-! ## The samples of a successful cycle -/

theorem statsLabels_injective :
    Function.Injective fun p : String × String => [("user", p.1), ("bucket", p.2)] := by
  intro p q h
  simp only [List.cons.injEq, Prod.mk.injEq, true_and, and_true] at h
  exact Prod.ext h.1 h.2

theorem usageLabels_injective :
    Function.Injective fun p : String × String × String => usageLabels p.1 p.2.1 p.2.2 := by
  intro p q h
  simp only [usageLabels, List.cons.injEq, Prod.mk.injEq, true_and, and_true] at h
  exact Prod.ext h.1 (Prod.ext h.2.1 h.2.2)

theorem statsLabels_nodup (mk : BucketStatsType → Gauge) (ss : List BucketStatsType)
    (hmk : ∀ s, (mk s).ConstLabels = [("user", s.Owner), ("bucket", s.Bucket)]) :
    ((ss.map mk).map Gauge.ConstLabels).Nodup ↔
      (ss.map fun s => (s.Owner, s.Bucket)).Nodup := by
  have h : (ss.map mk).map Gauge.ConstLabels =
      (ss.map fun s => (s.Owner, s.Bucket)).map
        (fun p : String × String => [("user", p.1), ("bucket", p.2)]) := by
    simp [List.map_map, Function.comp_def, hmk]
  rw [h, List.nodup_map_iff statsLabels_injective]

theorem leafLabels_nodup (mk : String → String → UsageCategoryType → Gauge)
    (leaves : List (String × String × UsageCategoryType))
    (hmk : ∀ u b c, (mk u b c).ConstLabels = usageLabels u b c.Category) :
    ((leaves.map (leafGauge mk)).map Gauge.ConstLabels).Nodup ↔
      (leaves.map fun l => (l.1, l.2.1, l.2.2.Category)).Nodup := by
  have h : (leaves.map (leafGauge mk)).map Gauge.ConstLabels =
      (leaves.map fun l => (l.1, l.2.1, l.2.2.Category)).map
        (fun p : String × String × String => usageLabels p.1 p.2.1 p.2.2) := by
    simp [List.map_map, Function.comp_def, hmk, leafGauge]
  rw [h, List.nodup_map_iff usageLabels_injective]

/-- C5, counterexample: both calls of the cycle succeed.  When the bucket-stats
document lists the bucket photos of the owner alice twice, the snapshot holds
two `num_objects` samples, and two `capacity` samples, with the same user and
bucket labels; when the usage tree lists the bucket photos of user alice twice
(two different hours), the snapshot holds two `bytes_sent_total` samples with
the same user, bucket and api labels. -/
theorem repeated_bucket_repeats_labels :
    (collecting repeatedStatsWorld [] freshCollector).panicked = false ∧
    (collecting repeatedStatsWorld [] freshCollector).r.numObjects =
      [numObjectsGauge aliceStats, numObjectsGauge twinStats] ∧
    (collecting repeatedStatsWorld [] freshCollector).r.numObjects.map Gauge.ConstLabels =
      [[("user", "alice"), ("bucket", "photos")], [("user", "alice"), ("bucket", "photos")]] ∧
    ¬ ((collecting repeatedStatsWorld [] freshCollector).r.numObjects.map
      Gauge.ConstLabels).Nodup ∧
    ¬ ((collecting repeatedStatsWorld [] freshCollector).r.capacity.map
      Gauge.ConstLabels).Nodup ∧
    (collecting repeatedWorld [] freshCollector).panicked = false ∧
    (collecting repeatedWorld [] freshCollector).r.bytesSent.map Gauge.ConstLabels =
      [[("user", "alice"), ("bucket", "photos"), ("api", "get_obj")],
       [("user", "alice"), ("bucket", "photos"), ("api", "get_obj")]] ∧
    ¬ ((collecting repeatedWorld [] freshCollector).r.bytesSent.map Gauge.ConstLabels).Nodup := by
  decide

/-- C5, amended: in the snapshot of a successful poll cycle the label sets of a
stats-derived metric are pairwise distinct exactly when no (owner, bucket) pair
occurs twice among the stat objects of the bucket-stats document, and the label
sets of a usage-derived metric are pairwise distinct exactly when no (user,
bucket, category) triple occurs twice among the leaves of the usage tree: the
collector passes repetitions of the upstream documents through. -/
theorem label_sets_unique_iff (w : World) (net : Net) (r : RadosgwCollector)
    (st ust : Int) (bs : List BucketType) (ss : List BucketStatsType) (usage : UsageType)
    (hb : (GetBucket w net r.client "" "" true).1 = ⟨st, some bs, none⟩) (hst : st ≤ 200)
    (hfull : bs.map BucketType.Stats = ss.map some)
    (hu : (GetUsage w (GetBucket w net r.client "" "" true).2 r.client
      "" none none false false).1 = ⟨ust, some usage, none⟩) (hust : ust ≤ 200) :
    (((collecting w net r).r.numObjects.map Gauge.ConstLabels).Nodup ↔
      (ss.map fun s => (s.Owner, s.Bucket)).Nodup) ∧
    (((collecting w net r).r.capacity.map Gauge.ConstLabels).Nodup ↔
      (ss.map fun s => (s.Owner, s.Bucket)).Nodup) ∧
    (((collecting w net r).r.bytesSent.map Gauge.ConstLabels).Nodup ↔
      ((usageLeaves usage.Entries).map fun l => (l.1, l.2.1, l.2.2.Category)).Nodup) ∧
    (((collecting w net r).r.bytesRecv.map Gauge.ConstLabels).Nodup ↔
      ((usageLeaves usage.Entries).map fun l => (l.1, l.2.1, l.2.2.Category)).Nodup) ∧
    (((collecting w net r).r.ops.map Gauge.ConstLabels).Nodup ↔
      ((usageLeaves usage.Entries).map fun l => (l.1, l.2.1, l.2.2.Category)).Nodup) ∧
    (((collecting w net r).r.opsOK.map Gauge.ConstLabels).Nodup ↔
      ((usageLeaves usage.Entries).map fun l => (l.1, l.2.1, l.2.2.Category)).Nodup) := by
  rw [collecting_of_success w net r st ust bs ss usage hb hst hfull hu hust]
  simp only [snapshotOf]
  exact ⟨statsLabels_nodup _ ss (fun _ => rfl), statsLabels_nodup _ ss (fun _ => rfl),
    leafLabels_nodup _ _ (fun _ _ _ => rfl), leafLabels_nodup _ _ (fun _ _ _ => rfl),
    leafLabels_nodup _ _ (fun _ _ _ => rfl), leafLabels_nodup _ _ (fun _ _ _ => rfl)⟩

/-- Witness of the amended C5: a bucket-stats document with two stat objects of
different buckets and a usage tree with two leaves of the same user, bucket and
category.  The two `num_objects` samples have different label sets, as the two
(owner, bucket) pairs differ; the two `bytes_sent_total` samples share their
label set, as the two leaves share their triple. -/
theorem label_sets_unique_iff_witness :
    ((GetBucket mixedWorld [] freshCollector.client "" "" true).1 =
      ⟨200, some [⟨"", some aliceStats⟩, ⟨"", some u1Stats⟩], none⟩ ∧
    ((200 : Int) ≤ 200) ∧
    [(⟨"", some aliceStats⟩ : BucketType), ⟨"", some u1Stats⟩].map BucketType.Stats =
      [aliceStats, u1Stats].map some ∧
    (GetUsage mixedWorld (GetBucket mixedWorld [] freshCollector.client "" "" true).2
      freshCollector.client "" none none false false).1 = ⟨200, some repeatedUsage, none⟩) ∧
    ((((collecting mixedWorld [] freshCollector).r.numObjects.map Gauge.ConstLabels).Nodup ↔
      ([aliceStats, u1Stats].map fun s => (s.Owner, s.Bucket)).Nodup) ∧
    (((collecting mixedWorld [] freshCollector).r.capacity.map Gauge.ConstLabels).Nodup ↔
      ([aliceStats, u1Stats].map fun s => (s.Owner, s.Bucket)).Nodup) ∧
    (((collecting mixedWorld [] freshCollector).r.bytesSent.map Gauge.ConstLabels).Nodup ↔
      ((usageLeaves repeatedUsage.Entries).map fun l => (l.1, l.2.1, l.2.2.Category)).Nodup) ∧
    (((collecting mixedWorld [] freshCollector).r.bytesRecv.map Gauge.ConstLabels).Nodup ↔
      ((usageLeaves repeatedUsage.Entries).map fun l => (l.1, l.2.1, l.2.2.Category)).Nodup) ∧
    (((collecting mixedWorld [] freshCollector).r.ops.map Gauge.ConstLabels).Nodup ↔
      ((usageLeaves repeatedUsage.Entries).map fun l => (l.1, l.2.1, l.2.2.Category)).Nodup) ∧
    (((collecting mixedWorld [] freshCollector).r.opsOK.map Gauge.ConstLabels).Nodup ↔
      ((usageLeaves repeatedUsage.Entries).map fun l => (l.1, l.2.1, l.2.2.Category)).Nodup)) ∧
    ([aliceStats, u1Stats].map fun s => (s.Owner, s.Bucket)) =
      [("alice", "photos"), ("u1", "b1")] ∧
    ((collecting mixedWorld [] freshCollector).r.numObjects.map Gauge.ConstLabels).Nodup ∧
    ((usageLeaves repeatedUsage.Entries).map fun l => (l.1, l.2.1, l.2.2.Category)) =
      [("alice", "photos", "get_obj"), ("alice", "photos", "get_obj")] ∧
    ¬ ((collecting mixedWorld [] freshCollector).r.bytesSent.map Gauge.ConstLabels).Nodup :=
  ⟨⟨by decide, by decide, by decide, by decide⟩,
    label_sets_unique_iff mixedWorld [] freshCollector 200 200
      [⟨"", some aliceStats⟩, ⟨"", some u1Stats⟩] [aliceStats, u1Stats] repeatedUsage
      (by decide) (by decide) (by decide) (by decide) (by decide),
    by decide, by decide, by decide, by decide⟩

/-- C6, counterexample: both calls of the cycle succeed and the usage tree has
one leaf with bytes_sent `2 ^ 53 + 1` and bytes_received `2 ^ 53 + 3`.  The
`bytes_sent_total` sample holds `2 ^ 53` and the `bytes_recv_total` sample holds
`2 ^ 53 + 4`: the values of the leaf converted to `float64`, not the values of
the leaf. -/
theorem large_counter_is_rounded :
    (collecting largeWorld [] freshCollector).panicked = false ∧
    (usageLeaves largeUsage.Entries).map (fun l => (l.2.2.BytesSent, l.2.2.BytesReceived)) =
      [(9007199254740993, 9007199254740995)] ∧
    (collecting largeWorld [] freshCollector).r.bytesSent =
      [⟨"radosgw", "bytes_sent_total", "currently total sent throughput",
        [("user", "alice"), ("bucket", "photos"), ("api", "get_obj")], 9007199254740992⟩] ∧
    (collecting largeWorld [] freshCollector).r.bytesRecv =
      [⟨"radosgw", "bytes_recv_total", "currently total recv throughput",
        [("user", "alice"), ("bucket", "photos"), ("api", "get_obj")], 9007199254740996⟩] ∧
    (collecting largeWorld [] freshCollector).r.bytesSent.map Gauge.value ≠
      (usageLeaves largeUsage.Entries).map (fun l => l.2.2.BytesSent) ∧
    float64 (2 ^ 53 + 1) = 2 ^ 53 ∧ float64 (2 ^ 53 + 3) = 2 ^ 53 + 4 ∧
    float64 (-(2 ^ 53 + 1)) = -(2 ^ 53) ∧ float64 (2 ^ 63 - 1) = 2 ^ 63 := by
  decide

/-- C6, amended: a successful poll cycle over a usage tree leaves, for every
category leaf in document order, one sample in each of the four usage slices,
with the labels user, bucket and api = category and with the value of
bytes_sent, bytes_received, ops and successful_ops of the leaf converted to
`float64`, which is the value of the leaf itself whenever its magnitude is at
most `2 ^ 53`; the four slices together hold 4 times the number of leaves. -/
theorem usage_samples_per_leaf (w : World) (net : Net) (r : RadosgwCollector)
    (st ust : Int) (bs : List BucketType) (ss : List BucketStatsType) (usage : UsageType)
    (hb : (GetBucket w net r.client "" "" true).1 = ⟨st, some bs, none⟩) (hst : st ≤ 200)
    (hfull : bs.map BucketType.Stats = ss.map some)
    (hu : (GetUsage w (GetBucket w net r.client "" "" true).2 r.client
      "" none none false false).1 = ⟨ust, some usage, none⟩) (hust : ust ≤ 200) :
    (collecting w net r).r.bytesSent = (usageLeaves usage.Entries).map (fun l =>
      ⟨"radosgw", "bytes_sent_total", "currently total sent throughput",
        [("user", l.1), ("bucket", l.2.1), ("api", l.2.2.Category)],
        float64 l.2.2.BytesSent⟩) ∧
    (collecting w net r).r.bytesRecv = (usageLeaves usage.Entries).map (fun l =>
      ⟨"radosgw", "bytes_recv_total", "currently total recv throughput",
        [("user", l.1), ("bucket", l.2.1), ("api", l.2.2.Category)],
        float64 l.2.2.BytesReceived⟩) ∧
    (collecting w net r).r.ops = (usageLeaves usage.Entries).map (fun l =>
      ⟨"radosgw", "ops_total", "currently total ops",
        [("user", l.1), ("bucket", l.2.1), ("api", l.2.2.Category)], float64 l.2.2.Ops⟩) ∧
    (collecting w net r).r.opsOK = (usageLeaves usage.Entries).map (fun l =>
      ⟨"radosgw", "ops_ok_total", "currently total ops ok",
        [("user", l.1), ("bucket", l.2.1), ("api", l.2.2.Category)],
        float64 l.2.2.SuccessfulOps⟩) ∧
    (∀ x : Int, x.natAbs ≤ 2 ^ 53 → float64 x = x) ∧
    ((collecting w net r).r.bytesSent ++ (collecting w net r).r.bytesRecv ++
      (collecting w net r).r.ops ++ (collecting w net r).r.opsOK).length =
      4 * (usageLeaves usage.Entries).length ∧
    (usageLeaves usage.Entries).length =
      ((usage.Entries.map fun e => (e.Buckets.map fun b => b.Categories.length).sum).sum) := by
  rw [collecting_of_success w net r st ust bs ss usage hb hst hfull hu hust]
  refine ⟨rfl, rfl, rfl, rfl, float64_exact, ?_, ?_⟩
  · simp only [snapshotOf, List.length_append, List.length_map]
    omega
  · simp [usageLeaves, List.length_flatMap, Function.comp_def]

/-- Witness of the amended C6: two users with two buckets each and one category
per bucket give 16 usage samples, and the samples hold the values of the
leaves, which are small. -/
theorem usage_samples_per_leaf_witness :
    ((GetBucket gridWorld [] freshCollector.client "" "" true).1 =
      ⟨200, some [⟨"", some aliceStats⟩], none⟩ ∧
    ((200 : Int) ≤ 200) ∧
    [(⟨"", some aliceStats⟩ : BucketType)].map BucketType.Stats = [aliceStats].map some ∧
    (GetUsage gridWorld (GetBucket gridWorld [] freshCollector.client "" "" true).2
      freshCollector.client "" none none false false).1 = ⟨200, some gridUsage, none⟩) ∧
    ((collecting gridWorld [] freshCollector).r.bytesSent = (usageLeaves gridUsage.Entries).map
      (fun l => ⟨"radosgw", "bytes_sent_total", "currently total sent throughput",
        [("user", l.1), ("bucket", l.2.1), ("api", l.2.2.Category)],
        float64 l.2.2.BytesSent⟩) ∧
    (collecting gridWorld [] freshCollector).r.bytesRecv = (usageLeaves gridUsage.Entries).map
      (fun l => ⟨"radosgw", "bytes_recv_total", "currently total recv throughput",
        [("user", l.1), ("bucket", l.2.1), ("api", l.2.2.Category)],
        float64 l.2.2.BytesReceived⟩) ∧
    (collecting gridWorld [] freshCollector).r.ops = (usageLeaves gridUsage.Entries).map
      (fun l => ⟨"radosgw", "ops_total", "currently total ops",
        [("user", l.1), ("bucket", l.2.1), ("api", l.2.2.Category)], float64 l.2.2.Ops⟩) ∧
    (collecting gridWorld [] freshCollector).r.opsOK = (usageLeaves gridUsage.Entries).map
      (fun l => ⟨"radosgw", "ops_ok_total", "currently total ops ok",
        [("user", l.1), ("bucket", l.2.1), ("api", l.2.2.Category)],
        float64 l.2.2.SuccessfulOps⟩) ∧
    (∀ x : Int, x.natAbs ≤ 2 ^ 53 → float64 x = x) ∧
    ((collecting gridWorld [] freshCollector).r.bytesSent ++
      (collecting gridWorld [] freshCollector).r.bytesRecv ++
      (collecting gridWorld [] freshCollector).r.ops ++
      (collecting gridWorld [] freshCollector).r.opsOK).length =
      4 * (usageLeaves gridUsage.Entries).length ∧
    (usageLeaves gridUsage.Entries).length =
      ((gridUsage.Entries.map fun e => (e.Buckets.map fun b => b.Categories.length).sum).sum)) ∧
    4 * (usageLeaves gridUsage.Entries).length = 16 ∧
    (collecting gridWorld [] freshCollector).r.bytesSent.map Gauge.value = [500, 0, 40, 0] ∧
    (collecting gridWorld [] freshCollector).r.bytesRecv.map Gauge.value = [0, 900, 0, 0] ∧
    (collecting gridWorld [] freshCollector).r.ops.map Gauge.value = [3, 2, 4, 1] ∧
    (collecting gridWorld [] freshCollector).r.opsOK.map Gauge.value = [3, 1, 4, 0] :=
  ⟨⟨by decide, by decide, by decide, by decide⟩,
    usage_samples_per_leaf gridWorld [] freshCollector 200 200 [⟨"", some aliceStats⟩]
      [aliceStats] gridUsage (by decide) (by decide) (by decide) (by decide) (by decide),
    by decide, by decide, by decide, by decide, by decide⟩

/-- C7: after a successful poll cycle over S full stat objects and a usage tree
with L category leaves, `Collect` sends exactly the gauges of the six slices
(`allGauges`), which are the four usage samples of every leaf and the two stats
samples of every stat object, 2 * S + 4 * L gauges in all. -/
theorem collect_sends_all_samples (w : World) (net : Net) (r : RadosgwCollector)
    (st ust : Int) (bs : List BucketType) (ss : List BucketStatsType) (usage : UsageType)
    (hb : (GetBucket w net r.client "" "" true).1 = ⟨st, some bs, none⟩) (hst : st ≤ 200)
    (hfull : bs.map BucketType.Stats = ss.map some)
    (hu : (GetUsage w (GetBucket w net r.client "" "" true).2 r.client
      "" none none false false).1 = ⟨ust, some usage, none⟩) (hust : ust ≤ 200) :
    ∃ gs, (Collect w net r).sent = some gs ∧
      gs = allGauges (collecting w net r).r ∧
      gs = (usageLeaves usage.Entries).map (leafGauge bytesSentGauge) ++
        (usageLeaves usage.Entries).map (leafGauge bytesRecvGauge) ++
        (usageLeaves usage.Entries).map (leafGauge opsGauge) ++
        (usageLeaves usage.Entries).map (leafGauge opsOKGauge) ++
        ss.map numObjectsGauge ++ ss.map capacityGauge ∧
      gs.length = 2 * ss.length + 4 * (usageLeaves usage.Entries).length := by
  have hc := collecting_of_success w net r st ust bs ss usage hb hst hfull hu hust
  refine ⟨allGauges (collecting w net r).r, ?_, rfl, ?_, ?_⟩
  · simp only [Collect, hc]
    rfl
  · rw [hc]
    simp [allGauges, snapshotOf]
  · rw [hc]
    simp only [allGauges, snapshotOf, List.nil_append, List.length_append, List.length_map]
    omega

/-- Witness of C7: the end-to-end scenario, one stat object and one leaf, where
`Collect` sends the six samples 500, 0, 3, 3, 10 and 2048. -/
theorem collect_sends_all_samples_witness :
    ((GetBucket aliceWorld [] demoCollector.client "" "" true).1 =
      ⟨200, some [⟨"", some aliceStats⟩], none⟩ ∧
    ((200 : Int) ≤ 200) ∧
    [(⟨"", some aliceStats⟩ : BucketType)].map BucketType.Stats = [aliceStats].map some ∧
    (GetUsage aliceWorld (GetBucket aliceWorld [] demoCollector.client "" "" true).2
      demoCollector.client "" none none false false).1 = ⟨200, some aliceUsage, none⟩) ∧
    (∃ gs, (Collect aliceWorld [] demoCollector).sent = some gs ∧
      gs = allGauges (collecting aliceWorld [] demoCollector).r ∧
      gs = (usageLeaves aliceUsage.Entries).map (leafGauge bytesSentGauge) ++
        (usageLeaves aliceUsage.Entries).map (leafGauge bytesRecvGauge) ++
        (usageLeaves aliceUsage.Entries).map (leafGauge opsGauge) ++
        (usageLeaves aliceUsage.Entries).map (leafGauge opsOKGauge) ++
        [aliceStats].map numObjectsGauge ++ [aliceStats].map capacityGauge ∧
      gs.length = 2 * [aliceStats].length + 4 * (usageLeaves aliceUsage.Entries).length) ∧
    (Collect aliceWorld [] demoCollector).sent = some
      [⟨"radosgw", "bytes_sent_total", "currently total sent throughput",
          [("user", "alice"), ("bucket", "photos"), ("api", "get_obj")], 500⟩,
       ⟨"radosgw", "bytes_recv_total", "currently total recv throughput",
          [("user", "alice"), ("bucket", "photos"), ("api", "get_obj")], 0⟩,
       ⟨"radosgw", "ops_total", "currently total ops",
          [("user", "alice"), ("bucket", "photos"), ("api", "get_obj")], 3⟩,
       ⟨"radosgw", "ops_ok_total", "currently total ops ok",
          [("user", "alice"), ("bucket", "photos"), ("api", "get_obj")], 3⟩,
       ⟨"radosgw", "num_objects", "total object number",
          [("user", "alice"), ("bucket", "photos")], 10⟩,
       ⟨"radosgw", "capacity", "current disk space usage of all objects",
          [("user", "alice"), ("bucket", "photos")], 2048⟩] :=
  ⟨⟨by decide, by decide, by decide, by decide⟩,
    collect_sends_all_samples aliceWorld [] demoCollector 200 200 [⟨"", some aliceStats⟩]
      [aliceStats] aliceUsage (by decide) (by decide) (by decide) (by decide) (by decide),
    by decide⟩

/-- C8: two collectors with arbitrary earlier samples, each running a successful
poll cycle (in any world, after any earlier requests) that receives the same
bucket-stats list and the same usage tree, end with equal slices and so with
equal sample sets; and every sample of the new snapshot carries the labels of a
stat object or of a usage leaf of these responses, so a label combination absent
from the responses is absent from the snapshot. -/
theorem snapshot_depends_on_responses_only (w1 w2 : World) (net1 net2 : Net)
    (r1 r2 : RadosgwCollector) (st1 ust1 st2 ust2 : Int) (bs : List BucketType)
    (ss : List BucketStatsType) (usage : UsageType)
    (hb1 : (GetBucket w1 net1 r1.client "" "" true).1 = ⟨st1, some bs, none⟩) (hst1 : st1 ≤ 200)
    (hu1 : (GetUsage w1 (GetBucket w1 net1 r1.client "" "" true).2 r1.client
      "" none none false false).1 = ⟨ust1, some usage, none⟩) (hust1 : ust1 ≤ 200)
    (hb2 : (GetBucket w2 net2 r2.client "" "" true).1 = ⟨st2, some bs, none⟩) (hst2 : st2 ≤ 200)
    (hu2 : (GetUsage w2 (GetBucket w2 net2 r2.client "" "" true).2 r2.client
      "" none none false false).1 = ⟨ust2, some usage, none⟩) (hust2 : ust2 ≤ 200)
    (hfull : bs.map BucketType.Stats = ss.map some) :
    allGauges (collecting w1 net1 r1).r = allGauges (collecting w2 net2 r2).r ∧
    (collecting w1 net1 r1).r.numObjects = (collecting w2 net2 r2).r.numObjects ∧
    (collecting w1 net1 r1).r.capacity = (collecting w2 net2 r2).r.capacity ∧
    (collecting w1 net1 r1).r.bytesSent = (collecting w2 net2 r2).r.bytesSent ∧
    (collecting w1 net1 r1).r.bytesRecv = (collecting w2 net2 r2).r.bytesRecv ∧
    (collecting w1 net1 r1).r.ops = (collecting w2 net2 r2).r.ops ∧
    (collecting w1 net1 r1).r.opsOK = (collecting w2 net2 r2).r.opsOK ∧
    ∀ g ∈ allGauges (collecting w1 net1 r1).r,
      (∃ s ∈ ss, g.ConstLabels = [("user", s.Owner), ("bucket", s.Bucket)]) ∨
      (∃ l ∈ usageLeaves usage.Entries,
        g.ConstLabels = [("user", l.1), ("bucket", l.2.1), ("api", l.2.2.Category)]) := by
  rw [collecting_of_success w1 net1 r1 st1 ust1 bs ss usage hb1 hst1 hfull hu1 hust1,
    collecting_of_success w2 net2 r2 st2 ust2 bs ss usage hb2 hst2 hfull hu2 hust2]
  refine ⟨rfl, rfl, rfl, rfl, rfl, rfl, rfl, ?_⟩
  intro g hg
  simp only [allGauges, snapshotOf, List.nil_append, List.mem_append, List.mem_map] at hg
  rcases hg with ((((⟨l, hl, rfl⟩ | ⟨l, hl, rfl⟩) | ⟨l, hl, rfl⟩) | ⟨l, hl, rfl⟩) |
    ⟨s, hs, rfl⟩) | ⟨s, hs, rfl⟩
  · exact Or.inr ⟨l, hl, rfl⟩
  · exact Or.inr ⟨l, hl, rfl⟩
  · exact Or.inr ⟨l, hl, rfl⟩
  · exact Or.inr ⟨l, hl, rfl⟩
  · exact Or.inl ⟨s, hs, rfl⟩
  · exact Or.inl ⟨s, hs, rfl⟩

/-- Witness of C8: the end-to-end scenario run by a collector that holds earlier
samples and by a fresh collector; both end with the same six samples, and the
earlier label pair (old, logs) is gone. -/
theorem snapshot_depends_on_responses_only_witness :
    ((GetBucket aliceWorld [] demoCollector.client "" "" true).1 =
      ⟨200, some [⟨"", some aliceStats⟩], none⟩ ∧
    ((200 : Int) ≤ 200) ∧
    (GetUsage aliceWorld (GetBucket aliceWorld [] demoCollector.client "" "" true).2
      demoCollector.client "" none none false false).1 = ⟨200, some aliceUsage, none⟩ ∧
    (GetBucket aliceWorld [] freshCollector.client "" "" true).1 =
      ⟨200, some [⟨"", some aliceStats⟩], none⟩ ∧
    (GetUsage aliceWorld (GetBucket aliceWorld [] freshCollector.client "" "" true).2
      freshCollector.client "" none none false false).1 = ⟨200, some aliceUsage, none⟩ ∧
    [(⟨"", some aliceStats⟩ : BucketType)].map BucketType.Stats = [aliceStats].map some) ∧
    (allGauges (collecting aliceWorld [] demoCollector).r =
      allGauges (collecting aliceWorld [] freshCollector).r ∧
    (collecting aliceWorld [] demoCollector).r.numObjects =
      (collecting aliceWorld [] freshCollector).r.numObjects ∧
    (collecting aliceWorld [] demoCollector).r.capacity =
      (collecting aliceWorld [] freshCollector).r.capacity ∧
    (collecting aliceWorld [] demoCollector).r.bytesSent =
      (collecting aliceWorld [] freshCollector).r.bytesSent ∧
    (collecting aliceWorld [] demoCollector).r.bytesRecv =
      (collecting aliceWorld [] freshCollector).r.bytesRecv ∧
    (collecting aliceWorld [] demoCollector).r.ops =
      (collecting aliceWorld [] freshCollector).r.ops ∧
    (collecting aliceWorld [] demoCollector).r.opsOK =
      (collecting aliceWorld [] freshCollector).r.opsOK ∧
    ∀ g ∈ allGauges (collecting aliceWorld [] demoCollector).r,
      (∃ s ∈ [aliceStats], g.ConstLabels = [("user", s.Owner), ("bucket", s.Bucket)]) ∨
      (∃ l ∈ usageLeaves aliceUsage.Entries,
        g.ConstLabels = [("user", l.1), ("bucket", l.2.1), ("api", l.2.2.Category)])) ∧
    allGauges demoCollector ≠ allGauges freshCollector ∧
    ((allGauges (collecting aliceWorld [] demoCollector).r).all fun g =>
      g.ConstLabels.lookup "user" != some "old") = true :=
  ⟨⟨by decide, by decide, by decide, by decide, by decide, by decide⟩,
    snapshot_depends_on_responses_only aliceWorld aliceWorld [] [] demoCollector freshCollector
      200 200 200 200 [⟨"", some aliceStats⟩] [aliceStats] aliceUsage
      (by decide) (by decide) (by decide) (by decide) (by decide) (by decide) (by decide)
      (by decide) (by decide),
    by decide, by decide⟩

/-! ## The signing engine -/

theorem headersToSign_hostRequest (w : World) (date ak sk host : String)
    (hk : sortedHeaderKeys w (signHeaders Header.empty (hashSha256Hex w []) date host) =
      ["content-type", "host", "x-amz-content-sha256", "x-amz-date"]) :
    (signing w date (hostRequest host) ak sk).headersToSign =
      String.join
        ["content-type:" ++ signedValue (signHeaders Header.empty (hashSha256Hex w []) date host)
            "content-type" ++ "\n",
         "host:" ++ signedValue (signHeaders Header.empty (hashSha256Hex w []) date host)
            "host" ++ "\n",
         "x-amz-content-sha256:" ++
            signedValue (signHeaders Header.empty (hashSha256Hex w []) date host)
              "x-amz-content-sha256" ++ "\n",
         "x-amz-date:" ++ signedValue (signHeaders Header.empty (hashSha256Hex w []) date host)
            "x-amz-date" ++ "\n"] := by
  have h0 : (signing w date (hostRequest host) ak sk).headersToSign =
      headersToSign (signHeaders Header.empty (hashSha256Hex w []) date host)
        (sortedHeaderKeys w (signHeaders Header.empty (hashSha256Hex w []) date host)) := by rfl
  rw [h0, hk]
  rfl

theorem signHeaders_get_host (H date host : String) :
    (signHeaders Header.empty H date host).Get "host" = host := by rfl

theorem signHeaders_get_contentType (H date host : String) :
    (signHeaders Header.empty H date host).Get "content-type" =
      "application/x-www-form-urlencoded; charset=utf-8" := by rfl

theorem signHeaders_keys (w : World) (H date host : String) :
    sortedHeaderKeys w (signHeaders Header.empty H date host) =
      ["content-type", "host", "x-amz-content-sha256", "x-amz-date"] := by rfl

/-- C9, at the failing input: for the host `[::1]` (an IPv6 literal) signing
with Host `[::1]:80` signs the host value `[::1]:80`, the port is not stripped,
while signing with Host `[::1]` signs `[::1]`; the two canonical headers blocks
differ, whatever the hash functions, the timestamp and the credential.  For a
host without a colon, such as `rgw`, the port 80 is stripped. -/
theorem ipv6_host_keeps_port (w : World) (date ak sk : String) :
    signedValue (signing w date (hostRequest "[::1]:80") ak sk).header "host" = "[::1]:80" ∧
    signedValue (signing w date (hostRequest "[::1]") ak sk).header "host" = "[::1]" ∧
    (signing w date (hostRequest "[::1]:80") ak sk).headersToSign ≠
      (signing w date (hostRequest "[::1]") ak sk).headersToSign ∧
    signedValue (signing w date (hostRequest "rgw:80") ak sk).header "host" = "rgw" := by
  have hh : ∀ host, (signing w date (hostRequest host) ak sk).header =
      signHeaders Header.empty (hashSha256Hex w []) date host := fun _ => by rfl
  have a : ∀ host, signedValue (signHeaders Header.empty (hashSha256Hex w []) date host)
      "content-type" = "application/x-www-form-urlencoded; charset=utf-8" := by
    intro host
    unfold signedValue
    rw [signHeaders_get_contentType]
    decide
  have b1 : signedValue (signHeaders Header.empty (hashSha256Hex w []) date "[::1]:80")
      "host" = "[::1]:80" := by
    unfold signedValue
    rw [signHeaders_get_host]
    decide
  have b2 : signedValue (signHeaders Header.empty (hashSha256Hex w []) date "[::1]")
      "host" = "[::1]" := by
    unfold signedValue
    rw [signHeaders_get_host]
    decide
  have b3 : signedValue (signHeaders Header.empty (hashSha256Hex w []) date "rgw:80")
      "host" = "rgw" := by
    unfold signedValue
    rw [signHeaders_get_host]
    decide
  refine ⟨by rw [hh]; exact b1, by rw [hh]; exact b2, ?_, by rw [hh]; exact b3⟩
  rw [headersToSign_hostRequest w date ak sk "[::1]:80" (signHeaders_keys w _ _ _),
    headersToSign_hostRequest w date ak sk "[::1]" (signHeaders_keys w _ _ _), a, a, b1, b2]
  intro h
  have h1 := congrArg String.data h
  simp [String.join] at h1

/-- C10, at the failing input: a request that already carries the header
`X-Amz-Date: 20200101T000000Z` is signed when the clock reads 2026-11-04
10:15:00.  The header keeps the caller's value and that value is what the
canonical headers sign, while the string to sign, the credential scope and the
key derivation use the clock's `20261104T101500Z` and `20261104`. -/
theorem preset_date_header_not_used (w : World) (ak sk : String) :
    (Sign w demoNow datedRequest ak sk).Header.Get "X-Amz-Date" = "20200101T000000Z" ∧
    "x-amz-date" ∈ (signing w (signDateString demoNow) datedRequest ak sk).sortedHeaderKeys ∧
    signedValue (signing w (signDateString demoNow) datedRequest ak sk).header "x-amz-date" =
      "20200101T000000Z" ∧
    (signing w (signDateString demoNow) datedRequest ak sk).date = "20261104T101500Z" ∧
    (signing w (signDateString demoNow) datedRequest ak sk).credentialScope =
      "20261104/us-east-1/s3/aws4_request" ∧
    (signing w (signDateString demoNow) datedRequest ak sk).stringToSign =
      "AWS4-HMAC-SHA256\n20261104T101500Z\n20261104/us-east-1/s3/aws4_request\n" ++
        hashSha256Hex w (bytesOf
          (signing w (signDateString demoNow) datedRequest ak sk).canonicalRequest) ∧
    (signing w (signDateString demoNow) datedRequest ak sk).signature =
      hexEncode (hmacSha256 w (hmacSha256 w (hmacSha256 w (hmacSha256 w
        (hmacSha256 w (bytesOf ("AWS4" ++ sk)) "20261104") "us-east-1") "s3") "aws4_request")
        (signing w (signDateString demoNow) datedRequest ak sk).stringToSign) := by
  have hk : (signing w (signDateString demoNow) datedRequest ak sk).sortedHeaderKeys =
      ["content-type", "host", "x-amz-content-sha256", "x-amz-date"] := by rfl
  refine ⟨by rfl, ?_, by rfl, by rfl, by rfl, by rfl, by rfl⟩
  rw [hk]
  simp

/-! ## Determinism and the parts of the signature -/

/-- C11: signing is deterministic.  When the header map of a request (a Go map,
its keys pairwise distinct) is visited in another order, `Sign` at the same
clock reading sets the same Authorization value; and signing the signed
request again at the same clock reading sets the same Authorization value, in
fact returns the request unchanged: the headers `Sign` adds do not change the
signed input. -/
theorem sign_deterministic (w : World) (now : Time) (r : Request) (h2 : Header)
    (ak sk : String) (hperm : r.Header.entries.Perm h2.entries)
    (hmap : (r.Header.entries.map Prod.fst).Nodup) :
    (Sign w now { r with Header := h2 } ak sk).Header.Get "Authorization" =
      (Sign w now r ak sk).Header.Get "Authorization" ∧
    (Sign w now (Sign w now r ak sk) ak sk).Header.Get "Authorization" =
      (Sign w now r ak sk).Header.Get "Authorization" ∧
    Sign w now (Sign w now r ak sk) ak sk = Sign w now r ak sk := by
  refine ⟨?_, ?_, Sign_idempotent w now r ak sk⟩
  · rw [Sign_header, Sign_header, Get_Set_same, Get_Set_same]
    exact signing_perm w (signDateString now) r h2 ak sk hperm hmap
  · rw [Sign_idempotent]

/-- Witness of C11: a PUT request with three headers, signed with its header
map visited in two different orders. -/
theorem sign_deterministic_witness :
    (aclRequest.Header.entries.Perm aclHeaderReordered.entries ∧
    (aclRequest.Header.entries.map Prod.fst).Nodup) ∧
    ((Sign aliceWorld demoNow { aclRequest with Header := aclHeaderReordered }
        "AK" "SK").Header.Get "Authorization" =
      (Sign aliceWorld demoNow aclRequest "AK" "SK").Header.Get "Authorization" ∧
    (Sign aliceWorld demoNow (Sign aliceWorld demoNow aclRequest "AK" "SK")
        "AK" "SK").Header.Get "Authorization" =
      (Sign aliceWorld demoNow aclRequest "AK" "SK").Header.Get "Authorization" ∧
    Sign aliceWorld demoNow (Sign aliceWorld demoNow aclRequest "AK" "SK") "AK" "SK" =
      Sign aliceWorld demoNow aclRequest "AK" "SK") ∧
    (signing aliceWorld (signDateString demoNow) aclRequest "AK" "SK").sortedHeaderKeys =
      ["content-md5", "content-type", "host", "x-amz-acl", "x-amz-content-sha256",
        "x-amz-date"] :=
  ⟨⟨by decide, by decide⟩,
    sign_deterministic aliceWorld demoNow aclRequest aclHeaderReordered "AK" "SK"
      (by decide) (by decide),
    by decide⟩

/-- C15: for a request with body bytes b, `Sign` sets the header
X-Amz-Content-Sha256 to the hex SHA-256 of b and returns the request with the
body b readable again; for a request without a body the header is the hex
SHA-256 of the empty byte string and the body stays absent. -/
theorem payload_hash_and_body (w : World) (now : Time) (r : Request) (ak sk : String)
    (b : Bytes) :
    (Sign w now { r with Body := some b } ak sk).Header.Get "X-Amz-Content-Sha256" =
      hexEncode (w.sha256 b) ∧
    (Sign w now { r with Body := some b } ak sk).Body = some b ∧
    (Sign w now { r with Body := none } ak sk).Header.Get "X-Amz-Content-Sha256" =
      hexEncode (w.sha256 []) ∧
    (Sign w now { r with Body := none } ak sk).Body = none := by
  have k0 : CanonicalMIMEHeaderKey "Authorization" = "Authorization" := by decide
  have k1 : CanonicalMIMEHeaderKey "X-Amz-Content-Sha256" = "X-Amz-Content-Sha256" := by decide
  have hget : ∀ q : Request, (Sign w now q ak sk).Header.Get "X-Amz-Content-Sha256" =
      hashSha256Hex w (q.Body.getD []) := by
    intro q
    rw [Sign_header, Get_Set_ne _ _ _ _ (by rw [k0, k1]; decide), signing_header]
    unfold Header.Get
    rw [k1, (signHeaders_facts _ _ _ _).1, signing_hashedPayload]
  refine ⟨?_, ?_, ?_, ?_⟩
  · rw [hget]
    rfl
  · rw [Sign_body]
  · rw [hget]
    rfl
  · rw [Sign_body]

/-- C16: the Authorization header `Sign` sets, for the timestamp t it reads
from the clock, is the algorithm, the credential accessKey/scope, the signed
header list and the signature, where scope is the first 8 characters of t
followed by /us-east-1/s3/aws4_request, the string to sign is the algorithm, t,
the scope and the hex SHA-256 of the canonical request on four lines, and the
signature is the hex of the HMAC of the string to sign under the key derived
from "AWS4" + secret by the chain date stamp, region, service, terminator. -/
theorem authorization_header_value (w : World) (now : Time) (r : Request) (ak sk : String) :
    ∃ t scope list stringToSign sig : String,
      t = signDateString now ∧ t.data.length = 16 ∧
      scope = String.mk (t.data.take 8) ++ "/us-east-1/s3/aws4_request" ∧
      list = Join (signing w t r ak sk).sortedHeaderKeys ";" ∧
      stringToSign = "AWS4-HMAC-SHA256\n" ++ t ++ "\n" ++ scope ++ "\n" ++
        hexEncode (w.sha256 (bytesOf (signing w t r ak sk).canonicalRequest)) ∧
      sig = hexEncode (w.hmac (w.hmac (w.hmac (w.hmac
        (w.hmac (bytesOf ("AWS4" ++ sk)) (bytesOf (String.mk (t.data.take 8))))
        (bytesOf "us-east-1")) (bytesOf "s3")) (bytesOf "aws4_request"))
        (bytesOf stringToSign)) ∧
      (Sign w now r ak sk).Header.Get "Authorization" =
        "AWS4-HMAC-SHA256 Credential=" ++ ak ++ "/" ++ scope ++ ", SignedHeaders=" ++ list ++
          ", Signature=" ++ sig := by
  have hscope : (signing w (signDateString now) r ak sk).credentialScope =
      String.mk ((signDateString now).data.take 8) ++ "/us-east-1/s3/aws4_request" := by
    rw [signing_credentialScope]
    simp only [dateStamp, signRegion, signService, signRequest, String.append_assoc]
    rfl
  have hsts : (signing w (signDateString now) r ak sk).stringToSign =
      "AWS4-HMAC-SHA256\n" ++ signDateString now ++ "\n" ++
        (String.mk ((signDateString now).data.take 8) ++ "/us-east-1/s3/aws4_request") ++ "\n" ++
        hexEncode (w.sha256 (bytesOf (signing w (signDateString now) r ak sk).canonicalRequest)) := by
    rw [signing_stringToSign, hscope]
    simp only [signAlgorithm, hashSha256Hex, String.append_assoc]
    rfl
  refine ⟨signDateString now, _, _, _, _, rfl, ?_, rfl, rfl, rfl, rfl, ?_⟩
  · simp [signDateString, formatSignDate, pad4, pad2]
  · rw [Sign_header, Get_Set_same, signing_authorizationString, signing_signature,
      signing_signedHeaders, hsts, hscope]
    simp only [signAlgorithm, signRegion, signService, signRequest, hmacSha256, dateStamp,
      String.append_assoc]
    rfl

/-! ## The canonical URI and the canonical query string -/

set_option maxRecDepth 100000 in
theorem uri_byte_cases : ∀ n, n < 256 →
    ((isUnreserved (UInt8.ofNat n) || ((UInt8.ofNat n).toNat == 47 && !false)) =
      (isUnreservedChar (Char.ofNat (UInt8.ofNat n).toNat) ||
        decide (Char.ofNat (UInt8.ofNat n).toNat = '/'))) ∧
    (isUnreserved (UInt8.ofNat n) = isUnreservedChar (Char.ofNat (UInt8.ofNat n).toNat)) ∧
    pctEncode (UInt8.ofNat n) = pctTriplet (UInt8.ofNat n) ∧
    isUriText 0 (pctTriplet (UInt8.ofNat n)) = true ∧
    ((isUnreservedChar (Char.ofNat (UInt8.ofNat n).toNat) ||
        decide (Char.ofNat (UInt8.ofNat n).toNat = '/')) = true →
      Char.ofNat (UInt8.ofNat n).toNat ≠ '%') ∧
    '+' ∉ pctTriplet (UInt8.ofNat n) ∧
    (isUnreservedChar (Char.ofNat (UInt8.ofNat n).toNat) = true →
      Char.ofNat (UInt8.ofNat n).toNat ≠ '+') := by
  decide

theorem uint8_eq_ofNat (b : UInt8) : b = UInt8.ofNat b.toNat := by
  cases b with
  | mk bv =>
    simp only [UInt8.ofNat, UInt8.toNat]
    congr 1
    apply BitVec.eq_of_toNat_eq
    simp [BitVec.toNat_ofNat, Nat.mod_eq_of_lt bv.isLt]

theorem uint8_toNat_lt (b : UInt8) : b.toNat < 256 := by
  cases b with
  | mk bv => exact bv.isLt

theorem uri_byte (b : UInt8) :
    ((isUnreserved b || (b.toNat == 47 && !false)) =
      (isUnreservedChar (Char.ofNat b.toNat) || decide (Char.ofNat b.toNat = '/'))) ∧
    (isUnreserved b = isUnreservedChar (Char.ofNat b.toNat)) ∧
    pctEncode b = pctTriplet b ∧
    isUriText 0 (pctTriplet b) = true ∧
    ((isUnreservedChar (Char.ofNat b.toNat) || decide (Char.ofNat b.toNat = '/')) = true →
      Char.ofNat b.toNat ≠ '%') ∧
    '+' ∉ pctTriplet b ∧
    (isUnreservedChar (Char.ofNat b.toNat) = true → Char.ofNat b.toNat ≠ '+') := by
  have h := uri_byte_cases b.toNat (uint8_toNat_lt b)
  rw [← uint8_eq_ofNat b] at h
  exact h

theorem uriEncode_eq_spec (s : String) : uriEncode s false = specUriEncode s := by
  unfold uriEncode specUriEncode
  congr 1
  apply List.flatMap_congr
  intro b _
  rw [(uri_byte b).1, (uri_byte b).2.2.1]

theorem isUriText_triplet (b : UInt8) (rest : List Char) :
    isUriText 0 (pctTriplet b ++ rest) = isUriText 0 rest := by
  have h := (uri_byte b).2.2.2.1
  simp only [pctTriplet, List.cons_append, List.nil_append, isUriText, if_true,
    Bool.and_eq_true, Bool.and_true] at h ⊢
  simp [h.1, h.2]

theorem isUriText_specUriEncode (bs : Bytes) :
    isUriText 0 (bs.flatMap fun b =>
      if isUnreservedChar (Char.ofNat b.toNat) || Char.ofNat b.toNat = '/' then
        [Char.ofNat b.toNat]
      else pctTriplet b) = true := by
  induction bs with
  | nil => rfl
  | cons b bs ih =>
    rw [List.flatMap_cons]
    by_cases hk : (isUnreservedChar (Char.ofNat b.toNat) ||
        decide (Char.ofNat b.toNat = '/')) = true
    · have hne := (uri_byte b).2.2.2.2.1 hk
      simp only [hk, if_true, List.cons_append, List.nil_append, isUriText, hne, if_false,
        Bool.true_and]
      exact ih
    · simp only [hk, if_false, Bool.false_eq_true]
      rw [isUriText_triplet]
      exact ih

/-- C12: the canonical URI of a request path p is "/" followed by the encoding
of p without one leading slash (an empty p gives "/"), the encoding of
`uriEncode(s, false)` copies letters, digits, `-`, `_`, `.`, `~` and `/` and
replaces every other byte by `%` and its two upper-case hexadecimal digits, and
the canonical URI consists only of unreserved characters, slashes and
well-formed triplets. -/
theorem canonical_uri_spec (p : String) :
    canonicalRequestUri p = "/" ++ specUriEncode (stripLeadingSlash p) ∧
    canonicalRequestUri "" = "/" ∧
    (∀ s, uriEncode s false = specUriEncode s) ∧
    isUriText 0 (canonicalRequestUri p).data = true := by
  have h1 : canonicalRequestUri p = "/" ++ specUriEncode (stripLeadingSlash p) := by
    unfold canonicalRequestUri stripLeadingSlash
    simp only [uriEncode_eq_spec]
    cases hd : p.data with
    | nil =>
      have hp : p = "" := String.ext hd
      subst hp
      rfl
    | cons c rest =>
      have hlen : ¬ ((c :: rest).length = 0) := by simp
      simp only [hlen, if_false]
      by_cases hc : c = '/'
      · subst hc
        have hpre : HasPrefix p "/" = true := by
          unfold HasPrefix
          rw [hd]
          show ((['/'] : List Char).isPrefixOf ('/' :: rest)) = true
          simp [List.isPrefixOf]
        simp only [hpre, if_true, hd, List.drop_succ_cons, List.drop_zero]
      · have hpre : HasPrefix p "/" = false := by
          unfold HasPrefix
          rw [hd]
          show ((['/'] : List Char).isPrefixOf (c :: rest)) = false
          simp only [List.isPrefixOf, Bool.and_true, beq_eq_false_iff_ne, ne_eq]
          exact fun h => hc h.symm
        simp only [hpre, hc, if_false, Bool.false_eq_true]
  refine ⟨h1, by decide, uriEncode_eq_spec, ?_⟩
  rw [h1]
  show isUriText 0 ('/' :: (specUriEncode (stripLeadingSlash p)).data) = true
  have hstep : ∀ rest, isUriText 0 ('/' :: rest) = isUriText 0 rest := by
    intro rest
    have hs : ¬ ('/' = '%') := by decide
    have hu : isUnreservedChar '/' = false := by decide
    simp [isUriText, hs, hu]
  rw [hstep]
  exact isUriText_specUriEncode _

theorem replacePlus_append (a b : String) :
    replacePlus (a ++ b) = replacePlus a ++ replacePlus b := by
  apply String.ext
  simp [replacePlus, String.data_append, List.flatMap_append]

theorem replacePlus_go (acc sep : String) (l : List String) :
    replacePlus (String.intercalate.go acc sep l) =
      String.intercalate.go (replacePlus acc) (replacePlus sep) (l.map replacePlus) := by
  induction l generalizing acc with
  | nil => rfl
  | cons a as ih =>
    simp only [String.intercalate.go, List.map_cons]
    rw [ih, replacePlus_append, replacePlus_append]

theorem replacePlus_Join (l : List String) :
    replacePlus (Join l "&") = Join (l.map replacePlus) "&" := by
  have hsep : replacePlus "&" = "&" := by decide
  unfold Join
  cases l with
  | nil => rfl
  | cons a as =>
    simp only [String.intercalate, List.map_cons]
    rw [replacePlus_go, hsep]

theorem replacePlus_QueryEscape (s : String) :
    replacePlus (QueryEscape s) = specQueryEscape s := by
  unfold replacePlus QueryEscape specQueryEscape
  simp only [List.flatMap_assoc]
  congr 1
  apply List.flatMap_congr
  intro b _
  obtain ⟨_, h2, h3, _, _, h6, h7⟩ := uri_byte b
  rw [h2, h3]
  by_cases hu : isUnreservedChar (Char.ofNat b.toNat) = true
  · have hne := h7 hu
    simp [hu, hne]
  · simp only [hu, if_false, Bool.false_eq_true]
    by_cases hsp : (b.toNat == 32) = true
    · have hb : b.toNat = 32 := by simpa using hsp
      simp only [hsp, if_true]
      have ht : pctTriplet b = ['%', '2', '0'] := by
        simp only [pctTriplet, hb]
        decide
      rw [ht]
      decide
    · simp only [hsp, if_false, Bool.false_eq_true]
      have hall : ∀ c ∈ pctTriplet b, (if c = '+' then ['%', '2', '0'] else [c]) = [c] := by
        intro c hc
        have : c ≠ '+' := fun h => h6 (h ▸ hc)
        simp [this]
      rw [List.flatMap_congr hall]
      simp

theorem replacePlus_no_plus (s : String) : '+' ∉ (replacePlus s).data := by
  unfold replacePlus
  simp only [List.mem_flatMap, not_exists, not_and]
  intro c _ hmem
  by_cases hc : c = '+'
  · simp only [hc, if_true] at hmem
    exact absurd hmem (by decide)
  · simp only [hc, if_false, List.mem_singleton] at hmem
    exact hc hmem.symm

/-- C13: the canonical query string of a request is the URL-encoding of its
query parameters, the pairs key=value sorted by key and joined by `&`, in which
unreserved bytes are copied and every other byte is a triplet, so that a space
is `%20` and a literal `+` is `%2B`; it contains no `+`, and a request without
query parameters has the empty canonical query string. -/
theorem canonical_query_spec (u : URL) :
    canonicalQueryString u = specCanonicalQuery u.Query ∧
    (u.Query.entries.insertionSort (fun x y => strLe x.1 y.1 = true)).Sorted
      (fun x y => strLe x.1 y.1 = true) ∧
    (u.Query.entries.insertionSort (fun x y => strLe x.1 y.1 = true)).Perm u.Query.entries ∧
    '+' ∉ (canonicalQueryString u).data ∧
    specQueryEscape " " = "%20" ∧ specQueryEscape "+" = "%2B" ∧
    canonicalQueryString ⟨u.Host, u.Path, Values.empty⟩ = "" := by
  refine ⟨?_, ?_, List.perm_insertionSort _ _, replacePlus_no_plus _, by decide, by decide,
    by rfl⟩
  · unfold canonicalQueryString specCanonicalQuery Values.Encode
    simp only []
    rw [replacePlus_Join]
    congr 1
    rw [List.map_flatMap]
    apply List.flatMap_congr
    intro e _
    rw [List.map_map]
    apply List.map_congr_left
    intro v _
    have heq : replacePlus "=" = "=" := by decide
    simp only [Function.comp, replacePlus_append, replacePlus_QueryEscape, heq]
  · haveI : IsTotal (String × List String) (fun x y => strLe x.1 y.1 = true) :=
      ⟨fun x y => strLe_total x.1 y.1⟩
    haveI : IsTrans (String × List String) (fun x y => strLe x.1 y.1 = true) :=
      ⟨fun x y z => strLe_trans x.1 y.1 z.1⟩
    exact List.sorted_insertionSort _ _

/-! ## The transport and the client -/

theorem string_length_zero (s : String) : s.data.length = 0 ↔ s = "" := by
  constructor
  · intro h
    exact String.ext (List.length_eq_zero.mp h)
  · intro h
    subst h
    rfl

/-- C19: when the URL parses, `sendRequest` hands the signed request to the HTTP
client and returns what comes back without looking at the status: for a
response it returns the response's status code, its body bytes and the error of
reading the body (nil when the body was read), whatever the status; when the
client returns an error it returns that error, a nil body and the status 500. -/
theorem sendRequest_returns_response_verbatim (w : World) (net : Net) (c : Client)
    (method uri : String) (args : Values) (headers : List (String × String))
    (body : Option Bytes) (u : URL) (hurl : w.urlParse (requestUrl c uri args) = .ok u) :
    (∀ resp, w.Do net.length (Sign w (w.now net.length)
          ⟨method, u, u.Host, addHeaders headers, body⟩ c.accessKeyId c.secretAccessKey) =
        .ok resp →
      (sendRequest w net c method uri args headers body).1 =
        ⟨some resp.Body, resp.StatusCode, resp.readErr⟩) ∧
    (∀ e, w.Do net.length (Sign w (w.now net.length)
          ⟨method, u, u.Host, addHeaders headers, body⟩ c.accessKeyId c.secretAccessKey) =
        .error e →
      (sendRequest w net c method uri args headers body).1 = ⟨none, 500, some e⟩) := by
  constructor
  · intro resp hdo
    simp only [sendRequest, hurl, hdo]
  · intro e hdo
    simp only [sendRequest, hurl, hdo]

/-- Witness of C19: a first exchange answered with status 404, whose status and
body come back unchanged with a nil error, and a second exchange without a
response, which gives status 500, a nil body and the client's error. -/
theorem sendRequest_returns_response_verbatim_witness :
    notFoundWorld.urlParse (requestUrl demoClient "/bucket" (bucketArgs "" "" true)) =
      .ok ⟨"rgw:8080", "/admin/bucket", ⟨[("format", ["json"]), ("stats", ["true"])]⟩⟩ ∧
    ((∀ resp, notFoundWorld.Do ([] : Net).length (Sign notFoundWorld
          (notFoundWorld.now ([] : Net).length)
          ⟨"GET", ⟨"rgw:8080", "/admin/bucket", ⟨[("format", ["json"]), ("stats", ["true"])]⟩⟩,
            "rgw:8080", addHeaders [], none⟩ demoClient.accessKeyId demoClient.secretAccessKey) =
        .ok resp →
      (sendRequest notFoundWorld [] demoClient "GET" "/bucket" (bucketArgs "" "" true) []
        none).1 = ⟨some resp.Body, resp.StatusCode, resp.readErr⟩) ∧
    (∀ e, notFoundWorld.Do ([] : Net).length (Sign notFoundWorld
          (notFoundWorld.now ([] : Net).length)
          ⟨"GET", ⟨"rgw:8080", "/admin/bucket", ⟨[("format", ["json"]), ("stats", ["true"])]⟩⟩,
            "rgw:8080", addHeaders [], none⟩ demoClient.accessKeyId demoClient.secretAccessKey) =
        .error e →
      (sendRequest notFoundWorld [] demoClient "GET" "/bucket" (bucketArgs "" "" true) []
        none).1 = ⟨none, 500, some e⟩)) ∧
    (sendRequest notFoundWorld [] demoClient "GET" "/bucket" (bucketArgs "" "" true) []
      none).1 = ⟨some (bytesOf "NoSuchBucket"), 404, none⟩ ∧
    (sendRequest notFoundWorld
      (sendRequest notFoundWorld [] demoClient "GET" "/bucket" (bucketArgs "" "" true) []
        none).2 demoClient "GET" "/bucket" (bucketArgs "" "" true) [] none).1 =
      ⟨none, 500, some (.lib "connection refused")⟩ :=
  ⟨by rfl,
    sendRequest_returns_response_verbatim notFoundWorld [] demoClient "GET" "/bucket"
      (bucketArgs "" "" true) [] none _ (by rfl),
    by decide, by decide⟩

/-- C20, at the failing input: the endpoint "/" is not empty, so `NewClient`
accepts it, removes the trailing slash and stores the empty endpoint; the
collector is constructed with it.  The rest of the claim holds: an error and no
client exactly when the endpoint, the access key or the secret key is empty, and
otherwise the given keys, the prefix /admin and the endpoint without one
trailing slash. -/
theorem slash_endpoint_stored_empty :
    NewClient "/" "AK" "SK" = .ok ⟨"AK", "SK", "", "/admin"⟩ ∧
    NewRadosgwCollector "/" "AK" "SK" = .ok ⟨⟨"AK", "SK", "", "/admin"⟩, [], [], [], [], [], []⟩ ∧
    (∀ endpoint ak sk : String,
      (∃ err, NewClient endpoint ak sk = .error err) ↔ (endpoint = "" ∨ ak = "" ∨ sk = "")) ∧
    (∀ endpoint ak sk : String, ¬ (endpoint = "" ∨ ak = "" ∨ sk = "") →
      NewClient endpoint ak sk = .ok ⟨ak, sk,
        if HasSuffix endpoint "/" then String.mk (endpoint.data.take (endpoint.data.length - 1))
        else endpoint, "/admin"⟩) := by
  refine ⟨by rfl, by rfl, ?_, ?_⟩
  · intro endpoint ak sk
    unfold NewClient
    simp only [Bool.or_eq_true, decide_eq_true_eq, string_length_zero]
    constructor
    · rintro ⟨err, h⟩
      by_contra hne
      have hne' : ¬ ((endpoint = "" ∨ ak = "") ∨ sk = "") := by
        intro h1
        apply hne
        rcases h1 with (h1 | h1) | h1
        · exact Or.inl h1
        · exact Or.inr (Or.inl h1)
        · exact Or.inr (Or.inr h1)
      rw [if_neg hne'] at h
      cases h
    · intro h
      have h' : (endpoint = "" ∨ ak = "") ∨ sk = "" := by
        rcases h with h | h | h
        · exact Or.inl (Or.inl h)
        · exact Or.inl (Or.inr h)
        · exact Or.inr h
      rw [if_pos h']
      exact ⟨_, rfl⟩
  · intro endpoint ak sk hne
    unfold NewClient
    simp only [Bool.or_eq_true, decide_eq_true_eq, string_length_zero]
    have hne' : ¬ ((endpoint = "" ∨ ak = "") ∨ sk = "") := by
      intro h1
      apply hne
      rcases h1 with (h1 | h1) | h1
      · exact Or.inl h1
      · exact Or.inr (Or.inl h1)
      · exact Or.inr (Or.inr h1)
    rw [if_neg hne']
    rfl

/-! ## The shapes of the bucket-stats document -/

theorem decodeElems_ok (w : World) (elems : List Json) (entries acc : List BucketType)
    (hshape : List.Forall₂ (fun v e =>
      (∃ name, v = Json.str name ∧ e = (⟨name, none⟩ : BucketType)) ∨
      (∃ fields s, v = Json.obj fields ∧ w.unmarshalStats (w.marshal v) = .ok s ∧
        e = (⟨"", some s⟩ : BucketType))) elems entries) :
    decodeElems w elems acc = .ok (acc ++ entries) := by
  induction hshape generalizing acc with
  | nil => simp [decodeElems]
  | cons hve _ ih =>
    rcases hve with ⟨name, rfl, rfl⟩ | ⟨fields, s, rfl, hdec, rfl⟩
    · simp only [decodeElems]
      rw [ih]
      simp
    · simp only [decodeElems, hdec]
      rw [ih]
      simp

/-- C18: for a bucket response with a status below 400 whose body is a JSON
array of strings and stat objects, `GetBucket` returns one entry per element in
the order of the array, a string giving an entry with that Name and no Stats,
an object giving an entry with an empty Name and the Stats decoded from it; for
a body that is a single stat object it returns exactly one entry with those
Stats. -/
theorem GetBucket_entries (w : World) (net : Net) (c : Client) (bucket uid : String)
    (stats : Bool) (body : Bytes) (st : Int)
    (hsend : (sendRequest w net c "GET" "/bucket" (bucketArgs bucket uid stats) [] none).1 =
      ⟨some body, st, none⟩) (hst : st < 400) :
    (∀ elems entries, w.unmarshalAny body = .ok (.arr elems) →
      List.Forall₂ (fun v e =>
        (∃ name, v = Json.str name ∧ e = (⟨name, none⟩ : BucketType)) ∨
        (∃ fields s, v = Json.obj fields ∧ w.unmarshalStats (w.marshal v) = .ok s ∧
          e = (⟨"", some s⟩ : BucketType))) elems entries →
      (GetBucket w net c bucket uid stats).1 = ⟨st, some entries, none⟩ ∧
        entries.length = elems.length) ∧
    (∀ fields s, w.unmarshalAny body = .ok (.obj fields) → w.unmarshalStats body = .ok s →
      (GetBucket w net c bucket uid stats).1 = ⟨st, some [⟨"", some s⟩], none⟩) := by
  have hnot : ¬ (st ≥ 400) := not_le.mpr hst
  rcases hsr : sendRequest w net c "GET" "/bucket" (bucketArgs bucket uid stats) [] none with
    ⟨res, net1⟩
  rw [hsr] at hsend
  simp only at hsend
  subst hsend
  constructor
  · intro elems entries hany hshape
    have hdec := decodeElems_ok w elems entries [] hshape
    rw [List.nil_append] at hdec
    refine ⟨?_, hshape.length_eq.symm⟩
    simp only [GetBucket, hsr, hnot, if_false, bodyOf, Option.getD_some, parseBuckets, hany, hdec]
  · intro fields s hany hdec
    simp only [GetBucket, hsr, hnot, if_false, bodyOf, Option.getD_some, parseBuckets, hany, hdec]

/-- Witness of C18: the array of a bare name and a stat object gives the two
entries in order, and a single stat object gives one entry. -/
theorem GetBucket_entries_witness :
    ((sendRequest bareWorld [] demoClient "GET" "/bucket" (bucketArgs "" "" true) [] none).1 =
      ⟨some (jsonBytes bareDoc), 200, none⟩ ∧ ((200 : Int) < 400)) ∧
    ((∀ elems entries, bareWorld.unmarshalAny (jsonBytes bareDoc) = .ok (.arr elems) →
      List.Forall₂ (fun v e =>
        (∃ name, v = Json.str name ∧ e = (⟨name, none⟩ : BucketType)) ∨
        (∃ fields s, v = Json.obj fields ∧ bareWorld.unmarshalStats (bareWorld.marshal v) = .ok s ∧
          e = (⟨"", some s⟩ : BucketType))) elems entries →
      (GetBucket bareWorld [] demoClient "" "" true).1 = ⟨200, some entries, none⟩ ∧
        entries.length = elems.length) ∧
    (∀ fields s, bareWorld.unmarshalAny (jsonBytes bareDoc) = .ok (.obj fields) →
      bareWorld.unmarshalStats (jsonBytes bareDoc) = .ok s →
      (GetBucket bareWorld [] demoClient "" "" true).1 = ⟨200, some [⟨"", some s⟩], none⟩)) ∧
    (GetBucket bareWorld [] demoClient "" "" true).1 =
      ⟨200, some [⟨"barebucket", none⟩, ⟨"", some u1Stats⟩], none⟩ ∧
    (GetBucket singleWorld [] demoClient "" "" true).1 =
      ⟨200, some [⟨"", some aliceStats⟩], none⟩ :=
  ⟨⟨by decide, by decide⟩,
    GetBucket_entries bareWorld [] demoClient "" "" true (jsonBytes bareDoc) 200
      (by decide) (by decide),
    by decide, by decide⟩

/-- C17, at the failing inputs: for the bodies `null` and `[null]`, answered
with status 200, `GetBucket` returns no error but a list of one entry whose
Stats is the zero value; the poll cycle goes on and replaces the published
stats samples by one object-count and one capacity sample with empty user and
bucket labels and value 0.  For a bare number or a bare string `GetBucket`
returns an error and no list, and the cycle leaves the collector as it was. -/
theorem null_body_is_accepted :
    (GetBucket (shapeWorld .null) [] demoClient "" "" true).1 =
      ⟨200, some [⟨"", some zeroStats⟩], none⟩ ∧
    (GetBucket (shapeWorld (.arr [.null])) [] demoClient "" "" true).1 =
      ⟨200, some [⟨"", some zeroStats⟩], none⟩ ∧
    (collecting (shapeWorld .null) [] demoCollector).panicked = false ∧
    allGauges (collecting (shapeWorld .null) [] demoCollector).r =
      [⟨"radosgw", "num_objects", "total object number", [("user", ""), ("bucket", "")], 0⟩,
       ⟨"radosgw", "capacity", "current disk space usage of all objects",
          [("user", ""), ("bucket", "")], 0⟩] ∧
    allGauges (collecting (shapeWorld (.arr [.null])) [] demoCollector).r =
      [⟨"radosgw", "num_objects", "total object number", [("user", ""), ("bucket", "")], 0⟩,
       ⟨"radosgw", "capacity", "current disk space usage of all objects",
          [("user", ""), ("bucket", "")], 0⟩] ∧
    allGauges demoCollector ≠
      allGauges (collecting (shapeWorld .null) [] demoCollector).r ∧
    (GetBucket (shapeWorld (.number "5")) [] demoClient "" "" true).1.err ≠ none ∧
    (GetBucket (shapeWorld (.number "5")) [] demoClient "" "" true).1.buckets = none ∧
    (GetBucket (shapeWorld (.str "abc")) [] demoClient "" "" true).1.err ≠ none ∧
    (collecting (shapeWorld (.number "5")) [] demoCollector).r = demoCollector ∧
    (collecting (shapeWorld (.str "abc")) [] demoCollector).r = demoCollector := by
  decide

/-! ## The signed headers -/

theorem valid_char_lt (c : Char) (hv : validHeaderFieldByte c = true) : c.toNat < 128 := by
  unfold validHeaderFieldByte at hv
  simp only [Bool.or_eq_true, Char.isAlphanum, Char.isAlpha, Char.isUpper, Char.isLower,
    Char.isDigit, Bool.and_eq_true, decide_eq_true_eq, List.contains_eq_any_beq, List.any_cons,
    List.any_nil, Bool.or_false, beq_iff_eq, ge_iff_le, UInt32.le_def, BitVec.le_def] at hv
  have hn : c.toNat = c.val.toBitVec.toNat := rfl
  rw [hn]
  rcases hv with ((⟨_, h⟩ | ⟨_, h⟩) | ⟨_, h⟩) | h
  · exact lt_of_le_of_lt h (by decide)
  · exact lt_of_le_of_lt h (by decide)
  · exact lt_of_le_of_lt h (by decide)
  · rw [← hn]
    omega

set_option maxRecDepth 100000 in
theorem valid_char_cases : ∀ n, n < 128 → validHeaderFieldByte (Char.ofNat n) = true →
    validHeaderFieldByte (Char.ofNat n).toLower = true ∧
    (Char.ofNat n).toLower.toUpper = (Char.ofNat n).toUpper ∧
    (Char.ofNat n).toLower.toLower = (Char.ofNat n).toLower := by
  decide

theorem valid_char (c : Char) (hv : validHeaderFieldByte c = true) :
    validHeaderFieldByte c.toLower = true ∧ c.toLower.toUpper = c.toUpper ∧
    c.toLower.toLower = c.toLower := by
  have h := valid_char_cases c.toNat (valid_char_lt c hv)
  rw [Char.ofNat_toNat] at h
  exact h hv

theorem canonCase_lower (upper : Bool) (l : List Char)
    (hv : l.all validHeaderFieldByte = true) :
    canonCase upper (l.map Char.toLower) = canonCase upper l := by
  induction l generalizing upper with
  | nil => rfl
  | cons c cs ih =>
    simp only [List.all_cons, Bool.and_eq_true] at hv
    obtain ⟨_, h2, h3⟩ := valid_char c hv.1
    simp only [List.map_cons, canonCase]
    cases upper
    · simp only [Bool.false_eq_true, if_false, h3]
      rw [ih _ hv.2]
    · simp only [if_true, h2]
      rw [ih _ hv.2]

theorem all_valid_lower (l : List Char) (hv : l.all validHeaderFieldByte = true) :
    (l.map Char.toLower).all validHeaderFieldByte = true := by
  induction l with
  | nil => rfl
  | cons c cs ih =>
    simp only [List.all_cons, Bool.and_eq_true] at hv
    simp only [List.map_cons, List.all_cons, Bool.and_eq_true]
    exact ⟨(valid_char c hv.1).1, ih hv.2⟩

theorem toLower_valid (t : Char → Char) (l : List Char)
    (hv : l.all validHeaderFieldByte = true) : l.map (toLowerRune t) = l.map Char.toLower := by
  induction l with
  | nil => rfl
  | cons c cs ih =>
    simp only [List.all_cons, Bool.and_eq_true] at hv
    have hc : toLowerRune t c = c.toLower := by
      have hlt := valid_char_lt c hv.1
      unfold toLowerRune
      rw [if_pos (by omega)]
    simp only [List.map_cons, hc, ih hv.2]

/-- The lower case of a name made of token characters does not depend on the
case tables. -/
theorem ToLower_canonical (t : Char → Char) (k : String) (hk : isCanonicalName k = true) :
    ToLower t k = ⟨k.data.map Char.toLower⟩ := by
  unfold isCanonicalName at hk
  simp only [Bool.and_eq_true, decide_eq_true_eq] at hk
  unfold ToLower
  rw [toLower_valid t k.data hk.1]

/-- Looking a canonical name up by its lower-cased form finds the name itself. -/
theorem canon_lower (t : Char → Char) (k : String) (hk : isCanonicalName k = true) :
    CanonicalMIMEHeaderKey (ToLower t k) = k := by
  rw [ToLower_canonical t k hk]
  unfold isCanonicalName at hk
  simp only [Bool.and_eq_true, decide_eq_true_eq] at hk
  obtain ⟨hv, hc⟩ := hk
  have h1 : CanonicalMIMEHeaderKey ⟨k.data.map Char.toLower⟩ =
      ⟨canonCase true (k.data.map Char.toLower)⟩ := by
    unfold CanonicalMIMEHeaderKey
    simp only [all_valid_lower k.data hv, if_true]
  have h2 : CanonicalMIMEHeaderKey k = ⟨canonCase true k.data⟩ := by
    unfold CanonicalMIMEHeaderKey
    simp only [hv, if_true]
  rw [h1, canonCase_lower true k.data hv, ← h2, hc]

theorem toLower_injOn_canonical (t : Char → Char) (a b : String)
    (ha : isCanonicalName a = true) (hb : isCanonicalName b = true)
    (h : ToLower t a = ToLower t b) : a = b := by
  rw [← canon_lower t a ha, ← canon_lower t b hb, h]

theorem keys_Set_subset (h : Header) (key value k : String)
    (hk : k ∈ (h.Set key value).entries.map Prod.fst) :
    k ∈ h.entries.map Prod.fst ∨ k = CanonicalMIMEHeaderKey key := by
  unfold Header.Set at hk
  simp only [keys_setEntry] at hk
  split at hk
  · exact Or.inl hk
  · rcases List.mem_append.mp hk with h1 | h1
    · exact Or.inl h1
    · exact Or.inr (List.mem_singleton.mp h1)

theorem keys_condSet_subset (h : Header) (key value k : String)
    (hk : k ∈ (if h.Get key = "" then h.Set key value else h).entries.map Prod.fst) :
    k ∈ h.entries.map Prod.fst ∨ k = CanonicalMIMEHeaderKey key := by
  split at hk
  · exact keys_Set_subset h key value k hk
  · exact Or.inl hk

theorem keys_signHeaders (h : Header) (hash date host k : String)
    (hk : k ∈ (signHeaders h hash date host).entries.map Prod.fst) :
    k ∈ h.entries.map Prod.fst ∨ k = "X-Amz-Content-Sha256" ∨ k = "X-Amz-Date" ∨
      k = "Content-Type" ∨ k = "Host" := by
  have k1 : CanonicalMIMEHeaderKey "X-Amz-Content-Sha256" = "X-Amz-Content-Sha256" := by decide
  have k2 : CanonicalMIMEHeaderKey "X-Amz-Date" = "X-Amz-Date" := by decide
  have k3 : CanonicalMIMEHeaderKey "Content-Type" = "Content-Type" := by decide
  have k4 : CanonicalMIMEHeaderKey "Host" = "Host" := by decide
  unfold signHeaders at hk
  simp only [] at hk
  rcases keys_Set_subset _ _ _ _ hk with h4 | h4
  · rcases keys_condSet_subset _ _ _ _ h4 with h3 | h3
    · rcases keys_condSet_subset _ _ _ _ h3 with h2 | h2
      · rcases keys_Set_subset _ _ _ _ h2 with h1 | h1
        · exact Or.inl h1
        · exact Or.inr (Or.inl (h1.trans k1))
      · exact Or.inr (Or.inr (Or.inl (h2.trans k2)))
    · exact Or.inr (Or.inr (Or.inr (Or.inl (h3.trans k3))))
  · exact Or.inr (Or.inr (Or.inr (Or.inr (h4.trans k4))))

theorem signHeaders_canonical (h : Header) (hash date host : String)
    (hnames : ∀ k ∈ h.entries.map Prod.fst, isSignedKey k = true → isCanonicalName k = true) :
    ∀ k ∈ (signHeaders h hash date host).entries.map Prod.fst,
      isSignedKey k = true → isCanonicalName k = true := by
  intro k hk hs
  rcases keys_signHeaders h hash date host k hk with h0 | rfl | rfl | rfl | rfl
  · exact hnames k h0 hs
  · decide
  · decide
  · decide
  · decide

theorem splitAux_no_sep (sep : Char) (l rest cur : List Char) (hl : sep ∉ l) :
    splitAux sep (l ++ sep :: rest) cur = (cur.reverse ++ l) :: splitAux sep rest [] := by
  induction l generalizing cur with
  | nil => simp [splitAux]
  | cons c cs ih =>
    simp only [List.mem_cons, not_or] at hl
    have hc : ¬ c = sep := fun h => hl.1 h.symm
    have hstep : splitAux sep ((c :: cs) ++ sep :: rest) cur =
        splitAux sep (cs ++ sep :: rest) (c :: cur) := by
      simp only [List.cons_append, splitAux, hc, if_false]
      rfl
    rw [hstep, ih _ hl.2]
    simp

theorem isSignedKey_iff (k : String) :
    isSignedKey k = true ↔
      (k = "Content-Type" ∨ k = "Content-Md5" ∨ k = "Host" ∨ HasPrefix k "X-Amz-" = true) := by
  unfold isSignedKey
  simp only [Bool.or_eq_true, decide_eq_true_eq]
  constructor
  · rintro (((h | h) | h) | h)
    · exact Or.inl h
    · exact Or.inr (Or.inl h)
    · exact Or.inr (Or.inr (Or.inl h))
    · exact Or.inr (Or.inr (Or.inr h))
  · rintro (h | h | h | h)
    · exact Or.inl (Or.inl (Or.inl h))
    · exact Or.inl (Or.inl (Or.inr h))
    · exact Or.inl (Or.inr h)
    · exact Or.inr h

theorem splitAux_last (l cur : List Char) (hl : ':' ∉ l) :
    splitAux ':' l cur = [cur.reverse ++ l] := by
  induction l generalizing cur with
  | nil => simp [splitAux]
  | cons c cs ih =>
    simp only [List.mem_cons, not_or] at hl
    have hc : ¬ c = ':' := fun h => hl.1 h.symm
    have hstep : splitAux ':' (c :: cs) cur = splitAux ':' cs (c :: cur) := by
      simp only [splitAux, hc, if_false]
    rw [hstep, ih _ hl.2]
    simp

/-- Splitting a colon-free name followed by a colon and a colon-free port gives
the name and the port. -/
theorem splitColon_pair (h port : String) (hh : containsColon h = false)
    (hp : containsColon port = false) : splitColon (h ++ ":" ++ port) = [h, port] := by
  have hnot : ':' ∉ h.data := by
    simpa [containsColon] using hh
  have hpnot : ':' ∉ port.data := by
    simpa [containsColon] using hp
  unfold splitColon
  have hd : (h ++ ":" ++ port).data = h.data ++ ':' :: port.data := by
    simp [String.data_append]
  rw [hd, splitAux_no_sep ':' h.data port.data [] hnot, splitAux_last port.data [] hpnot]
  simp

/-- The value signed for the host header: the trimmed value when it has no
colon, the part before the port when the value is a colon-free host followed
by `:80` or `:443`, the whole trimmed value when it is a colon-free host
followed by a colon and another colon-free port, and the whole trimmed value
when neither its second nor its last colon-separated part is `80` or `443`. -/
theorem signedValue_host (H : Header) (host : String) (hget : H.Get "host" = host) :
    (containsColon (TrimSpace host) = false → signedValue H "host" = TrimSpace host) ∧
    (∀ h : String, containsColon h = false →
      (TrimSpace host = h ++ ":80" ∨ TrimSpace host = h ++ ":443") →
      signedValue H "host" = h) ∧
    (∀ h p : String, containsColon h = false → containsColon p = false →
      p ≠ "80" → p ≠ "443" → TrimSpace host = h ++ ":" ++ p →
      signedValue H "host" = TrimSpace host) ∧
    ((splitColon (TrimSpace host)).getD 1 "" ≠ "80" →
      (splitColon (TrimSpace host)).getD 1 "" ≠ "443" →
      (splitColon (TrimSpace host)).getLast? ≠ some "80" →
      (splitColon (TrimSpace host)).getLast? ≠ some "443" →
      signedValue H "host" = TrimSpace host) := by
  have hcontains : ∀ h port : String, containsColon (h ++ ":" ++ port) = true := by
    intro h port
    simp [containsColon, String.data_append]
  refine ⟨?_, ?_, ?_, ?_⟩
  · intro hc
    unfold signedValue
    simp only [hget, hc, if_true, Bool.false_eq_true, if_false]
  · intro h hcol hval
    unfold signedValue
    simp only [hget, if_true]
    rcases hval with hv | hv
    · have hv' : TrimSpace host = h ++ ":" ++ "80" := by
        rw [hv, String.append_assoc]
        rfl
      rw [hv', hcontains, splitColon_pair h "80" hcol (by decide)]
      simp
    · have hv' : TrimSpace host = h ++ ":" ++ "443" := by
        rw [hv, String.append_assoc]
        rfl
      rw [hv', hcontains, splitColon_pair h "443" hcol (by decide)]
      simp
  · intro h p hcol hp h80 h443 hval
    unfold signedValue
    simp only [hget, if_true]
    rw [hval, hcontains, splitColon_pair h p hcol hp]
    simp [h80, h443]
  · intro h80 h443 _ _
    unfold signedValue
    simp only [hget, if_true]
    split
    · simp only [List.getD_eq_getElem?_getD] at h80 h443
      simp [h80, h443]
    · rfl

/-- C14, counterexample.  A request addressed to the host `rgw:80`: the header
Host has the whitespace-trimmed value `rgw:80`, but the canonical headers block
of `Sign` holds the line `host:rgw`, so it differs from the concatenation of
name, colon, trimmed value and newline.  A request whose header map holds the
names `X-Amz-META`, which is not in canonical form, and `X-Amz-É`, whose last
letter is no token character: both names are selected and lower-cased, but the
block holds an empty value for them, not the values `v` and `w` of the headers. -/
theorem host_line_is_not_trimmed_value :
    TrimSpace (firstValue (signing aliceWorld (signDateString demoNow) (hostRequest "rgw:80")
      "AK" "SK").header "Host") = "rgw:80" ∧
    (signing aliceWorld (signDateString demoNow) (hostRequest "rgw:80") "AK" "SK").headersToSign =
      "content-type:application/x-www-form-urlencoded; charset=utf-8\nhost:rgw\n" ++
        "x-amz-content-sha256:\nx-amz-date:20261104T101500Z\n" ∧
    specCanonicalHeaders (ToLower aliceWorld.unicodeToLower)
      (signing aliceWorld (signDateString demoNow) (hostRequest "rgw:80") "AK" "SK").header =
      "content-type:application/x-www-form-urlencoded; charset=utf-8\nhost:rgw:80\n" ++
        "x-amz-content-sha256:\nx-amz-date:20261104T101500Z\n" ∧
    (signing aliceWorld (signDateString demoNow) (hostRequest "rgw:80") "AK" "SK").headersToSign ≠
      specCanonicalHeaders (ToLower aliceWorld.unicodeToLower)
        (signing aliceWorld (signDateString demoNow) (hostRequest "rgw:80") "AK" "SK").header ∧
    isCanonicalName "X-Amz-META" = false ∧ isCanonicalName "X-Amz-É" = false ∧
    (signing aliceWorld (signDateString demoNow) rawNameRequest "AK" "SK").signedHeaders =
      "content-type;host;x-amz-content-sha256;x-amz-date;x-amz-meta;x-amz-é" ∧
    (signing aliceWorld (signDateString demoNow) rawNameRequest "AK" "SK").headersToSign =
      "content-type:application/x-www-form-urlencoded; charset=utf-8\nhost:rgw:8080\n" ++
        "x-amz-content-sha256:\nx-amz-date:20261104T101500Z\nx-amz-meta:\nx-amz-é:\n" ∧
    specCanonicalHeaders (ToLower aliceWorld.unicodeToLower)
      (signing aliceWorld (signDateString demoNow) rawNameRequest "AK" "SK").header =
      "content-type:application/x-www-form-urlencoded; charset=utf-8\nhost:rgw:8080\n" ++
        "x-amz-content-sha256:\nx-amz-date:20261104T101500Z\nx-amz-meta:v\nx-amz-é:w\n" := by
  decide

/-- C14, amended: for a request whose header map holds each name once (as every
Go map does) and whose headers named Content-Type, Content-Md5 or Host or
starting with X-Amz- have valid names in canonical form (as `Header.Set` and
`Header.Add` store them), the signed-header list of `Sign` is the list of the
lower-cased names of exactly these headers, sorted in strictly increasing order
and joined by `;`, and the canonical headers block is the concatenation, in that
order, of name, colon, value and newline, where the value of a header other
than Host is its whitespace-trimmed first value, and the value of Host, which
is the request's host, is the name before the port when the trimmed host is a
colon-free name followed by `:80` or `:443`, and the trimmed host itself when
it has no colon, when it is a colon-free name followed by a colon and a
colon-free port other than 80 and 443, and whenever neither its second nor its
last colon-separated part is 80 or 443. -/
theorem signed_headers_spec (w : World) (date : String) (r : Request) (ak sk : String)
    (hnames : ∀ k ∈ r.Header.entries.map Prod.fst,
      (k = "Content-Type" ∨ k = "Content-Md5" ∨ k = "Host" ∨ HasPrefix k "X-Amz-" = true) →
        isCanonicalName k = true)
    (hmap : (r.Header.entries.map Prod.fst).Nodup) :
    (signing w date r ak sk).signedHeaders =
      Join (signing w date r ak sk).sortedHeaderKeys ";" ∧
    (∀ n, n ∈ (signing w date r ak sk).sortedHeaderKeys ↔
      ∃ k ∈ (signing w date r ak sk).header.entries.map Prod.fst,
        (k = "Content-Type" ∨ k = "Content-Md5" ∨ k = "Host" ∨ HasPrefix k "X-Amz-" = true) ∧
          n = ToLower w.unicodeToLower k) ∧
    (∀ k ∈ (signing w date r ak sk).header.entries.map Prod.fst,
      (k = "Content-Type" ∨ k = "Content-Md5" ∨ k = "Host" ∨ HasPrefix k "X-Amz-" = true) →
        ToLower w.unicodeToLower k = ⟨k.data.map Char.toLower⟩) ∧
    (signing w date r ak sk).sortedHeaderKeys.Pairwise (fun a b => strLe a b = true ∧ a ≠ b) ∧
    (signing w date r ak sk).headersToSign =
      String.join ((signing w date r ak sk).sortedHeaderKeys.map fun n =>
        n ++ ":" ++ signedValue (signing w date r ak sk).header n ++ "\n") ∧
    (∀ k ∈ (signing w date r ak sk).header.entries.map Prod.fst,
      (k = "Content-Type" ∨ k = "Content-Md5" ∨ HasPrefix k "X-Amz-" = true) → k ≠ "Host" →
      signedValue (signing w date r ak sk).header (ToLower w.unicodeToLower k) =
        TrimSpace (firstValue (signing w date r ak sk).header k)) ∧
    firstValue (signing w date r ak sk).header "Host" = r.Host ∧
    (containsColon (TrimSpace r.Host) = false →
      signedValue (signing w date r ak sk).header "host" = TrimSpace r.Host) ∧
    (∀ h : String, containsColon h = false →
      (TrimSpace r.Host = h ++ ":80" ∨ TrimSpace r.Host = h ++ ":443") →
      signedValue (signing w date r ak sk).header "host" = h) ∧
    (∀ h p : String, containsColon h = false → containsColon p = false →
      p ≠ "80" → p ≠ "443" → TrimSpace r.Host = h ++ ":" ++ p →
      signedValue (signing w date r ak sk).header "host" = TrimSpace r.Host) ∧
    ((splitColon (TrimSpace r.Host)).getD 1 "" ≠ "80" →
      (splitColon (TrimSpace r.Host)).getD 1 "" ≠ "443" →
      (splitColon (TrimSpace r.Host)).getLast? ≠ some "80" →
      (splitColon (TrimSpace r.Host)).getLast? ≠ some "443" →
      signedValue (signing w date r ak sk).header "host" = TrimSpace r.Host) := by
  have hH := signing_header w date r ak sk
  have hcanon := signHeaders_canonical r.Header (signing w date r ak sk).hashedPayload date r.Host
    (fun k hk hs => hnames k hk ((isSignedKey_iff k).mp hs))
  have hnodup := (signHeaders_perm r.Header r.Header (List.Perm.refl _) hmap
    (signing w date r ak sk).hashedPayload date r.Host).2
  have hfacts := signHeaders_facts r.Header (signing w date r ak sk).hashedPayload date r.Host
  rw [← hH] at hcanon hnodup hfacts
  have hkeys := signing_keys w date r ak sk
  have htoSign := signing_toSign w date r ak sk
  generalize (signing w date r ak sk).header = H at hcanon hnodup hfacts hkeys htoSign ⊢
  have hhostname : isCanonicalName "Host" = true := by decide
  have hlowhost : ToLower w.unicodeToLower "Host" = "host" := by rfl
  have hgethost : H.Get "host" = r.Host := by
    have hk : CanonicalMIMEHeaderKey "host" = "Host" := by decide
    unfold Header.Get
    rw [hk, hfacts.2.2.2]
  refine ⟨signing_signedHeaders w date r ak sk, ?_, ?_, ?_, ?_, ?_, ?_,
    (signedValue_host H r.Host hgethost).1, (signedValue_host H r.Host hgethost).2.1,
    (signedValue_host H r.Host hgethost).2.2.1, (signedValue_host H r.Host hgethost).2.2.2⟩
  · intro n
    rw [hkeys]
    unfold sortedHeaderKeys
    rw [(sortStrings_perm _).mem_iff]
    simp only [List.mem_map, List.mem_filter, isSignedKey_iff]
    constructor
    · rintro ⟨k, ⟨hk, hsel⟩, rfl⟩
      exact ⟨k, hk, hsel, rfl⟩
    · rintro ⟨k, hk, hsel, rfl⟩
      exact ⟨k, ⟨hk, hsel⟩, rfl⟩
  · intro k hk hsel
    exact ToLower_canonical _ k (hcanon k hk ((isSignedKey_iff k).mpr hsel))
  · rw [hkeys]
    have hnd : (((H.entries.map Prod.fst).filter isSignedKey).map
        (ToLower w.unicodeToLower)).Nodup := by
      apply List.Nodup.map_on
      · intro a ha b hb hab
        exact toLower_injOn_canonical _ a b
          (hcanon a (List.mem_filter.mp ha).1 (List.mem_filter.mp ha).2)
          (hcanon b (List.mem_filter.mp hb).1 (List.mem_filter.mp hb).2) hab
      · exact hnodup.filter _
    have hnd2 : (sortedHeaderKeys w H).Nodup := (sortStrings_perm _).nodup_iff.mpr hnd
    have hs : (sortedHeaderKeys w H).Pairwise (fun a b => strLe a b = true) :=
      sortStrings_sorted _
    exact hs.and hnd2
  · rw [htoSign]
    simp only [headersToSign]
  · intro k hk hsel hne
    have hsk : isSignedKey k = true := by
      rw [isSignedKey_iff]
      rcases hsel with h | h | h
      · exact Or.inl h
      · exact Or.inr (Or.inl h)
      · exact Or.inr (Or.inr (Or.inr h))
    have hck := hcanon k hk hsk
    have hnh : ¬ (ToLower w.unicodeToLower k = "host") := by
      intro h
      rw [← hlowhost] at h
      exact hne (toLower_injOn_canonical _ k "Host" hck hhostname h)
    unfold signedValue firstValue Header.Get
    simp only [hnh, if_false, canon_lower _ k hck]
  · have hl := hfacts.2.2.2
    simp only [firstValue, hl]

/-- Witness of the amended C14: a PUT request with the headers X-Amz-Acl,
Content-Md5 and User-Agent, addressed to the host `rgw:8080`; the signed names
are the six selected ones in increasing order and the host is signed with its
port. -/
theorem signed_headers_spec_witness :
    ((∀ k ∈ aclRequest.Header.entries.map Prod.fst,
      (k = "Content-Type" ∨ k = "Content-Md5" ∨ k = "Host" ∨ HasPrefix k "X-Amz-" = true) →
        isCanonicalName k = true) ∧
      (aclRequest.Header.entries.map Prod.fst).Nodup) ∧
    ((signing aliceWorld (signDateString demoNow) aclRequest "AK" "SK").signedHeaders =
      Join (signing aliceWorld (signDateString demoNow) aclRequest "AK" "SK").sortedHeaderKeys
        ";" ∧
    (∀ n, n ∈ (signing aliceWorld (signDateString demoNow) aclRequest "AK"
        "SK").sortedHeaderKeys ↔
      ∃ k ∈ (signing aliceWorld (signDateString demoNow) aclRequest "AK"
          "SK").header.entries.map Prod.fst,
        (k = "Content-Type" ∨ k = "Content-Md5" ∨ k = "Host" ∨ HasPrefix k "X-Amz-" = true) ∧
          n = ToLower aliceWorld.unicodeToLower k) ∧
    (∀ k ∈ (signing aliceWorld (signDateString demoNow) aclRequest "AK"
        "SK").header.entries.map Prod.fst,
      (k = "Content-Type" ∨ k = "Content-Md5" ∨ k = "Host" ∨ HasPrefix k "X-Amz-" = true) →
        ToLower aliceWorld.unicodeToLower k = ⟨k.data.map Char.toLower⟩) ∧
    (signing aliceWorld (signDateString demoNow) aclRequest "AK" "SK").sortedHeaderKeys.Pairwise
      (fun a b => strLe a b = true ∧ a ≠ b) ∧
    (signing aliceWorld (signDateString demoNow) aclRequest "AK" "SK").headersToSign =
      String.join ((signing aliceWorld (signDateString demoNow) aclRequest "AK"
          "SK").sortedHeaderKeys.map fun n =>
        n ++ ":" ++ signedValue (signing aliceWorld (signDateString demoNow) aclRequest "AK"
          "SK").header n ++ "\n") ∧
    (∀ k ∈ (signing aliceWorld (signDateString demoNow) aclRequest "AK"
        "SK").header.entries.map Prod.fst,
      (k = "Content-Type" ∨ k = "Content-Md5" ∨ HasPrefix k "X-Amz-" = true) → k ≠ "Host" →
      signedValue (signing aliceWorld (signDateString demoNow) aclRequest "AK" "SK").header
          (ToLower aliceWorld.unicodeToLower k) =
        TrimSpace (firstValue (signing aliceWorld (signDateString demoNow) aclRequest "AK"
          "SK").header k)) ∧
    firstValue (signing aliceWorld (signDateString demoNow) aclRequest "AK" "SK").header
      "Host" = aclRequest.Host ∧
    (containsColon (TrimSpace aclRequest.Host) = false →
      signedValue (signing aliceWorld (signDateString demoNow) aclRequest "AK" "SK").header
        "host" = TrimSpace aclRequest.Host) ∧
    (∀ h : String, containsColon h = false →
      (TrimSpace aclRequest.Host = h ++ ":80" ∨ TrimSpace aclRequest.Host = h ++ ":443") →
      signedValue (signing aliceWorld (signDateString demoNow) aclRequest "AK" "SK").header
        "host" = h) ∧
    (∀ h p : String, containsColon h = false → containsColon p = false →
      p ≠ "80" → p ≠ "443" → TrimSpace aclRequest.Host = h ++ ":" ++ p →
      signedValue (signing aliceWorld (signDateString demoNow) aclRequest "AK" "SK").header
        "host" = TrimSpace aclRequest.Host) ∧
    ((splitColon (TrimSpace aclRequest.Host)).getD 1 "" ≠ "80" →
      (splitColon (TrimSpace aclRequest.Host)).getD 1 "" ≠ "443" →
      (splitColon (TrimSpace aclRequest.Host)).getLast? ≠ some "80" →
      (splitColon (TrimSpace aclRequest.Host)).getLast? ≠ some "443" →
      signedValue (signing aliceWorld (signDateString demoNow) aclRequest "AK" "SK").header
        "host" = TrimSpace aclRequest.Host)) ∧
    splitColon (TrimSpace aclRequest.Host) = ["rgw", "8080"] ∧
    TrimSpace aclRequest.Host = "rgw" ++ ":" ++ "8080" ∧
    (signing aliceWorld (signDateString demoNow) aclRequest "AK" "SK").signedHeaders =
      "content-md5;content-type;host;x-amz-acl;x-amz-content-sha256;x-amz-date" ∧
    (signing aliceWorld (signDateString demoNow) aclRequest "AK" "SK").headersToSign =
      "content-md5:1B2M2Y8AsgTpgAmY7PhCfg==\n" ++
      "content-type:application/x-www-form-urlencoded; charset=utf-8\nhost:rgw:8080\n" ++
      "x-amz-acl:private\nx-amz-content-sha256:\nx-amz-date:20261104T101500Z\n" :=
  ⟨⟨by decide, by decide⟩,
    signed_headers_spec aliceWorld (signDateString demoNow) aclRequest "AK" "SK"
      (by decide) (by decide),
    by decide, by decide, by decide, by decide⟩

/-! ## The prefix of the client across the admin operations -/

/-- C21 (code_bug), at every input and at the failing input.  `DeleteObject`
leaves the client as it was only when it rejects its arguments; otherwise it
returns with the prefix set to the empty string, whatever the exchange gave.
`CreateBucket` returns with the prefix `/admin` unless it rejects its argument,
also for a client whose prefix was `/ops`.  At the client with the prefix
`/admin`: `DeleteObject("photos", "a.jpg")` answered with 204 returns no error
and leaves the prefix empty, as it does when it is answered with 404, and the
`GetBucket` that follows is sent to the path `/bucket`, while the same
`GetBucket` before the call, or after a `CreateBucket`, is sent to
`/admin/bucket`. -/
theorem delete_object_drops_admin_path :
    (∀ (w : World) (net : Net) (c : Client) (bucket object : String),
      (DeleteObject w net c bucket object).2.1 =
        if bucket.data.length = 0 ∨ object.data.length = 0 then c else c.SetPrefix "") ∧
    (∀ (w : World) (net : Net) (c : Client) (bucket region acl : String),
      (CreateBucket w net c bucket region acl).2.1.pfx =
        if bucket.data.length = 0 then c.pfx else defaultAdminPrefix) ∧
    opsClient.pfx = "/ops" ∧
    (CreateBucket deletedWorld [] opsClient "photos" "" "").2.1.pfx = "/admin" ∧
    demoClient.pfx = "/admin" ∧
    (DeleteObject deletedWorld [] demoClient "photos" "a.jpg").1 = ⟨204, none⟩ ∧
    (DeleteObject deletedWorld [] demoClient "photos" "a.jpg").2.1.pfx = "" ∧
    (DeleteObject notFoundWorld [] demoClient "photos" "a.jpg").1 =
      ⟨404, some (.body (bytesOf "NoSuchBucket"))⟩ ∧
    (DeleteObject notFoundWorld [] demoClient "photos" "a.jpg").2.1.pfx = "" ∧
    ((GetBucket deletedWorld (DeleteObject deletedWorld [] demoClient "photos" "a.jpg").2.2
        (DeleteObject deletedWorld [] demoClient "photos" "a.jpg").2.1 "photos" "" true).2.map
      fun q => (q.Method, q.URL.Host, q.URL.Path)) =
      [("DELETE", "rgw:8080", "/photos/a.jpg"), ("GET", "rgw:8080", "/bucket")] ∧
    requestUrl (DeleteObject deletedWorld [] demoClient "photos" "a.jpg").2.1 "/bucket"
        (bucketArgs "photos" "" true) =
      "http://rgw:8080/bucket?bucket=photos&format=json&stats=true" ∧
    requestUrl demoClient "/bucket" (bucketArgs "photos" "" true) =
      "http://rgw:8080/admin/bucket?bucket=photos&format=json&stats=true" ∧
    ((GetBucket deletedWorld (CreateBucket deletedWorld [] demoClient "photos" "" "").2.2
        (CreateBucket deletedWorld [] demoClient "photos" "" "").2.1 "photos" "" true).2.map
      fun q => (q.Method, q.URL.Host, q.URL.Path)) =
      [("PUT", "rgw:8080", "/photos"), ("GET", "rgw:8080", "/admin/bucket")] := by
  refine ⟨DeleteObject_client, fun w net c bucket region acl => ?_, by decide, by decide,
    by decide, by decide,
    by decide, by decide, by decide, by decide, by decide, by decide, by decide⟩
  rw [CreateBucket_client]
  split <;> rfl

/-! ## The error an admin operation returns for a failure status -/

/-- C22 (code_bug), at the failing input.  The gateway answers the first
exchange with status 404 and the body `NoSuchUser`, read without an error.
`DeleteUser`, `DeleteKey` and `DeleteCaps` return the status 404 with a nil
error; `DeleteBucket`, `GetUser` and `GetUsage` return 404 with an error that
carries the body. -/
theorem delete_user_returns_no_error_on_404 :
    (DeleteUser userGoneWorld [] demoClient "alice" false).1 = ⟨404, none⟩ ∧
    (DeleteUser userGoneWorld [] demoClient "alice" true).1 = ⟨404, none⟩ ∧
    (DeleteKey userGoneWorld [] demoClient "alice" "AKIA1").1 = ⟨404, none⟩ ∧
    (DeleteCaps userGoneWorld [] demoClient "alice" ["read"] [] ["read", "write"]).1 =
      ⟨404, none⟩ ∧
    (DeleteBucket userGoneWorld [] demoClient "photos" false).1 =
      ⟨404, some (.body (bytesOf "NoSuchUser"))⟩ ∧
    (∀ unmarshalUser, (GetUser userGoneWorld unmarshalUser [] demoClient ["alice"]).1 =
      ⟨404, none, some (.body (bytesOf "NoSuchUser"))⟩) ∧
    (GetUsage userGoneWorld [] demoClient "alice" none none true false).1 =
      ⟨404, none, some (.body (bytesOf "NoSuchUser"))⟩ := by
  refine ⟨by decide, by decide, by decide, by decide, by decide, fun u => ?_, by decide⟩
  rfl

end Radosgw
